import Mathlib

/-!
# Lightrec dispatcher core (`lightrec.c`): memory-map layer and code LUT

A shallow embedding of the memory-map layer, the code look-up table (LUT)
and the dispatcher of `src/lightrec.c`.

Conventions of the embedding

* `u32` values are natural numbers reduced modulo `2 ^ 32` wherever the C
  code can wrap; host pointers (`uintptr_t`) are reduced modulo `2 ^ 64`.
* A pointer to a memory map is the index of that map in `state->maps`
  (`nb_maps` is the length of the list).  `&state->maps[PSX_MAP_KERNEL_USER_RAM]`
  is index `0`.
* `state->code_lut` is a function from slot index to entry; the entry `0` is
  the null pointer.  The allocation made by `lightrec_init` covers the
  indices below `maps[RAM].length >> 2`; the model records a write at any
  index the code computes.
* Callbacks are external code.  A call is recorded as an `Event`; the values
  that load callbacks return are supplied by the callback structure.
* `kunseg` and `LIGHTREC_DIRECT_IO` are declared in `lightrec-private.h` and
  `disassembler.h`, which `lightrec.c` includes; they are parameters of the
  functions that use them.  Other declarations of those headers (the layout of
  `struct opcode`, `struct block` and `struct lightrec_state`, the primary
  opcode numbers) are modelled from the specification and marked so.
* The outer stub built by `generate_wrapper_block` is modelled node by node on
  a host whose registers hold words of `W` bits (`__WORDSIZE`), 32 or 64.
-/

namespace Lightrec

/-! ## Machine integers -/

/-- Truncation to the C type `u32`. -/
def u32 (n : Nat) : Nat := n % 2 ^ 32

/-- Truncation to the C type `uintptr_t` of a 64-bit host. -/
def uptr (n : Nat) : Nat := n % 2 ^ 64

/-- The C expression `x & ~0x3` on a `u32`. -/
def align4 (x : Nat) : Nat := x / 4 * 4

/-- Sign extension of the low `bits` bits of `x` to a host word of `W` bits. -/
def sext (W bits x : Nat) : Nat :=
  if x % 2 ^ bits < 2 ^ (bits - 1) then x % 2 ^ bits else x % 2 ^ bits + (2 ^ W - 2 ^ bits)

/-- Signed comparison `a < b` of two host words of `W` bits. -/
def signed_lt (W a b : Nat) : Bool :=
  (a + 2 ^ (W - 1)) % 2 ^ W < (b + 2 ^ (W - 1)) % 2 ^ W

/-- Exit flags of `lightrec.h`. -/
def LIGHTREC_EXIT_NORMAL : Nat := 0
def LIGHTREC_EXIT_SYSCALL : Nat := 1
def LIGHTREC_EXIT_BREAK : Nat := 2
def LIGHTREC_EXIT_CHECK_INTERRUPT : Nat := 4
def LIGHTREC_EXIT_SEGFAULT : Nat := 8

/-- Values of `enum psx_map`, the indices of the fixed memory maps. -/
def PSX_MAP_KERNEL_USER_RAM : Nat := 0
def PSX_MAP_BIOS : Nat := 1
def PSX_MAP_SCRATCH_PAD : Nat := 2
def PSX_MAP_PARALLEL_PORT : Nat := 3
def PSX_MAP_HW_REGISTERS : Nat := 4
def PSX_MAP_CACHE_CONTROL : Nat := 5
def PSX_MAP_MIRROR1 : Nat := 6
def PSX_MAP_MIRROR2 : Nat := 7
def PSX_MAP_MIRROR3 : Nat := 8

/-! ## Data model -/

/-- The structure `lightrec_mem_map_ops`: the store callbacks `sb`, `sh`, `sw`
return nothing and only show up as events; of the load callbacks the model
keeps the value each returns for an address. -/
structure lightrec_mem_map_ops where
  lb : Nat → Nat
  lh : Nat → Nat
  lw : Nat → Nat

/-- The structure `lightrec_mem_map`.  The field `mirror_of` is the index of
the target map, `none` for a null pointer. -/
structure lightrec_mem_map where
  pc : Nat
  length : Nat
  address : Nat
  ops : Option lightrec_mem_map_ops
  mirror_of : Option Nat

/-- The structure `lightrec_cop_ops`: `mfc` and `cfc` return a value for a
register number; `mtc`, `ctc` and `op` only show up as events, and the
structure keeps the pointer to each as a number. -/
structure lightrec_cop_ops where
  mfc : Nat → Nat
  cfc : Nat → Nat
  mtc : Nat := 0
  ctc : Nat := 0
  op : Nat := 0

/-- The structure `lightrec_ops`. -/
structure lightrec_ops where
  cop0_ops : lightrec_cop_ops
  cop2_ops : lightrec_cop_ops

/-- Modelled from the spec: `struct lightrec_state` (declared in
`lightrec-private.h`), with the fields that `lightrec.c` reads and writes in the
functions modelled here: "the guest GPR file (32 words + HI + LO, addressed by
index), cycle counter and target, exit flags, a fixed-size array of memory
maps, and a code LUT", the per-region host offsets and the coprocessor
callbacks. -/
structure lightrec_state where
  native_reg_cache : List Nat
  next_pc : Nat
  current_cycle : Nat
  target_cycle : Nat
  exit_flags : Nat
  ops : lightrec_ops
  maps : List lightrec_mem_map
  offset_ram : Nat
  offset_bios : Nat
  offset_scratch : Nat
  mirrors_mapped : Bool
  code_lut : Nat → Nat

/-! ## Map lookup -/

/-- The loop of `lightrec_get_map`, over the maps from index `i` on: the first
map with `kaddr >= map->pc && kaddr < map->pc + map->length` (the sum is a
`u32` sum). -/
def lightrec_get_map_from (kaddr : Nat) : Nat → List lightrec_mem_map → Option Nat
  | _, [] => none
  | i, m :: rest =>
    if kaddr ≥ m.pc ∧ kaddr < u32 (m.pc + m.length) then some i
    else lightrec_get_map_from kaddr (i + 1) rest

/-- `lightrec_get_map(state, kaddr)`: index of the first map holding `kaddr`. -/
def lightrec_get_map (state : lightrec_state) (kaddr : Nat) : Option Nat :=
  lightrec_get_map_from kaddr 0 state.maps

/-- The loop `while (map->mirror_of) map = map->mirror_of;`.  The result is
`none` when the chain is not exhausted within `fuel` steps or leaves the map
array. -/
def follow_mirror (maps : List lightrec_mem_map) : Nat → Nat → Option Nat
  | 0, _ => none
  | fuel + 1, i =>
    match maps[i]? with
    | none => none
    | some m =>
      match m.mirror_of with
      | none => some i
      | some j => follow_mirror maps fuel j

/-! ## Code LUT invalidation -/

/-- `lightrec_invalidate_map(state, map, addr)`. -/
def lightrec_invalidate_map (state : lightrec_state) (map : Nat) (addr : Nat) :
    lightrec_state :=
  if map = PSX_MAP_KERNEL_USER_RAM then
    { state with code_lut := Function.update state.code_lut (addr / 4) 0 }
  else state

/-- The loop `for (; len > 4; len -= 4, kaddr += 4) lightrec_invalidate_map(...)`
of `lightrec_invalidate`; returns the state and the final `kaddr`. -/
def lightrec_invalidate_loop (map : Nat) : Nat → lightrec_state → Nat → lightrec_state × Nat
  | len + 5, state, kaddr =>
    lightrec_invalidate_loop map (len + 1) (lightrec_invalidate_map state map kaddr)
      (u32 (kaddr + 4))
  | _, state, kaddr => (state, kaddr)

/-- The field `state->maps[PSX_MAP_KERNEL_USER_RAM].length`. -/
def ram_length (state : lightrec_state) : Nat :=
  ((state.maps[PSX_MAP_KERNEL_USER_RAM]?).map (fun m => m.length)).getD 0

/-- The value of `kaddr` after `kaddr &= (state->maps[PSX_MAP_KERNEL_USER_RAM].length - 1)`
in `lightrec_invalidate`, the address the loop starts from. -/
def invalidate_start (kunseg : Nat → Nat) (state : lightrec_state) (addr : Nat) : Nat :=
  u32 (kunseg (align4 addr)) &&& u32 (ram_length state + (2 ^ 32 - 1))

/-- `lightrec_invalidate(state, addr, len)`.  `fuel` bounds the walk along
`mirror_of`; the result is `none` when that walk does not finish. -/
def lightrec_invalidate (kunseg : Nat → Nat) (fuel : Nat) (state : lightrec_state)
    (addr len : Nat) : Option lightrec_state :=
  let kaddr := u32 (kunseg (align4 addr))
  match lightrec_get_map state kaddr with
  | none => some state
  | some i =>
    match follow_mirror state.maps fuel i with
    | none => none
    | some map =>
      if map ≠ PSX_MAP_KERNEL_USER_RAM then some state
      else
        let kaddr := kaddr &&& u32 (ram_length state + (2 ^ 32 - 1))
        let r := lightrec_invalidate_loop map len state kaddr
        some (lightrec_invalidate_map r.1 map r.2)


/-! ## Opcodes -/

/-- Modelled from the spec: `struct opcode` (declared in `disassembler.h`), "a
tagged record decoded from a 32-bit guest word", with the raw word
(`op->opcode`, here `word`) and the set of flags. -/
structure opcode where
  word : Nat
  flags : Nat

/-- Modelled from the spec: the field `op->i.op` of the I-form view, "primary
op (6 bits)", bits 31..26 of the word. -/
def opcode.i_op (op : opcode) : Nat := op.word / 2 ^ 26 % 64

/-- Modelled from the spec: the field `op->i.rs` of the I-form `(rs, rt, imm16)`,
bits 25..21 of the word. -/
def opcode.i_rs (op : opcode) : Nat := op.word / 2 ^ 21 % 32

/-- Modelled from the spec: the field `op->i.rt` of the I-form `(rs, rt, imm16)`,
bits 20..16 of the word. -/
def opcode.i_rt (op : opcode) : Nat := op.word / 2 ^ 16 % 32

/-- Modelled from the spec: the field `op->i.imm` of the I-form `(rs, rt, imm16)`,
bits 15..0 of the word. -/
def opcode.i_imm (op : opcode) : Nat := op.word % 2 ^ 16

/-- Modelled from the spec: the primary opcode numbers `OP_*` (declared in
`disassembler.h`) that `lightrec_rw` switches on, as the MIPS-I encoding of the
guest fixes them. -/
def OP_LB : Nat := 0x20
def OP_LH : Nat := 0x21
def OP_LWL : Nat := 0x22
def OP_LW : Nat := 0x23
def OP_LBU : Nat := 0x24
def OP_LHU : Nat := 0x25
def OP_LWR : Nat := 0x26
def OP_SB : Nat := 0x28
def OP_SH : Nat := 0x29
def OP_SWL : Nat := 0x2a
def OP_SW : Nat := 0x2b
def OP_SWR : Nat := 0x2e
def OP_LWC2 : Nat := 0x32
def OP_SWC2 : Nat := 0x3a
def OP_CP0 : Nat := 0x10
def OP_CP2 : Nat := 0x12

/-- The conversion `(s32)(s8) x` read back as a `u32`. -/
def sext8 (x : Nat) : Nat := if x % 2 ^ 8 < 2 ^ 7 then x % 2 ^ 8 else x % 2 ^ 8 + (2 ^ 32 - 2 ^ 8)

/-- The conversion `(s32)(s16) x` read back as a `u32`. -/
def sext16 (x : Nat) : Nat :=
  if x % 2 ^ 16 < 2 ^ 15 then x % 2 ^ 16 else x % 2 ^ 16 + (2 ^ 32 - 2 ^ 16)

/-- The macro `GENMASK(h, l)` of `lightrec.c` with `__WORDSIZE == 64`:
`((~0UL) << l) & (~0UL >> (64 - 1 - h))`. -/
def GENMASK (h l : Nat) : Nat :=
  (((2 ^ 64 - 1) <<< l) % 2 ^ 64) &&& ((2 ^ 64 - 1) >>> (64 - 1 - h))

/-! ## Host memory and events -/

/-- Host memory: a byte for every host address. -/
abbrev host_mem := Nat → Nat

/-- Byte read `*(u8 *) a`. -/
def read8 (mem : host_mem) (a : Nat) : Nat := mem a % 2 ^ 8

/-- The read `LE16TOH(*(u16 *) a)`: a little-endian halfword. -/
def read16 (mem : host_mem) (a : Nat) : Nat := read8 mem a + 2 ^ 8 * read8 mem (a + 1)

/-- The read `LE32TOH(*(u32 *) a)`: a little-endian word. -/
def read32 (mem : host_mem) (a : Nat) : Nat :=
  read8 mem a + 2 ^ 8 * read8 mem (a + 1) + 2 ^ 16 * read8 mem (a + 2)
    + 2 ^ 24 * read8 mem (a + 3)

/-- Byte write `*(u8 *) a = v`. -/
def write8 (mem : host_mem) (a v : Nat) : host_mem := Function.update mem a (v % 2 ^ 8)

/-- The write `*(u16 *) a = HTOLE16(v)`. -/
def write16 (mem : host_mem) (a v : Nat) : host_mem :=
  write8 (write8 mem a v) (a + 1) (v / 2 ^ 8)

/-- The write `*(u32 *) a = HTOLE32(v)`. -/
def write32 (mem : host_mem) (a v : Nat) : host_mem :=
  write8 (write8 (write8 (write8 mem a v) (a + 1) (v / 2 ^ 8)) (a + 2) (v / 2 ^ 16))
    (a + 3) (v / 2 ^ 24)

/-- What `lightrec_rw` does to the outside of the state: calls of a map's
callbacks (with the index of the map, the guest address and the data), calls of
the COP2 callbacks, and native accesses to host memory (with host address and
size in bytes). -/
inductive Event where
  | cb_sb (map addr data : Nat)
  | cb_sh (map addr data : Nat)
  | cb_sw (map addr data : Nat)
  | cb_lb (map addr : Nat)
  | cb_lh (map addr : Nat)
  | cb_lw (map addr : Nat)
  | cop2_mfc (reg : Nat)
  | cop2_mtc (reg value : Nat)
  | host_load (addr size : Nat)
  | host_store (addr size value : Nat)
  deriving DecidableEq, Repr

/-- The map and guest address a map callback was called with. -/
def Event.callback : Event → Option (Nat × Nat)
  | .cb_sb m a _ => some (m, a)
  | .cb_sh m a _ => some (m, a)
  | .cb_sw m a _ => some (m, a)
  | .cb_lb m a => some (m, a)
  | .cb_lh m a => some (m, a)
  | .cb_lw m a => some (m, a)
  | _ => none

/-- The host address of a native access. -/
def Event.host_addr : Event → Option Nat
  | .host_load a _ => some a
  | .host_store a _ _ => some a
  | _ => none

/-- True for the calls of a callback (of a map or of COP2). -/
def Event.is_call : Event → Bool
  | .host_load _ _ => false
  | .host_store _ _ _ => false
  | _ => true

/-! ## `lightrec_rw` -/

/-- The outcome of `lightrec_rw`: the state, the opcode (whose flags it may
change), host memory, the events in order, and the returned `u32`. -/
structure rw_result where
  state : lightrec_state
  op : opcode
  mem : host_mem
  events : List Event
  ret : Nat

/-- `lightrec_set_exit_flags(state, flags)`. -/
def lightrec_set_exit_flags (state : lightrec_state) (flags : Nat) : lightrec_state :=
  { state with exit_flags := state.exit_flags ||| flags }

/-- `__segfault_cb(state, addr)`; the error message is not modelled. -/
def __segfault_cb (state : lightrec_state) (_addr : Nat) : lightrec_state :=
  lightrec_set_exit_flags state LIGHTREC_EXIT_SEGFAULT

/-- `lightrec_rw_ops(state, op, ops, addr, data)` for the callbacks `ops` of
map number `map`: the events and the returned value. -/
def lightrec_rw_ops (op : opcode) (map : Nat) (ops : lightrec_mem_map_ops) (addr data : Nat) :
    List Event × Nat :=
  if op.i_op = OP_SB then ([.cb_sb map addr (data % 2 ^ 8)], 0)
  else if op.i_op = OP_SH then ([.cb_sh map addr (data % 2 ^ 16)], 0)
  else if op.i_op = OP_SWL ∨ op.i_op = OP_SWR ∨ op.i_op = OP_SW then ([.cb_sw map addr data], 0)
  else if op.i_op = OP_LB then ([.cb_lb map addr], sext8 (ops.lb addr))
  else if op.i_op = OP_LBU then ([.cb_lb map addr], ops.lb addr % 2 ^ 8)
  else if op.i_op = OP_LH then ([.cb_lh map addr], sext16 (ops.lh addr))
  else if op.i_op = OP_LHU then ([.cb_lh map addr], ops.lh addr % 2 ^ 16)
  else ([.cb_lw map addr], u32 (ops.lw addr))

/-- The memory map a map pointer points to. -/
def map_at (state : lightrec_state) (i : Nat) : lightrec_mem_map :=
  state.maps.getD i { pc := 0, length := 0, address := 0, ops := none, mirror_of := none }

/-- The effective address `addr + (s16) op->i.imm` of `lightrec_rw`. -/
def rw_addr (op : opcode) (addr : Nat) : Nat := u32 (addr + sext16 op.i_imm)

/-- The switch of `lightrec_rw` over `op->i.op` on a map without callbacks:
`map` is the map the mirror chain ends at, `kaddr` the offset into the map that
was hit and `new_addr` the host address. -/
def lightrec_rw_direct (state : lightrec_state) (op : opcode) (mem : host_mem)
    (map kaddr new_addr data : Nat) : rw_result :=
  if op.i_op = OP_SB then
    { state := lightrec_invalidate_map state map kaddr, op := op,
      mem := write8 mem new_addr data,
      events := [.host_store new_addr 1 (data % 2 ^ 8)], ret := 0 }
  else if op.i_op = OP_SH then
    { state := lightrec_invalidate_map state map kaddr, op := op,
      mem := write16 mem new_addr (data % 2 ^ 16),
      events := [.host_store new_addr 2 (data % 2 ^ 16)], ret := 0 }
  else if op.i_op = OP_SWL then
    let shift := kaddr % 4
    let mem_data := read32 mem (align4 new_addr)
    let mask := u32 (GENMASK 31 ((shift + 1) * 8))
    let v := u32 ((data >>> ((3 - shift) * 8)) ||| (mem_data &&& mask))
    { state := lightrec_invalidate_map state map (align4 kaddr), op := op,
      mem := write32 mem (align4 new_addr) v,
      events := [.host_load (align4 new_addr) 4, .host_store (align4 new_addr) 4 v], ret := 0 }
  else if op.i_op = OP_SWR then
    let shift := kaddr % 4
    let mem_data := read32 mem (align4 new_addr)
    let mask := (1 <<< (shift * 8)) - 1
    let v := u32 ((data <<< (shift * 8)) ||| (mem_data &&& mask))
    { state := lightrec_invalidate_map state map (align4 kaddr), op := op,
      mem := write32 mem (align4 new_addr) v,
      events := [.host_load (align4 new_addr) 4, .host_store (align4 new_addr) 4 v], ret := 0 }
  else if op.i_op = OP_SW then
    { state := lightrec_invalidate_map state map kaddr, op := op,
      mem := write32 mem new_addr (u32 data),
      events := [.host_store new_addr 4 (u32 data)], ret := 0 }
  else if op.i_op = OP_SWC2 then
    let v := u32 (state.ops.cop2_ops.mfc op.i_rt)
    { state := lightrec_invalidate_map state map kaddr, op := op,
      mem := write32 mem new_addr v,
      events := [.cop2_mfc op.i_rt, .host_store new_addr 4 v], ret := 0 }
  else if op.i_op = OP_LB then
    { state := state, op := op, mem := mem, events := [.host_load new_addr 1],
      ret := sext8 (read8 mem new_addr) }
  else if op.i_op = OP_LBU then
    { state := state, op := op, mem := mem, events := [.host_load new_addr 1],
      ret := read8 mem new_addr }
  else if op.i_op = OP_LH then
    { state := state, op := op, mem := mem, events := [.host_load new_addr 2],
      ret := sext16 (read16 mem new_addr) }
  else if op.i_op = OP_LHU then
    { state := state, op := op, mem := mem, events := [.host_load new_addr 2],
      ret := read16 mem new_addr }
  else if op.i_op = OP_LWL then
    let shift := kaddr % 4
    let mem_data := read32 mem (align4 new_addr)
    let mask := (1 <<< (24 - shift * 8)) - 1
    { state := state, op := op, mem := mem, events := [.host_load (align4 new_addr) 4],
      ret := u32 ((data &&& mask) ||| u32 (mem_data <<< (24 - shift * 8))) }
  else if op.i_op = OP_LWR then
    let shift := kaddr % 4
    let mem_data := read32 mem (align4 new_addr)
    let mask := u32 (GENMASK 31 (32 - shift * 8))
    { state := state, op := op, mem := mem, events := [.host_load (align4 new_addr) 4],
      ret := u32 ((data &&& mask) ||| (mem_data >>> (shift * 8))) }
  else if op.i_op = OP_LWC2 then
    { state := state, op := op, mem := mem,
      events := [.host_load new_addr 4, .cop2_mtc op.i_rt (read32 mem new_addr)], ret := 0 }
  else
    { state := state, op := op, mem := mem, events := [.host_load new_addr 4],
      ret := read32 mem new_addr }

/-- `lightrec_rw(state, op, addr, data)`.  `kunseg` and the flag
`LIGHTREC_DIRECT_IO` are parameters, `fuel` bounds the walk along `mirror_of`;
the result is `none` when that walk does not finish. -/
def lightrec_rw (kunseg : Nat → Nat) ( LIGHTREC_DIRECT_IO : Nat) (fuel : Nat)
    (state : lightrec_state) (op : opcode) (mem : host_mem) (addr data : Nat) :
    Option rw_result :=
  let addr := rw_addr op addr
  let kaddr := u32 (kunseg addr)
  match lightrec_get_map state kaddr with
  | none =>
    some { state := __segfault_cb state addr, op := op, mem := mem, events := [], ret := 0 }
  | some i =>
    let pc := (map_at state i).pc
    match (map_at state i).ops with
    | some ops =>
      let r := lightrec_rw_ops op i ops addr data
      some { state := state, op := op, mem := mem, events := r.1, ret := r.2 }
    | none =>
      match follow_mirror state.maps fuel i with
      | none => none
      | some map =>
        let op := { op with flags := op.flags ||| LIGHTREC_DIRECT_IO }
        let kaddr := u32 (kaddr + (2 ^ 32 - pc))
        let new_addr := uptr ((map_at state map).address + kaddr)
        some (lightrec_rw_direct state op mem map kaddr new_addr data)

/-- The store opcodes `lightrec_rw` has a case for: SB, SH, SW, SWL, SWR, SWC2. -/
def is_store (o : Nat) : Bool :=
  o = OP_SB ∨ o = OP_SH ∨ o = OP_SW ∨ o = OP_SWL ∨ o = OP_SWR ∨ o = OP_SWC2

/-- The opcodes whose native access is to the aligned word around the
address: LWL, LWR, SWL, SWR. -/
def is_unaligned_word_op (o : Nat) : Bool :=
  o = OP_LWL ∨ o = OP_LWR ∨ o = OP_SWL ∨ o = OP_SWR

/-! ## Register dump and restore -/

/-- The call `memcpy(dst, src, n * sizeof(u32))` on word arrays: the first `n`
words of `dst` are replaced by the first `n` words of `src`. -/
def memcpy_words (dst src : List Nat) (n : Nat) : List Nat := src.take n ++ dst.drop n

/-- Modelled from the spec: the size of `state->native_reg_cache` (declared in
`lightrec-private.h`), "32 words + HI + LO", which is also the size of the
`u32 regs[34]` of `lightrec.h`; `sizeof(state->native_reg_cache)` is this many
words. -/
def NATIVE_REG_CACHE_WORDS : Nat := 34

/-- `lightrec_dump_registers(state, regs)`: the buffer after the call. -/
def lightrec_dump_registers (state : lightrec_state) (regs : List Nat) : List Nat :=
  memcpy_words regs state.native_reg_cache NATIVE_REG_CACHE_WORDS

/-- `lightrec_restore_registers(state, regs)`: the state after the call. -/
def lightrec_restore_registers (state : lightrec_state) (regs : List Nat) : lightrec_state :=
  { state with
    native_reg_cache := memcpy_words state.native_reg_cache regs NATIVE_REG_CACHE_WORDS }

/-! ## Blocks: precompilation and compilation -/

/-- Modelled from the spec: `struct block` (declared in `lightrec-private.h`),
with the fields that `lightrec.c` sets: "entry guest PC (segmented); entry
guest PC (unsegmented); pointer into guest memory where the source bytes live;
... the opcode list; the emitted native entry point (nullable until
compilation); accumulated guest cycles; flags".  `map` is the index of the
memory map, `function` the entry point (0 for null), `jit` the code-builder
state `_jit` (`none` for null). -/
structure block where
  pc : Nat
  kunseg_pc : Nat
  map : Nat
  function : Nat
  opcode_list : List opcode
  cycles : Nat
  code : Nat
  length : Nat
  flags : Nat
  jit : Option Nat

/-- `lightrec_precompile_block(state, pc)`.  Parameters stand for what lies
outside `lightrec.c`: whether `malloc` succeeds, the disassembler (from the host
address of the code to the opcode list and the block length, `none` for a null
list) and the optimizer.  The outer `none` is a walk along `mirror_of` that does
not finish; `some none` is the null return. -/
def lightrec_precompile_block (kunseg : Nat → Nat) (fuel : Nat) (state : lightrec_state)
    (pc : Nat) (malloc_ok : Bool) (lightrec_disassemble : Nat → Option (List opcode × Nat))
    (lightrec_optimize : List opcode → List opcode) : Option (Option block) :=
  let kunseg_pc := u32 (kunseg pc)
  match lightrec_get_map state kunseg_pc with
  | none => some none
  | some i =>
    let addr := u32 (kunseg_pc + (2 ^ 32 - (map_at state i).pc))
    match follow_mirror state.maps fuel i with
    | none => none
    | some map =>
      let code := uptr ((map_at state map).address + addr)
      if malloc_ok = false then some none
      else
        match lightrec_disassemble code with
        | none => some none
        | some (list, length) =>
          some (some
            { pc := pc
              kunseg_pc := u32 ((map_at state map).pc + addr)
              map := map
              function := 0
              opcode_list := lightrec_optimize list
              cycles := 0
              code := code
              length := length
              flags := 0
              jit := none })

/-- The outcome of `lightrec_compile_block`: the state of the block, the block
and the returned `int`. -/
structure compile_result where
  state : lightrec_state
  block : block
  ret : Int

/-- The constant `ENOMEM` of `errno.h`. -/
def ENOMEM : Int := 12

/-- `lightrec_compile_block(block)` on the state `block->state`.  Parameters
stand for the code builder: `new_jit` is what `jit_new_state()` returns (`none`
for null), `emitted` what `jit_emit()` returns after the emission loop, and
`lightrec_cycles_of_opcode` the cycle count of an opcode. -/
def lightrec_compile_block (lightrec_cycles_of_opcode : opcode → Nat) (state : lightrec_state)
    (b : block) (new_jit : Option Nat) (emitted : Nat) : compile_result :=
  match new_jit with
  | none => { state := state, block := b, ret := -ENOMEM }
  | some j =>
    let cycles := b.opcode_list.foldl (fun c elm => u32 (c + lightrec_cycles_of_opcode elm))
      b.cycles
    let b := { b with jit := some j, cycles := cycles, function := emitted }
    let state :=
      if b.map = PSX_MAP_KERNEL_USER_RAM then
        { state with code_lut := Function.update state.code_lut (b.kunseg_pc >>> 2) b.function }
      else state
    { state := state, block := b, ret := 0 }

/-! ## The dispatcher: `get_next_block_func`, the outer stub, `lightrec_execute` -/

/-- Modelled from the spec: the compile-time switches of `config.h` and the
block flag `never_compile` of `lightrec-private.h`, kept as parameters. -/
structure config where
  ENABLE_FIRST_PASS : Bool
  ENABLE_THREADED_COMPILER : Bool
  BLOCK_NEVER_COMPILE : Nat

/-- The constant `UINT_MAX` of `limits.h`. -/
def UINT_MAX : Nat := 2 ^ 32 - 1

/-- What the surroundings of the dispatcher do during one pass through a
loop: the answers of the block cache (`lightrec_find_block`,
`lightrec_block_is_outdated`), of the allocator and the disassembler, the
effect of the interpreter on the state and the PC it returns, the answers of
the code builder, and the effect of running a compiled block together with the
cycle count it leaves in `JIT_R0` and the next PC it leaves in `JIT_V0`. -/
structure env_step where
  find_block : Option block
  outdated : Bool
  malloc_ok : Bool
  disassemble : Nat → Option (List opcode × Nat)
  optimize : List opcode → List opcode
  emulate : lightrec_state → lightrec_state
  emulate_pc : Nat
  cycles_of_opcode : opcode → Nat
  new_jit : Option Nat
  emitted : Nat
  run : lightrec_state → lightrec_state
  run_cycles : Nat
  run_pc : Nat

/-- First half of `lightrec_get_block`: the block `lightrec_find_block` returns,
dropped (unregistered and freed) when `lightrec_block_is_outdated` holds. -/
def find_current_block (e : env_step) : Option block :=
  match e.find_block with
  | some b => if e.outdated then none else some b
  | none => none

/-- `lightrec_get_block(state, pc)`: the state and the block (`none` for null).
The outer `none` is a walk along `mirror_of` that does not finish. -/
def lightrec_get_block (kunseg : Nat → Nat) (mfuel : Nat) (e : env_step)
    (state : lightrec_state) (pc : Nat) : Option (lightrec_state × Option block) :=
  match find_current_block e with
  | some b => some (state, some b)
  | none =>
    match lightrec_precompile_block kunseg mfuel state pc e.malloc_ok e.disassemble e.optimize with
    | none => none
    | some none => some ({ state with exit_flags := LIGHTREC_EXIT_SEGFAULT }, none)
    | some (some b) => some (state, some b)

/-- Modelled from the spec: the interpreter `lightrec_emulate_block(block)` of
`interpreter.h`, "step the interpreter once (it returns the next PC)": an
arbitrary change of the state (it adds cycles, may set exit flags, ...) that
leaves `target_cycle` alone. -/
def lightrec_emulate_block (e : env_step) (state : lightrec_state) : lightrec_state :=
  { e.emulate state with target_cycle := state.target_cycle }

/-- Modelled from the spec: running a compiled block, which "returns to the
stub with the next guest PC in a dedicated host register and the cycle count
accrued": an arbitrary change of the state (it may set exit flags, ...) that
leaves `target_cycle` alone; the cycles are added by the outer stub. -/
def run_block (e : env_step) (state : lightrec_state) : lightrec_state :=
  { e.run state with target_cycle := state.target_cycle }

/-- The middle of the loop body of `get_next_block_func` for a block that has
no function yet: the interpreter pass when `ENABLE_FIRST_PASS`, then, unless the
block is flagged `BLOCK_NEVER_COMPILE`, the compilation (handed to the
recompiler thread when `ENABLE_THREADED_COMPILER`). -/
def emulate_and_compile (cfg : config) (e : env_step) (state : lightrec_state) (b : block) :
    lightrec_state :=
  let state1 := if cfg.ENABLE_FIRST_PASS then lightrec_emulate_block e state else state
  if b.flags &&& cfg.BLOCK_NEVER_COMPILE = 0 then
    if cfg.ENABLE_THREADED_COMPILER then state1
    else (lightrec_compile_block e.cycles_of_opcode state1 b e.new_jit e.emitted).state
  else state1

/-- One pass through the `for (;;)` loop of `get_next_block_func(state, pc)`.
`Sum.inl (state, f)` is a return of `f` (0 for null); `Sum.inr (state, pc)` goes
round the loop again.  `none` is a walk along `mirror_of` that does not finish. -/
def get_next_block_iter (cfg : config) (kunseg : Nat → Nat) (mfuel : Nat) (e : env_step)
    (state : lightrec_state) (pc : Nat) :
    Option (Sum (lightrec_state × Nat) (lightrec_state × Nat)) :=
  match lightrec_get_block kunseg mfuel e state pc with
  | none => none
  | some (state, none) => some (Sum.inl (state, 0))
  | some (state, some b) =>
    if b.function ≠ 0 then some (Sum.inl (state, b.function))
    else
      let pc1 := if cfg.ENABLE_FIRST_PASS then e.emulate_pc else pc
      let state2 := emulate_and_compile cfg e state b
      if state2.exit_flags ≠ LIGHTREC_EXIT_NORMAL ∨ state2.current_cycle ≥ state2.target_cycle
      then some (Sum.inl ({ state2 with next_pc := pc1 }, 0))
      else some (Sum.inr (state2, pc1))

/-- `get_next_block_func(state, pc)`: the state, the returned function (0 for
null) and the number of the next step of the surroundings.  `fuel` bounds the
number of passes; `none` is a loop that does not finish within it. -/
def get_next_block_func (cfg : config) (kunseg : Nat → Nat) (mfuel : Nat) (env : Nat → env_step) :
    Nat → Nat → lightrec_state → Nat → Option (lightrec_state × Nat × Nat)
  | 0, _, _, _ => none
  | fuel + 1, n, state, pc =>
    match get_next_block_iter cfg kunseg mfuel (env n) state pc with
    | none => none
    | some (Sum.inl (state, f)) => some (state, f, n + 1)
    | some (Sum.inr (state, pc)) => get_next_block_func cfg kunseg mfuel env fuel (n + 1) state pc

/-- The word-wide load `jit_ldxi` of the fast path of the outer stub, at byte
offset `off` from the first entry of `state->code_lut`, on a little-endian host
with pointers of `W` bits: the `W / 8` bytes from that offset on.  At an offset
that is a multiple of the pointer size this is one entry of the LUT, otherwise
the bytes come from two neighbouring entries. -/
def code_lut_load (W : Nat) (lut : Nat → Nat) (off : Nat) : Nat :=
  let i := off / (W / 8)
  let s := 8 * (off % (W / 8))
  ((lut i % 2 ^ W) >>> s + (lut (i + 1) % 2 ^ W) <<< (W - s)) % 2 ^ W

/-- The code the outer stub of `generate_wrapper_block` runs, on a host with
`__WORDSIZE == W`, when a block jumps back to it with the cycle count in
`JIT_R0` and the next PC in `JIT_V0`, up to the slow path.  The local names
follow the host registers, which hold words of `W` bits: `jit_ldxi_i` loads a
32-bit field and sign-extends it, `jit_addr` adds words, `jit_stxi_i` stores the
low 32 bits, `jit_ltr_u` compares words as unsigned numbers and leaves 1 or 0,
`jit_orr` ORs the exit flags in, `jit_bnei` tests the result.  On the fast path
`jit_bgei` is a signed comparison with the immediate `ram_len`, and the entry
is loaded from byte offset `r0 << 1` (`r0` on a 32-bit host) of the code LUT.
`Sum.inl state` is the exit path (`to_end`, which stores the low 32 bits of
`JIT_V0` in `next_pc`); `Sum.inr (state, f)` carries the word loaded from the
code LUT to jump to on the fast path, or 0 when the slow path
`get_next_block_func` is to be called. -/
def wrapper_after_block (W : Nat) (state : lightrec_state) (r0 v0 : Nat) :
    Sum lightrec_state (lightrec_state × Nat) :=
  let r1 := sext W 32 state.current_cycle
  let r1 := (r1 + r0) % 2 ^ W
  let state := { state with current_cycle := u32 r1 }
  let r0 := sext W 32 state.target_cycle
  let r2 := sext W 32 state.exit_flags
  let r0 := if r0 < r1 then 1 else 0
  let r0 := r0 ||| r2
  if r0 ≠ 0 then Sum.inl { state with next_pc := u32 v0 }
  else
    let ram_len := u32 (ram_length state)
    let r0 := v0 % 2 ^ W &&& (0x10000000 ||| u32 (ram_len + (2 ^ 32 - 1)))
    if signed_lt W r0 ram_len then
      let r0 := if W = 64 then (r0 <<< 1) % 2 ^ W else r0
      Sum.inr (state, code_lut_load W state.code_lut r0)
    else Sum.inr (state, 0)

/-- The outer stub entered with the block function `f`: run the block, then
`wrapper_after_block`, then either loop on a non-null word from the code LUT, or
call `get_next_block_func` (whose `u32` argument is the low half of `JIT_V0`)
and loop when it returns a function, or leave. -/
def wrapper_function (cfg : config) (kunseg : Nat → Nat) (mfuel : Nat) (env : Nat → env_step)
    (W : Nat) : Nat → Nat → lightrec_state → Nat → Option lightrec_state
  | 0, _, _, _ => none
  | fuel + 1, n, state, _f =>
    match wrapper_after_block W (run_block (env n) state) (env n).run_cycles (env n).run_pc with
    | Sum.inl state => some state
    | Sum.inr (state, entry) =>
      if entry ≠ 0 then wrapper_function cfg kunseg mfuel env W fuel (n + 1) state entry
      else
        match get_next_block_func cfg kunseg mfuel env fuel (n + 1) state
            (u32 (env n).run_pc) with
        | none => none
        | some (state, f, n') =>
          if f ≠ 0 then wrapper_function cfg kunseg mfuel env W fuel n' state f
          else some state

/-- `lightrec_execute(state, pc, target_cycle)` on a host with
`__WORDSIZE == W`: the state on return and the returned `next_pc`; `none` when
the run does not finish within `fuel`. -/
def lightrec_execute (cfg : config) (kunseg : Nat → Nat) (mfuel : Nat) (env : Nat → env_step)
    (W : Nat) (fuel : Nat) (state : lightrec_state) (pc target_cycle : Nat) :
    Option (lightrec_state × Nat) :=
  let state := { state with exit_flags := LIGHTREC_EXIT_NORMAL }
  let target_cycle := if target_cycle < state.current_cycle then UINT_MAX else target_cycle
  let state := { state with target_cycle := target_cycle }
  match get_next_block_func cfg kunseg mfuel env fuel 0 state pc with
  | none => none
  | some (state, block_trace, n) =>
    if block_trace ≠ 0 then
      match wrapper_function cfg kunseg mfuel env W fuel n state block_trace with
      | none => none
      | some state => some (state, state.next_pc)
    else some (state, state.next_pc)

/-! ## Coprocessor helpers -/

/-- A call of a coprocessor callback of `struct lightrec_cop_ops`, with the
coprocessor number (0 or 2) first. -/
inductive cop_call where
  | mfc (cop reg : Nat)
  | cfc (cop reg : Nat)
  | mtc (cop reg value : Nat)
  | ctc (cop reg value : Nat)
  | op (cop opcode : Nat)
  deriving DecidableEq, Repr

/-- The new CP0 status that `lightrec_rfe_cb` computes from the old one:
`((status & 0x3c) >> 2) | (status & ~0xf)` on a `u32`. -/
def rfe_status (status : Nat) : Nat :=
  ((status &&& 0x3c) >>> 2) ||| (status &&& 0xfffffff0)

/-- `lightrec_rfe_cb(state)`: the callbacks it calls, in order. -/
def lightrec_rfe_cb (state : lightrec_state) : List cop_call :=
  let status := u32 (state.ops.cop0_ops.mfc 12)
  let status := rfe_status status
  [.mfc 0 12, .ctc 0 12 status]

/-! ## `lightrec_init` -/

/-- The argument `struct lightrec_cop_ops` of `lightrec_init`, whose function
pointers may be null (`none`).  A pointer to a callback that returns nothing is
kept as a number. -/
structure cop_ops_arg where
  mfc : Option (Nat → Nat)
  cfc : Option (Nat → Nat)
  mtc : Option Nat
  ctc : Option Nat
  op : Option Nat

/-- The argument `struct lightrec_ops` of `lightrec_init`. -/
structure lightrec_ops_arg where
  cop0_ops : cop_ops_arg
  cop2_ops : cop_ops_arg

/-- The copy `memcpy(&state->ops, ops, sizeof(*ops))` for one coprocessor. -/
def copy_cop_ops (o : cop_ops_arg) : lightrec_cop_ops :=
  { mfc := o.mfc.getD (fun _ => 0), cfc := o.cfc.getD (fun _ => 0),
    mtc := o.mtc.getD 0, ctc := o.ctc.getD 0, op := o.op.getD 0 }

/-- Whether the allocations and code generations of `lightrec_init` succeed. -/
structure init_env where
  calloc_ok : Bool
  block_cache_ok : Bool
  reg_cache_ok : Bool
  rec_ok : Bool
  wrapper_ok : Bool
  rw_wrapper_ok : Bool
  mfc_wrapper_ok : Bool
  mtc_wrapper_ok : Bool
  rfe_wrapper_ok : Bool
  cp_wrapper_ok : Bool

/-- The calls `lightrec_init` makes to the allocator, the code builder and the
other components. -/
inductive init_event where
  | init_jit
  | calloc
  | blockcache_init
  | regcache_init
  | recompiler_init
  | generate_wrapper_block
  | generate_rw_wrapper
  | generate_mfc_wrapper
  | generate_mtc_wrapper
  | generate_rfe_wrapper
  | generate_cp_wrapper
  | free_rfe_wrapper
  | free_mtc_wrapper
  | free_mfc_wrapper
  | free_rw_wrapper
  | free_wrapper
  | free_recompiler
  | free_regcache
  | free_block_cache
  | free_state
  | finish_jit
  deriving DecidableEq, Repr

/-- The memory `calloc` returns for the state: every field zero, every
code-LUT slot null. -/
def calloc_state : lightrec_state :=
  { native_reg_cache := List.replicate NATIVE_REG_CACHE_WORDS 0
    next_pc := 0, current_cycle := 0, target_cycle := 0, exit_flags := 0
    ops := { cop0_ops := { mfc := fun _ => 0, cfc := fun _ => 0 },
             cop2_ops := { mfc := fun _ => 0, cfc := fun _ => 0 } }
    maps := []
    offset_ram := 0, offset_bios := 0, offset_scratch := 0
    mirrors_mapped := false
    code_lut := fun _ => 0 }

/-- The labels `err_free_state` to `err_finish_jit` at the end of
`lightrec_init`. -/
def init_err_free_state : List init_event := [.free_state, .finish_jit]

/-- The label `err_free_block_cache` of `lightrec_init` and what follows it. -/
def init_err_free_block_cache : List init_event := .free_block_cache :: init_err_free_state

/-- The label `err_free_reg_cache` of `lightrec_init` and what follows it. -/
def init_err_free_reg_cache : List init_event := .free_regcache :: init_err_free_block_cache

/-- The label `err_free_recompiler` of `lightrec_init` and what follows it. -/
def init_err_free_recompiler (cfg : config) : List init_event :=
  (if cfg.ENABLE_THREADED_COMPILER then [.free_recompiler] else []) ++ init_err_free_reg_cache

/-- The last part of a successful `lightrec_init`: the offsets of the BIOS, the
scratch pad and RAM, and the detection of mapped mirrors. -/
def init_offsets (state : lightrec_state) : lightrec_state :=
  let map := map_at state PSX_MAP_BIOS
  let state := { state with offset_bios := uptr (map.address + (2 ^ 64 - map.pc)) }
  let map := map_at state PSX_MAP_SCRATCH_PAD
  let state := { state with offset_scratch := uptr (map.address + (2 ^ 64 - map.pc)) }
  let map := map_at state PSX_MAP_KERNEL_USER_RAM
  let state := { state with offset_ram := uptr (map.address + (2 ^ 64 - map.pc)) }
  if (map_at state PSX_MAP_MIRROR1).address = uptr (map.address + 0x200000) ∧
      (map_at state PSX_MAP_MIRROR2).address = uptr (map.address + 0x400000) ∧
      (map_at state PSX_MAP_MIRROR3).address = uptr (map.address + 0x600000)
  then { state with mirrors_mapped := true }
  else state

/-- `lightrec_init(argv0, map, nb, ops)`: the returned state (`none` for null)
and the calls made.  The map array is the list `map` (`nb` is its length); `ops`
is `none` for a null pointer. -/
def lightrec_init (cfg : config) (env : init_env) (map : List lightrec_mem_map)
    (ops : Option lightrec_ops_arg) : Option lightrec_state × List init_event :=
  match ops with
  | none => (none, [])
  | some o =>
    if o.cop0_ops.mfc.isNone ∨ o.cop0_ops.cfc.isNone ∨ o.cop0_ops.mtc.isNone ∨
        o.cop0_ops.ctc.isNone ∨ o.cop0_ops.op.isNone ∨
        o.cop2_ops.mfc.isNone ∨ o.cop2_ops.cfc.isNone ∨ o.cop2_ops.mtc.isNone ∨
        o.cop2_ops.ctc.isNone ∨ o.cop2_ops.op.isNone then (none, [])
    else
      let ev : List init_event := [.init_jit, .calloc]
      if env.calloc_ok = false then (none, ev ++ [.finish_jit])
      else
      let ev := ev ++ [.blockcache_init]
      if env.block_cache_ok = false then (none, ev ++ init_err_free_state)
      else
      let ev := ev ++ [.regcache_init]
      if env.reg_cache_ok = false then (none, ev ++ init_err_free_block_cache)
      else
      let ev := if cfg.ENABLE_THREADED_COMPILER then ev ++ [.recompiler_init] else ev
      if cfg.ENABLE_THREADED_COMPILER = true ∧ env.rec_ok = false then
        (none, ev ++ init_err_free_reg_cache)
      else
      let state := { calloc_state with
        maps := map
        ops := { cop0_ops := copy_cop_ops o.cop0_ops, cop2_ops := copy_cop_ops o.cop2_ops } }
      let ev := ev ++ [.generate_wrapper_block]
      if env.wrapper_ok = false then (none, ev ++ init_err_free_recompiler cfg)
      else
      let ev := ev ++ [.generate_rw_wrapper]
      if env.rw_wrapper_ok = false then
        (none, ev ++ .free_wrapper :: init_err_free_recompiler cfg)
      else
      let ev := ev ++ [.generate_mfc_wrapper]
      if env.mfc_wrapper_ok = false then
        (none, ev ++ .free_rw_wrapper :: .free_wrapper :: init_err_free_recompiler cfg)
      else
      let ev := ev ++ [.generate_mtc_wrapper]
      if env.mtc_wrapper_ok = false then
        (none, ev ++ .free_mfc_wrapper :: .free_rw_wrapper :: .free_wrapper ::
          init_err_free_recompiler cfg)
      else
      let ev := ev ++ [.generate_rfe_wrapper]
      if env.rfe_wrapper_ok = false then
        (none, ev ++ .free_mtc_wrapper :: .free_mfc_wrapper :: .free_rw_wrapper ::
          .free_wrapper :: init_err_free_recompiler cfg)
      else
      let ev := ev ++ [.generate_cp_wrapper]
      if env.cp_wrapper_ok = false then
        (none, ev ++ .free_rfe_wrapper :: .free_mtc_wrapper :: .free_mfc_wrapper ::
          .free_rw_wrapper :: .free_wrapper :: init_err_free_recompiler cfg)
      else (some (init_offsets state), ev)

/-! ## The code builder: host registers, nodes and their execution -/

/-- Modelled from the spec: further fields of the typed view of an opcode
(declared in `disassembler.h`), the R-form `(rs, rt, rd, shamt, funct)`: `rs` in
bits 25..21. -/
def opcode.r_rs (op : opcode) : Nat := op.word / 2 ^ 21 % 32

/-- Modelled from the spec: the R-form field `rt`, bits 20..16 of the word. -/
def opcode.r_rt (op : opcode) : Nat := op.word / 2 ^ 16 % 32

/-- Modelled from the spec: the R-form field `rd`, bits 15..11 of the word. -/
def opcode.r_rd (op : opcode) : Nat := op.word / 2 ^ 11 % 32

/-- Modelled from the spec: the R-form field `shamt` (`op->r.imm`), bits 10..6
of the word. -/
def opcode.r_imm (op : opcode) : Nat := op.word / 2 ^ 6 % 32

/-- Modelled from the spec: the R-form field `funct` (`op->r.op`), bits 5..0 of
the word. -/
def opcode.r_op (op : opcode) : Nat := op.word % 2 ^ 6

/-- Modelled from the spec: the host registers the emitter names (declared in
`lightning.h` and `regcache.h`): the scratch registers `JIT_R(i)`, the
callee-saved registers `JIT_V(i)`, the register pinned to the state pointer and
the one holding the cycle budget. -/
def JIT_R0 : Nat := 0
def JIT_R1 : Nat := 1
def JIT_R2 : Nat := 2
def JIT_V0 : Nat := 16
def LIGHTREC_REG_CYCLE : Nat := 30
def LIGHTREC_REG_STATE : Nat := 31

/-- Modelled from the spec: the guest register slots of LO and HI (declared in
`regcache.h`), the two slots after GPR0..31. -/
def REG_LO : Nat := 32
def REG_HI : Nat := 33

/-- The values of `jit_code_t` that the emitter passes to `jit_new_node_ww`,
`jit_new_node_pww` and `jit_new_node_www`. -/
inductive jit_code where
  | str_c | str_s | str_i
  | ldr_c | ldr_uc | ldr_s | ldr_us | ldr_i
  | beqr | bner | bgti | blei | bgei | blti | bnei | beqi
  | addr | subr | andr | orr | xorr | ltr | ltr_u | lshr | rshr | rshr_u
  deriving DecidableEq, Repr

/-- The fields of `struct lightrec_state` that emitted code addresses with
`offsetof(struct lightrec_state, field)`. -/
inductive state_field where
  | code_lut
  | op_data_addr | op_data_data | op_data_op
  | rw_func | mfc_func | mtc_func | rfe_func | cp_func | break_func | syscall_func
  | eob_wrapper_func
  deriving DecidableEq, Repr

/-- Modelled from the spec: the nodes of the abstract code builder (GNU
Lightning, `lightning.h`) that the emitter creates.  Registers are host register
numbers, immediates are host words, a label stands for the node that
`jit_patch` later binds. -/
inductive jit_node where
  | movi (d imm : Nat)
  | movr (d s : Nat)
  | addi (d s imm : Nat)
  | addr (d a b : Nat)
  | subi (d s imm : Nat)
  | andi (d s imm : Nat)
  | andr (d a b : Nat)
  | ori (d s imm : Nat)
  | lshi (d s n : Nat)
  | rshi_u (d s n : Nat)
  | lti (d s imm : Nat)
  | extr_i (d s : Nat)
  | extr_ui (d s : Nat)
  | qdivr (lo hi a b : Nat)
  | qdivr_u (lo hi a b : Nat)
  | beqi (label r imm : Nat)
  | bgei (label r imm : Nat)
  | bmsi (label r mask : Nat)
  | bmci (label r mask : Nat)
  | jmpi (label : Nat)
  | patch (label : Nat)
  | ldxi (d base : Nat) (field : state_field)
  | ldxi_i (d base : Nat) (field : state_field)
  | stxi (field : state_field) (base s : Nat)
  | stxi_i (field : state_field) (base s : Nat)
  | new_node_ww (code : jit_code) (a b : Nat)
  | new_node_pww (code : jit_code) (label a b : Nat)
  | new_node_www (code : jit_code) (d a b : Nat)
  | callr (r : Nat)
  | jmpr (r : Nat)
  deriving DecidableEq, Repr

/-- Modelled from the spec: the calls the emitter makes to the register cache
(`regcache.h`) and to the code builder, in the order it makes them.  A call that
returns a host register carries that register. -/
inductive emit where
  | alloc_reg_in (guest host : Nat)
  | alloc_reg_out (guest host : Nat)
  | alloc_reg_temp (host : Nat)
  | alloc_reg (host : Nat)
  | request_reg_in (guest host : Nat)
  | free_reg (host : Nat)
  | free_regs
  | unload_reg (host : Nat)
  | storeback_regs
  | mark_live
  | enter_branch
  | leave_branch
  | jit (n : jit_node)
  deriving DecidableEq, Repr

/-- Modelled from the spec: the answers of the register cache: the host
register that holds (or will receive) a guest register, "reserve_in(guest_reg)
-> host_reg" and "reserve_out(guest_reg) -> host_reg", and the host register
of the `k`-th scratch allocation of an opcode, "alloc_temp() -> host_reg". -/
structure regcache where
  host_of : Nat → Nat
  temp : Nat → Nat

/-- What executed host code does outside the register file: data stores and
loads (kind, host address, value), stores to and loads from a field of the
state (base register value added to the offset of the field, size in bytes),
calls, jumps through a register, and divisions (signedness, dividend and
divisor). -/
inductive host_event where
  | store (code : jit_code) (addr value : Nat)
  | load (code : jit_code) (addr : Nat)
  | state_store (field : state_field) (base value size : Nat)
  | state_load (field : state_field) (base size : Nat)
  | call (target : Nat)
  | jump (target : Nat)
  | div (signed : Bool) (dividend divisor : Nat)
  deriving DecidableEq, Repr

/-- The host machine while it runs emitted code: the register file, what loads
return, the events so far, the label of a pending forward jump, and whether the
code has been left through `jit_jmpr`. -/
structure host_machine where
  regs : Nat → Nat
  load_val : jit_code → Nat → Nat
  field_val : state_field → Nat → Nat
  events : List host_event
  skip : Option Nat
  halted : Bool

/-- The signed value of a host word of `W` bits. -/
def to_int (W x : Nat) : Int := if x < 2 ^ (W - 1) then (x : Int) else (x : Int) - 2 ^ W

/-- The host word of `W` bits of an integer. -/
def of_int (W : Nat) (i : Int) : Nat := (i % 2 ^ W).toNat

/-- Writing the value `v`, cut to `W` bits, to the host register `d`. -/
def set_reg (W : Nat) (m : host_machine) (d v : Nat) : host_machine :=
  { m with regs := Function.update m.regs d (v % 2 ^ W) }

/-- Appending an event. -/
def add_event (m : host_machine) (e : host_event) : host_machine :=
  { m with events := m.events ++ [e] }

/-- Modelled from the spec: whether the compare-and-branch node `code` of the
code builder jumps, for a first operand `a` and a second operand `b` (the
content of a register for `beqr` and `bner`, an immediate for the others),
compared as signed words of `W` bits. -/
def branch_fires (W : Nat) (code : jit_code) (a b : Nat) : Bool :=
  match code with
  | .beqr => a = b
  | .beqi => a = b
  | .bner => a ≠ b
  | .bnei => a ≠ b
  | .bgti => signed_lt W b a
  | .blei => !signed_lt W b a
  | .bgei => !signed_lt W a b
  | .blti => signed_lt W a b
  | _ => false

/-- Modelled from the spec: what one node of the code builder does when it is
executed on a host with words of `W` bits. -/
def exec_node (W : Nat) (m : host_machine) : jit_node → host_machine
  | .movi d imm => set_reg W m d imm
  | .movr d s => set_reg W m d (m.regs s)
  | .addi d s imm => set_reg W m d (m.regs s + imm)
  | .addr d a b => set_reg W m d (m.regs a + m.regs b)
  | .subi d s imm => set_reg W m d (m.regs s + (2 ^ W - imm % 2 ^ W))
  | .andi d s imm => set_reg W m d (m.regs s &&& imm)
  | .andr d a b => set_reg W m d (m.regs a &&& m.regs b)
  | .ori d s imm => set_reg W m d (m.regs s ||| imm)
  | .lshi d s n => set_reg W m d (m.regs s <<< n)
  | .rshi_u d s n => set_reg W m d (m.regs s >>> n)
  | .lti d s imm => set_reg W m d (if signed_lt W (m.regs s) imm then 1 else 0)
  | .extr_i d s => set_reg W m d (sext W 32 (m.regs s))
  | .extr_ui d s => set_reg W m d (m.regs s % 2 ^ 32)
  | .qdivr lo hi a b =>
    let q := of_int W (Int.tdiv (to_int W (m.regs a)) (to_int W (m.regs b)))
    let r := of_int W (Int.tmod (to_int W (m.regs a)) (to_int W (m.regs b)))
    set_reg W (set_reg W (add_event m (.div true (m.regs a) (m.regs b))) lo q) hi r
  | .qdivr_u lo hi a b =>
    let q := m.regs a / m.regs b
    let r := m.regs a % m.regs b
    set_reg W (set_reg W (add_event m (.div false (m.regs a) (m.regs b))) lo q) hi r
  | .beqi l r imm => if m.regs r = imm then { m with skip := some l } else m
  | .bgei l r imm => if signed_lt W (m.regs r) imm then m else { m with skip := some l }
  | .bmsi l r mask => if m.regs r &&& mask ≠ 0 then { m with skip := some l } else m
  | .bmci l r mask => if m.regs r &&& mask = 0 then { m with skip := some l } else m
  | .jmpi l => { m with skip := some l }
  | .patch _ => m
  | .ldxi d base field =>
    set_reg W (add_event m (.state_load field (m.regs base) (W / 8))) d
      (m.field_val field (m.regs base))
  | .ldxi_i d base field =>
    set_reg W (add_event m (.state_load field (m.regs base) 4)) d
      (sext W 32 (m.field_val field (m.regs base)))
  | .stxi field base s => add_event m (.state_store field (m.regs base) (m.regs s) (W / 8))
  | .stxi_i field base s => add_event m (.state_store field (m.regs base) (m.regs s % 2 ^ 32) 4)
  | .new_node_ww code a b =>
    match code with
    | .str_c => add_event m (.store code (m.regs a) (m.regs b % 2 ^ 8))
    | .str_s => add_event m (.store code (m.regs a) (m.regs b % 2 ^ 16))
    | .str_i => add_event m (.store code (m.regs a) (m.regs b % 2 ^ 32))
    | _ => set_reg W (add_event m (.load code (m.regs b))) a (m.load_val code (m.regs b))
  | .new_node_pww code l a b =>
    let second := match code with
      | .beqr => m.regs b
      | .bner => m.regs b
      | _ => b
    if branch_fires W code (m.regs a) second then { m with skip := some l } else m
  | .new_node_www code d a b =>
    match code with
    | .addr => set_reg W m d (m.regs a + m.regs b)
    | .subr => set_reg W m d (m.regs a + (2 ^ W - m.regs b % 2 ^ W))
    | .andr => set_reg W m d (m.regs a &&& m.regs b)
    | .orr => set_reg W m d (m.regs a ||| m.regs b)
    | .xorr => set_reg W m d (m.regs a ^^^ m.regs b)
    | .ltr => set_reg W m d (if signed_lt W (m.regs a) (m.regs b) then 1 else 0)
    | .ltr_u => set_reg W m d (if m.regs a < m.regs b then 1 else 0)
    | .lshr => set_reg W m d (m.regs a <<< m.regs b)
    | .rshr => set_reg W m d (of_int W (to_int W (m.regs a) >>> m.regs b))
    | .rshr_u => set_reg W m d (m.regs a >>> m.regs b)
    | _ => m
  | .callr r => add_event m (.call (m.regs r))
  | .jmpr r => { add_event m (.jump (m.regs r)) with halted := true }

/-- One step of the execution of an emitted sequence: calls to the register
cache emit nothing here; while a forward jump is pending, nodes are skipped until
the label is bound by `jit_patch`. -/
def exec_step (W : Nat) (m : host_machine) (e : emit) : host_machine :=
  if m.halted then m
  else
    match m.skip with
    | some l =>
      match e with
      | .jit (.patch l') => if l' = l then { m with skip := none } else m
      | _ => m
    | none =>
      match e with
      | .jit n => exec_node W m n
      | _ => m

/-- Execution of an emitted sequence whose jumps all go forward. -/
def exec (W : Nat) (code : List emit) (m : host_machine) : host_machine :=
  code.foldl (exec_step W) m

/-! ## The emitter: division -/

/-- `rec_alu_div(block, op, is_signed)` on a host with `__WORDSIZE == W`.  The
labels 0 and 1 are the nodes `branch` and `to_end`. -/
def rec_alu_div (rc : regcache) (W : Nat) (op : opcode) (is_signed : Bool) : List emit :=
  let rs := rc.host_of op.r_rs
  let rt := rc.host_of op.r_rt
  let lo := rc.host_of REG_LO
  let hi := rc.host_of REG_HI
  [.alloc_reg_in op.r_rs rs, .alloc_reg_in op.r_rt rt, .alloc_reg_out REG_LO lo,
    .alloc_reg_out REG_HI hi, .jit (.beqi 0 rt 0)] ++
  (if W = 32 then
    (if is_signed then [.jit (.qdivr lo hi rs rt)] else [.jit (.qdivr_u lo hi rs rt)])
  else
    (if is_signed then
      [.jit (.extr_i lo rt), .jit (.extr_i hi rs), .jit (.qdivr lo hi hi lo)]
    else [.jit (.extr_ui lo rt), .jit (.extr_ui hi rs), .jit (.qdivr_u lo hi hi lo)])) ++
  [.jit (.jmpi 1), .jit (.patch 0)] ++
  (if is_signed then [.jit (.lti lo rs 0), .jit (.lshi lo lo 1), .jit (.subi lo lo 1)]
  else [.jit (.movi lo 0xffffffff)]) ++
  [.jit (.movr hi rs), .jit (.patch 1), .free_reg rs, .free_reg rt, .free_reg lo, .free_reg hi]

/-- `rec_special_DIV(block, op, pc)`. -/
def rec_special_DIV (rc : regcache) (W : Nat) (op : opcode) : List emit :=
  rec_alu_div rc W op true

/-- `rec_special_DIVU(block, op, pc)`. -/
def rec_special_DIVU (rc : regcache) (W : Nat) (op : opcode) : List emit :=
  rec_alu_div rc W op false

/-! ## The emitter: register-to-register ALU opcodes -/

/-- `rec_alu_special(block, op, code, is_reg_shift)` on a host with
`__WORDSIZE == W`. -/
def rec_alu_special (rc : regcache) (W : Nat) (op : opcode) (code : jit_code)
    (is_reg_shift : Bool) : List emit :=
  let rs := rc.host_of op.r_rs
  let rt := rc.host_of op.r_rt
  let rd := rc.host_of op.r_rd
  [.alloc_reg_in op.r_rs rs, .alloc_reg_in op.r_rt rt, .alloc_reg_out op.r_rd rd] ++
  (if !is_reg_shift then
    (if W = 64 then [.jit (.extr_i rs rs), .jit (.extr_i rt rt)] else []) ++
    [.jit (.new_node_www code rd rs rt)]
  else
    let temp := rc.temp 0
    [.alloc_reg_temp temp, .jit (.andi temp rs 0x1f)] ++
    (if W = 64 then
      (if code = .rshr then [.jit (.extr_i rt rt)]
      else if code = .rshr_u then [.jit (.extr_ui rt rt)]
      else [])
    else []) ++
    [.jit (.new_node_www code rd rt temp), .free_reg temp]) ++
  [.free_reg rs, .free_reg rt, .free_reg rd]

/-- `rec_special_ADDU(block, op, pc)`. -/
def rec_special_ADDU (rc : regcache) (W : Nat) (op : opcode) : List emit :=
  rec_alu_special rc W op .addr false

/-! ## The emitter: end of block and calls into the runtime -/

/-- What the end-of-block epilogue reads from `block->state` and from the code
builder: `state->cycles`, the pending jumps `state->branches[0 .. nb_branches)`
(each one the label of its node), and the label of the node that the next
`jit_jmpi()` returns. -/
structure emitter_state where
  cycles : Nat
  branches : List Nat
  next_label : Nat

/-- What the epilogue needs from the opcode in the delay slot: the word
`delay_slot->opcode`, whether `delay_slot->next` is set, the result of
`lightrec_cycles_of_opcode(delay_slot->c)` (not in this source tree), and what
`lightrec_rec_opcode(block, delay_slot, pc)` emits for a given `pc`. -/
structure delay_slot where
  word : Nat
  has_next : Bool
  cycles : Nat
  code : Nat → List emit

/-- `lightrec_emit_end_of_block(block, pc, reg_new_pc, imm, ra_reg, link,
delay_slot)`: the emitted sequence and the state afterwards.  A negative
`reg_new_pc` asks for the immediate `imm`; `lightrec_alloc_reg(.., JIT_V0)`
hands out `JIT_V0` itself. -/
def lightrec_emit_end_of_block (rc : regcache) (st : emitter_state) (pc : Nat)
    (reg_new_pc : Int) (imm ra_reg link : Nat) (ds : Option delay_slot) :
    List emit × emitter_state :=
  let is_last_eob : Bool := match ds with
    | none => true
    | some d => !d.has_next
  let link_code : List emit :=
    if link ≠ 0 then
      [.alloc_reg_out ra_reg (rc.host_of ra_reg), .jit (.movi (rc.host_of ra_reg) link),
        .free_reg (rc.host_of ra_reg)]
    else []
  let new_pc_code : List emit :=
    if reg_new_pc < 0 then [.alloc_reg JIT_V0, .jit (.movi JIT_V0 imm)] else []
  let new_pc : Nat := if reg_new_pc < 0 then JIT_V0 else reg_new_pc.toNat
  let cycles : Nat := match ds with
    | none => st.cycles
    | some d => u32 (st.cycles + d.cycles)
  let delay_code : List emit := match ds with
    | none => []
    | some d => if d.word ≠ 0 then d.code (u32 (pc + 4)) else []
  let body : List emit :=
    link_code ++ new_pc_code ++ delay_code ++
      [.storeback_regs, .jit (.movr JIT_V0 new_pc),
        .jit (.subi LIGHTREC_REG_CYCLE LIGHTREC_REG_CYCLE cycles)]
  if is_last_eob then
    (body ++ st.branches.map (fun l => emit.jit (.patch l)) ++
      [.jit (.ldxi JIT_R0 LIGHTREC_REG_STATE .eob_wrapper_func), .jit (.jmpr JIT_R0)], st)
  else
    (body ++ [.jit (.jmpi st.next_label)],
      { st with branches := st.branches ++ [st.next_label], next_label := st.next_label + 1 })

/-- `rec_io(block, op, load_rt, read_rt)`: the access goes through the `rw`
thunk, with the address, the data and the opcode passed in `state->op_data`. -/
def rec_io (rc : regcache) (op : opcode) (load_rt read_rt : Bool) : List emit :=
  let rs := rc.host_of op.i_rs
  let rt := rc.host_of op.i_rt
  let tmp := rc.temp 0
  let tmp2 := rc.temp 1
  [.alloc_reg_in op.i_rs rs, .jit (.stxi_i .op_data_addr LIGHTREC_REG_STATE rs),
    .free_reg rs] ++
  (if load_rt then
    [.alloc_reg_in op.i_rt rt, .jit (.stxi_i .op_data_data LIGHTREC_REG_STATE rt),
      .free_reg rt]
  else []) ++
  [.alloc_reg_temp tmp, .alloc_reg_temp tmp2,
    .jit (.ldxi tmp2 LIGHTREC_REG_STATE .rw_func), .jit (.movi tmp op.word),
    .jit (.stxi_i .op_data_op LIGHTREC_REG_STATE tmp), .jit (.callr tmp2),
    .free_reg tmp, .free_reg tmp2, .mark_live] ++
  (if read_rt ∧ op.i_rt ≠ 0 then
    [.alloc_reg_out op.i_rt rt, .jit (.ldxi_i rt LIGHTREC_REG_STATE .op_data_data),
      .free_reg rt]
  else [])

/-- `rec_SWL`: `rec_io(block, op, true, false)`. -/
def rec_SWL (rc : regcache) (op : opcode) : List emit := rec_io rc op true false

/-- `rec_LWL`: `rec_io(block, op, true, true)`. -/
def rec_LWL (rc : regcache) (op : opcode) : List emit := rec_io rc op true true

/-- `rec_break_syscall(block, pc, is_break)`. -/
def rec_break_syscall (rc : regcache) (st : emitter_state) (pc : Nat) (is_break : Bool) :
    List emit × emitter_state :=
  let offset : state_field := if is_break then .break_func else .syscall_func
  let tmp := rc.temp 0
  let eob := lightrec_emit_end_of_block rc st pc (-1) pc 31 0 none
  ([.alloc_reg_temp tmp, .jit (.ldxi tmp LIGHTREC_REG_STATE offset), .jit (.callr tmp),
    .free_reg tmp, .mark_live] ++ eob.1, eob.2)

/-- `rec_mfc(block, op)`. -/
def rec_mfc (rc : regcache) (op : opcode) : List emit :=
  let tmp := rc.temp 0
  let tmp2 := rc.temp 1
  let rt := rc.host_of op.r_rt
  [.alloc_reg_temp tmp, .alloc_reg_temp tmp2,
    .jit (.ldxi tmp2 LIGHTREC_REG_STATE .mfc_func), .jit (.movi tmp op.word),
    .jit (.stxi_i .op_data_op LIGHTREC_REG_STATE tmp), .jit (.callr tmp2),
    .free_reg tmp, .free_reg tmp2, .mark_live,
    .alloc_reg_out op.r_rt rt, .jit (.ldxi_i rt LIGHTREC_REG_STATE .op_data_data),
    .free_reg rt]

/-- The part of `rec_mtc` that passes the opcode and the value of `rt` to the
`mtc` thunk and calls it: everything before the final `if`. -/
def rec_mtc_call (rc : regcache) (op : opcode) : List emit :=
  let tmp := rc.temp 0
  let tmp2 := rc.temp 1
  let rt := rc.host_of op.r_rt
  [.alloc_reg_temp tmp, .alloc_reg_temp tmp2, .alloc_reg_in op.r_rt rt,
    .jit (.ldxi tmp2 LIGHTREC_REG_STATE .mtc_func), .jit (.movi tmp op.word),
    .jit (.stxi_i .op_data_op LIGHTREC_REG_STATE tmp),
    .jit (.stxi_i .op_data_data LIGHTREC_REG_STATE rt), .free_reg rt,
    .jit (.callr tmp2), .free_reg tmp, .free_reg tmp2, .mark_live]

/-- `rec_mtc(block, op, pc)`. -/
def rec_mtc (rc : regcache) (st : emitter_state) (op : opcode) (pc : Nat) :
    List emit × emitter_state :=
  if op.i_op = OP_CP0 ∧ (op.r_rd = 12 ∨ op.r_rd = 13) then
    let eob := lightrec_emit_end_of_block rc st pc (-1) (u32 (pc + 4)) 0 0 none
    (rec_mtc_call rc op ++ eob.1, eob.2)
  else (rec_mtc_call rc op, st)

/-- `rec_cp0_MTC0`. -/
def rec_cp0_MTC0 (rc : regcache) (st : emitter_state) (op : opcode) (pc : Nat) :
    List emit × emitter_state := rec_mtc rc st op pc

/-- `rec_cp2_basic_MTC2`. -/
def rec_cp2_basic_MTC2 (rc : regcache) (st : emitter_state) (op : opcode) (pc : Nat) :
    List emit × emitter_state := rec_mtc rc st op pc

/-- `rec_cp2_basic_CTC2`. -/
def rec_cp2_basic_CTC2 (rc : regcache) (st : emitter_state) (op : opcode) (pc : Nat) :
    List emit × emitter_state := rec_mtc rc st op pc

/-- `rec_cp0_RFE(block, op, pc)`. -/
def rec_cp0_RFE (rc : regcache) : List emit :=
  let tmp := rc.temp 0
  [.alloc_reg_temp tmp, .jit (.ldxi tmp LIGHTREC_REG_STATE .rfe_func), .jit (.callr tmp),
    .free_reg tmp, .mark_live]

/-- `rec_CP(block, op, pc)`. -/
def rec_CP (rc : regcache) (op : opcode) : List emit :=
  let tmp := rc.temp 0
  let tmp2 := rc.temp 1
  [.alloc_reg_temp tmp, .alloc_reg_temp tmp2,
    .jit (.ldxi tmp2 LIGHTREC_REG_STATE .cp_func), .jit (.movi tmp op.word),
    .jit (.stxi_i .op_data_op LIGHTREC_REG_STATE tmp), .jit (.callr tmp2),
    .free_reg tmp, .free_reg tmp2, .mark_live]

/-! ## Properties of emitted sequences -/

/-- Whether an action marks a guest register dirty: only
`lightrec_alloc_reg_out` does. -/
def makes_dirty : emit → Bool
  | .alloc_reg_out _ _ => true
  | _ => false

/-- Whether an action is a call through a register (`jit_callr`). -/
def is_callr : emit → Bool
  | .jit (.callr _) => true
  | _ => false

/-- Whether an action is a jump emitted by the epilogue: `jit_jmpr` or
`jit_jmpi`. -/
def is_jump : emit → Bool
  | .jit (.jmpr _) => true
  | .jit (.jmpi _) => true
  | _ => false

/-- Whether every action of `code` that satisfies `p` comes after a
`lightrec_storeback_regs` with no dirtying action in between; `clean` says
whether that holds where `code` starts. -/
def spilled_before (p : emit → Bool) : Bool → List emit → Bool
  | _, [] => true
  | clean, e :: es =>
    (if p e then clean else true) &&
      spilled_before p
        (match e with
          | .storeback_regs => true
          | .alloc_reg_out _ _ => false
          | _ => clean) es

/-! ## The emitter: direct stores and loads -/

/-- The macro `BIT(x)`. -/
def BIT (x : Nat) : Nat := 2 ^ x

/-- `rec_store_direct_no_invalidate(block, op, code)` on a host with words of `W`
bits; `to_not_ram` is label 0 and `to_end` label 1. -/
def rec_store_direct_no_invalidate (rc : regcache) (W : Nat) (state : lightrec_state)
    (op : opcode) (code : jit_code) : List emit :=
  let rs := rc.host_of op.i_rs
  let rt := rc.host_of op.i_rt
  let tmp := rc.temp 0
  let tmp2 := rc.temp 1
  [.alloc_reg_in op.i_rs rs, .alloc_reg_temp tmp, .alloc_reg_temp tmp2] ++
  (if op.i_imm ≠ 0 then
    [.jit (.addi tmp rs (sext W 16 op.i_imm)), .jit (.andi tmp tmp 0x1f9fffff)]
  else [.jit (.andi tmp rs 0x1f9fffff)]) ++
  [.free_reg rs] ++
  (if state.offset_ram ≠ state.offset_scratch then
    [.jit (.bmsi 0 tmp (BIT 28)), .jit (.movi tmp2 state.offset_ram), .jit (.jmpi 1),
      .jit (.patch 0), .jit (.movi tmp2 state.offset_scratch), .jit (.patch 1)]
  else if state.offset_ram ≠ 0 then [.jit (.movi tmp2 state.offset_ram)]
  else []) ++
  (if state.offset_ram ≠ 0 ∨ state.offset_scratch ≠ 0 then [.jit (.addr tmp tmp tmp2)]
  else []) ++
  [.free_reg tmp2, .alloc_reg_in op.i_rt rt, .jit (.new_node_ww code tmp rt), .free_reg rt,
    .free_reg tmp]

/-- `rec_store_direct(block, op, code)` on a host with words of `W` bits;
`to_not_ram` is label 0 and `to_end` label 1. -/
def rec_store_direct (rc : regcache) (W : Nat) (state : lightrec_state)
    (op : opcode) (code : jit_code) : List emit :=
  let rs := rc.host_of op.i_rs
  let rt := rc.host_of op.i_rt
  let tmp2 := rc.temp 0
  let tmp3 := rc.temp 1
  let tmp := rc.temp 2
  [.alloc_reg_in op.i_rs rs, .alloc_reg_temp tmp2, .alloc_reg_temp tmp3,
    .jit (.movi tmp3 0)] ++
  (if op.i_imm ≠ 0 then
    [.jit (.addi tmp2 rs (sext W 16 op.i_imm)), .jit (.andi tmp2 tmp2 0x1f9fffff)]
  else [.jit (.andi tmp2 rs 0x1f9fffff)]) ++
  [.free_reg rs, .alloc_reg_temp tmp, .jit (.bgei 0 tmp2 0x1fffff)] ++
  (if W = 64 then [.jit (.lshi tmp tmp2 1), .jit (.addr tmp LIGHTREC_REG_STATE tmp)]
  else [.jit (.addr tmp LIGHTREC_REG_STATE tmp2)]) ++
  [.jit (.stxi .code_lut tmp tmp3)] ++
  (if state.offset_ram ≠ state.offset_scratch then
    (if state.offset_ram ≠ 0 then [.jit (.movi tmp3 state.offset_ram)] else []) ++
      [.jit (.jmpi 1)]
  else []) ++
  [.jit (.patch 0)] ++
  (if state.offset_scratch ≠ 0 then [.jit (.movi tmp3 state.offset_scratch)] else []) ++
  (if state.offset_ram ≠ state.offset_scratch then [.jit (.patch 1)] else []) ++
  (if state.offset_ram ≠ 0 ∨ state.offset_scratch ≠ 0 then [.jit (.addr tmp2 tmp2 tmp3)]
  else []) ++
  [.free_reg tmp, .free_reg tmp3, .alloc_reg_in op.i_rt rt,
    .jit (.new_node_ww code tmp2 rt), .free_reg rt, .free_reg tmp2]

/-- `rec_load_direct(block, op, code)` on a host with words of `W` bits;
`to_not_ram` is label 0, `to_not_bios` label 1, `to_end` label 2 and `to_end2`
label 3. -/
def rec_load_direct (rc : regcache) (W : Nat) (state : lightrec_state)
    (op : opcode) (code : jit_code) : List emit :=
  if op.i_rt = 0 then []
  else
    let rs := rc.host_of op.i_rs
    let rt := rc.host_of op.i_rt
    let tmp := rc.temp 0
    let addr_reg := if op.i_imm ≠ 0 then rt else rs
    [.alloc_reg_in op.i_rs rs, .alloc_reg_out op.i_rt rt] ++
    (if op.i_imm ≠ 0 then
      [.jit (.addi rt rs (sext W 16 op.i_imm))] ++
        (if op.i_rs ≠ op.i_rt then [.free_reg rs] else [])
    else []) ++
    [.alloc_reg_temp tmp] ++
    (if state.offset_ram = state.offset_bios ∧ state.offset_ram = state.offset_scratch then
      (if !state.mirrors_mapped then
        [.jit (.andi tmp addr_reg (BIT 28)), .jit (.rshi_u tmp tmp (28 - 22)),
          .jit (.ori tmp tmp 0x1f9fffff), .jit (.andr rt addr_reg tmp)]
      else [.jit (.andi rt addr_reg 0x1fffffff)]) ++
      (if state.offset_ram ≠ 0 then [.jit (.movi tmp state.offset_ram)] else [])
    else
      [.jit (.bmsi 0 addr_reg (BIT 28)), .jit (.andi rt addr_reg 0x1fffff)] ++
      (if state.offset_ram ≠ 0 then [.jit (.movi tmp state.offset_ram)] else []) ++
      [.jit (.jmpi 2), .jit (.patch 0)] ++
      (if state.offset_bios ≠ state.offset_scratch then [.jit (.bmci 1 addr_reg (BIT 22))]
      else []) ++
      [.jit (.andi rt addr_reg 0x1fc7ffff), .jit (.movi tmp state.offset_bios)] ++
      (if state.offset_bios ≠ state.offset_scratch then
        [.jit (.jmpi 3), .jit (.patch 1), .jit (.andi rt addr_reg 0x1f800fff)] ++
          (if state.offset_scratch ≠ 0 then [.jit (.movi tmp state.offset_scratch)] else []) ++
          [.jit (.patch 3)]
      else []) ++
      [.jit (.patch 2)]) ++
    (if state.offset_ram ≠ 0 ∨ state.offset_bios ≠ 0 ∨ state.offset_scratch ≠ 0 then
      [.jit (.addr rt rt tmp)]
    else []) ++
    [.jit (.new_node_ww code rt rt), .free_reg addr_reg, .free_reg rt, .free_reg tmp]

/-! ## The generic coprocessor helper and its routing -/

/-- Modelled from the spec: the secondary opcode numbers of COP0 and COP2
(declared in `disassembler.h`), "CP0, and CP2 primary opcodes route to secondary
tables keyed by `funct` or `rs`", as the MIPS-I encoding of the guest fixes
them. -/
def OP_CP0_MFC0 : Nat := 0x00
def OP_CP0_CFC0 : Nat := 0x02
def OP_CP0_MTC0 : Nat := 0x04
def OP_CP0_CTC0 : Nat := 0x06
def OP_CP0_RFE : Nat := 0x10
def OP_CP2_BASIC : Nat := 0x00
def OP_CP2_BASIC_MFC2 : Nat := 0x00
def OP_CP2_BASIC_CFC2 : Nat := 0x02
def OP_CP2_BASIC_MTC2 : Nat := 0x04
def OP_CP2_BASIC_CTC2 : Nat := 0x06

/-- `lightrec_cp_cb(state)` with `state->op_data.op` pointing to `op`: the
callback it calls. -/
def lightrec_cp_cb (_state : lightrec_state) (op : opcode) : List cop_call :=
  if (op.word >>> 25) &&& 1 ≠ 0 then [.op 2 op.word] else [.op 0 op.word]

/-- `rec_CP0(block, op, pc)`: the table `rec_cp0` indexed by `op->r.rs`, with
`rec_CP` for the empty slots. -/
def rec_CP0 (rc : regcache) (st : emitter_state) (op : opcode) (pc : Nat) :
    List emit × emitter_state :=
  if op.r_rs = OP_CP0_MFC0 ∨ op.r_rs = OP_CP0_CFC0 then (rec_mfc rc op, st)
  else if op.r_rs = OP_CP0_MTC0 ∨ op.r_rs = OP_CP0_CTC0 then rec_mtc rc st op pc
  else if op.r_rs = OP_CP0_RFE then (rec_cp0_RFE rc, st)
  else (rec_CP rc op, st)

/-- `rec_CP2(block, op, pc)`: the table `rec_cp2_basic` indexed by `op->r.rs`
when `op->r.op == OP_CP2_BASIC`, and `rec_CP` otherwise. -/
def rec_CP2 (rc : regcache) (st : emitter_state) (op : opcode) (pc : Nat) :
    List emit × emitter_state :=
  if op.r_op = OP_CP2_BASIC ∧
      (op.r_rs = OP_CP2_BASIC_MFC2 ∨ op.r_rs = OP_CP2_BASIC_CFC2) then (rec_mfc rc op, st)
  else if op.r_op = OP_CP2_BASIC ∧
      (op.r_rs = OP_CP2_BASIC_MTC2 ∨ op.r_rs = OP_CP2_BASIC_CTC2) then rec_mtc rc st op pc
  else (rec_CP rc op, st)

/-! ## `lightrec_invalidate_all` -/

/-- The call `memset(lut, 0, n)` on a table of pointers of `P` bytes each on a
little-endian host: an entry that lies within the first `n` bytes becomes null,
an entry that straddles byte `n` loses its low bytes, the others are kept. -/
def memset_lut (P : Nat) (lut : Nat → Nat) (n : Nat) : Nat → Nat :=
  fun i =>
    if (i + 1) * P ≤ n then 0
    else if i * P < n then lut i / 2 ^ (8 * (n - i * P)) * 2 ^ (8 * (n - i * P))
    else lut i

/-- `lightrec_invalidate_all(state)` on a host whose pointers have `P` bytes. -/
def lightrec_invalidate_all (P : Nat) (state : lightrec_state) : lightrec_state :=
  { state with
    code_lut := memset_lut P state.code_lut
      ((map_at state PSX_MAP_KERNEL_USER_RAM).length >>> 2) }

/-! ## The hash table of the texture dumper -/

/-- The constant `HASH_TABLE_SIZE` of `texture_dumper.cpp`. -/
def HASH_TABLE_SIZE : Nat := 0x10000

/-- Modelled from the spec: `table_entry_t` (declared in `texture_dumper.h`):
the fields `capacity` and `len`, and the array `hashes` with one element for
every slot of the allocation the entry lives in. -/
structure table_entry_t where
  capacity : Nat
  len : Nat
  hashes : List Nat
  deriving DecidableEq, Repr

/-- What a call of `hash_table_insert` comes to: it returns (with the new
table), or it writes `hashes[index]` in an allocation of only `slots` slots. -/
inductive insert_outcome where
  | returned (ret : Bool) (tex_hash_table : Nat → Option table_entry_t)
  | write_outside (index slots : Nat)

/-- `TextureDumper::hash_table_insert(hash)`; `alloc_ok` says whether the
`malloc` or `realloc` that the call may make succeeds.  Fresh slots hold 0. -/
def hash_table_insert (alloc_ok : Bool) (tex_hash_table : Nat → Option table_entry_t)
    (hash : Nat) : insert_outcome :=
  let index := hash % HASH_TABLE_SIZE
  match tex_hash_table index with
  | none =>
    let capacity := 16
    if !alloc_ok then .returned false tex_hash_table
    else
      .returned true
        (Function.update tex_hash_table index
          (some { capacity := capacity, len := 1,
                  hashes := (List.replicate capacity 0).set 0 hash }))
  | some entry =>
    if (entry.hashes.take entry.len).contains hash then .returned false tex_hash_table
    else
      let grow := entry.capacity = entry.len
      if grow ∧ !alloc_ok then .returned false tex_hash_table
      else
        let slots := if grow then u32 (entry.capacity * 2) else entry.hashes.length
        let hashes :=
          if grow then entry.hashes.take slots ++ List.replicate (slots - entry.hashes.length) 0
          else entry.hashes
        if entry.len < slots then
          .returned true
            (Function.update tex_hash_table index
              (some { capacity := entry.capacity, len := u32 (entry.len + 1),
                      hashes := hashes.set entry.len hash }))
        else .write_outside entry.len slots

/-- A sequence of calls of `hash_table_insert`, each with a successful
allocation, up to the first write outside an allocation. -/
def insert_all (tex_hash_table : Nat → Option table_entry_t) : List Nat → insert_outcome
  | [] => .returned true tex_hash_table
  | h :: hs =>
    match hash_table_insert true tex_hash_table h with
    | .returned _ t => insert_all t hs
    | .write_outside i s => .write_outside i s

/-- The bucket `index` after a call that returned. -/
def insert_outcome.bucket (o : insert_outcome) (index : Nat) : Option table_entry_t :=
  match o with
  | .returned _ t => t index
  | .write_outside _ _ => none

/-- The index and the number of allocated slots of a write outside the
allocation. -/
def insert_outcome.outside : insert_outcome → Option (Nat × Nat)
  | .returned _ _ => none
  | .write_outside i s => some (i, s)

/-! ## The emitter: loads and stores through `rec_io` -/

/-- `rec_load(block, op, code)`; the flag `LIGHTREC_DIRECT_IO` is a parameter. -/
def rec_load (rc : regcache) (W : Nat) ( LIGHTREC_DIRECT_IO : Nat) (state : lightrec_state)
    (op : opcode) (code : jit_code) : List emit :=
  if op.flags &&& LIGHTREC_DIRECT_IO ≠ 0 then rec_load_direct rc W state op code
  else rec_io rc op false true

/-- `rec_LB`. -/
def rec_LB (rc : regcache) (W : Nat) ( LIGHTREC_DIRECT_IO : Nat) (state : lightrec_state)
    (op : opcode) : List emit := rec_load rc W LIGHTREC_DIRECT_IO state op .ldr_c

/-- `rec_LBU`. -/
def rec_LBU (rc : regcache) (W : Nat) ( LIGHTREC_DIRECT_IO : Nat) (state : lightrec_state)
    (op : opcode) : List emit := rec_load rc W LIGHTREC_DIRECT_IO state op .ldr_uc

/-- `rec_LH`. -/
def rec_LH (rc : regcache) (W : Nat) ( LIGHTREC_DIRECT_IO : Nat) (state : lightrec_state)
    (op : opcode) : List emit := rec_load rc W LIGHTREC_DIRECT_IO state op .ldr_s

/-- `rec_LHU`. -/
def rec_LHU (rc : regcache) (W : Nat) ( LIGHTREC_DIRECT_IO : Nat) (state : lightrec_state)
    (op : opcode) : List emit := rec_load rc W LIGHTREC_DIRECT_IO state op .ldr_us

/-- `rec_LW`. -/
def rec_LW (rc : regcache) (W : Nat) ( LIGHTREC_DIRECT_IO : Nat) (state : lightrec_state)
    (op : opcode) : List emit := rec_load rc W LIGHTREC_DIRECT_IO state op .ldr_i

/-- `rec_LWR`: `rec_io(block, op, true, true)`. -/
def rec_LWR (rc : regcache) (op : opcode) : List emit := rec_io rc op true true

/-- `rec_LWC2`: `rec_io(block, op, false, false)`. -/
def rec_LWC2 (rc : regcache) (op : opcode) : List emit := rec_io rc op false false

/-- `rec_SWC2`: `rec_io(block, op, false, false)`. -/
def rec_SWC2 (rc : regcache) (op : opcode) : List emit := rec_io rc op false false

/-! ## The emitter: jumps and branches -/

/-- Modelled from the spec: the field `op->j.imm` of the J-form `(imm26)`, bits
25..0 of the word. -/
def opcode.j_imm (op : opcode) : Nat := op.word % 2 ^ 26

/-- The delay slot that the jump and branch emitters pass on:
`op->flags & LIGHTREC_NO_DS ? NULL : op->next`.  The flag is a parameter. -/
def delay_slot_of ( LIGHTREC_NO_DS : Nat) (op : opcode) (next : Option delay_slot) :
    Option delay_slot :=
  if op.flags &&& LIGHTREC_NO_DS ≠ 0 then none else next

/-- `rec_special_JR(block, op, pc)`; `lightrec_request_reg_in(.., JIT_V0)` is
taken to hand out `JIT_V0`, "requests a particular host register". -/
def rec_special_JR (rc : regcache) ( LIGHTREC_NO_DS : Nat) (st : emitter_state) (op : opcode)
    (next : Option delay_slot) (pc : Nat) : List emit × emitter_state :=
  let eob := lightrec_emit_end_of_block rc st pc (JIT_V0 : Nat) 0 31 0
    (delay_slot_of LIGHTREC_NO_DS op next)
  (.request_reg_in op.r_rs JIT_V0 :: eob.1, eob.2)

/-- `rec_special_JALR(block, op, pc)`. -/
def rec_special_JALR (rc : regcache) ( LIGHTREC_NO_DS : Nat) (st : emitter_state) (op : opcode)
    (next : Option delay_slot) (pc : Nat) : List emit × emitter_state :=
  let eob := lightrec_emit_end_of_block rc st pc (JIT_V0 : Nat) 0 op.r_rd (u32 (pc + 8))
    (delay_slot_of LIGHTREC_NO_DS op next)
  (.request_reg_in op.r_rs JIT_V0 :: eob.1, eob.2)

/-- `rec_J(block, op, pc)`. -/
def rec_J (rc : regcache) ( LIGHTREC_NO_DS : Nat) (st : emitter_state) (op : opcode)
    (next : Option delay_slot) (pc : Nat) : List emit × emitter_state :=
  lightrec_emit_end_of_block rc st pc (-1)
    ((pc &&& 0xf0000000) ||| u32 (op.j_imm <<< 2)) 31 0 (delay_slot_of LIGHTREC_NO_DS op next)

/-- `rec_JAL(block, op, pc)`. -/
def rec_JAL (rc : regcache) ( LIGHTREC_NO_DS : Nat) (st : emitter_state) (op : opcode)
    (next : Option delay_slot) (pc : Nat) : List emit × emitter_state :=
  lightrec_emit_end_of_block rc st pc (-1)
    ((pc &&& 0xf0000000) ||| u32 (op.j_imm <<< 2)) 31 (u32 (pc + 8))
    (delay_slot_of LIGHTREC_NO_DS op next)

/-- The part of `rec_b` before the taken-side epilogue, emitted when the branch
is not unconditional: the operands, their sign extension on a 64-bit host, the
compare-and-branch node with the label `addr`, and the snapshot of the register
cache. -/
def rec_b_head (rc : regcache) (W : Nat) (op : opcode) (code : jit_code) (addr : Nat)
    (bz : Bool) : List emit :=
  let rs := rc.host_of op.i_rs
  let rt := if bz then 0 else rc.host_of op.i_rt
  [.alloc_reg_in op.i_rs rs] ++
  (if bz then [] else [.alloc_reg_in op.i_rt rt]) ++
  (if W = 64 then
    [.jit (.extr_i rs rs)] ++ (if rt ≠ 0 then [.jit (.extr_i rt rt)] else [])
  else []) ++
  [.jit (.new_node_pww code addr rs rt), .free_regs, .enter_branch]

/-- The part of `rec_b` after the taken-side epilogue, emitted when the branch
is not unconditional: the label, the restored register cache, the link write of
a branch-and-link and the delay slot of the not-taken path. -/
def rec_b_tail (rc : regcache) (ds : Option delay_slot) (pc addr link : Nat) (bz : Bool) :
    List emit :=
  [.jit (.patch addr), .leave_branch] ++
  (if bz ∧ link ≠ 0 then
    [.alloc_reg_out 31 (rc.host_of 31), .jit (.movi (rc.host_of 31) link),
      .free_reg (rc.host_of 31)]
  else []) ++
  (match ds with
    | none => []
    | some d => if d.word ≠ 0 then d.code (u32 (pc + 4)) else [])

/-- The target of a branch at `pc`: `pc + 4 + ((s16) op->i.imm << 2)` as a
`u32`. -/
def branch_target (op : opcode) (pc : Nat) : Nat := u32 (pc + 4 + (sext16 op.i_imm <<< 2))

/-- `rec_b(block, op, pc, code, link, unconditional, bz)` on a host with words of
`W` bits; the node of the compare-and-branch gets the next free label. -/
def rec_b (rc : regcache) (W : Nat) ( LIGHTREC_NO_DS : Nat) (st : emitter_state) (op : opcode)
    (next : Option delay_slot) (pc : Nat) (code : jit_code) (link : Nat)
    (unconditional bz : Bool) : List emit × emitter_state :=
  let ds := delay_slot_of LIGHTREC_NO_DS op next
  if unconditional then
    lightrec_emit_end_of_block rc st pc (-1) (branch_target op pc) 31 link ds
  else
    let addr := st.next_label
    let eob := lightrec_emit_end_of_block rc { st with next_label := st.next_label + 1 } pc
      (-1) (branch_target op pc) 31 link ds
    (rec_b_head rc W op code addr bz ++ eob.1 ++ rec_b_tail rc ds pc addr link bz, eob.2)

/-- `rec_BNE`. -/
def rec_BNE (rc : regcache) (W : Nat) ( LIGHTREC_NO_DS : Nat) (st : emitter_state) (op : opcode)
    (next : Option delay_slot) (pc : Nat) : List emit × emitter_state :=
  rec_b rc W LIGHTREC_NO_DS st op next pc .beqr 0 false false

/-- `rec_BEQ`. -/
def rec_BEQ (rc : regcache) (W : Nat) ( LIGHTREC_NO_DS : Nat) (st : emitter_state) (op : opcode)
    (next : Option delay_slot) (pc : Nat) : List emit × emitter_state :=
  rec_b rc W LIGHTREC_NO_DS st op next pc .bner 0 (op.i_rs = op.i_rt) false

/-- `rec_BLEZ`. -/
def rec_BLEZ (rc : regcache) (W : Nat) ( LIGHTREC_NO_DS : Nat) (st : emitter_state) (op : opcode)
    (next : Option delay_slot) (pc : Nat) : List emit × emitter_state :=
  rec_b rc W LIGHTREC_NO_DS st op next pc .bgti 0 (op.i_rs = 0) true

/-- `rec_BGTZ`. -/
def rec_BGTZ (rc : regcache) (W : Nat) ( LIGHTREC_NO_DS : Nat) (st : emitter_state) (op : opcode)
    (next : Option delay_slot) (pc : Nat) : List emit × emitter_state :=
  rec_b rc W LIGHTREC_NO_DS st op next pc .blei 0 false true

/-- `rec_regimm_BLTZ`. -/
def rec_regimm_BLTZ (rc : regcache) (W : Nat) ( LIGHTREC_NO_DS : Nat) (st : emitter_state)
    (op : opcode) (next : Option delay_slot) (pc : Nat) : List emit × emitter_state :=
  rec_b rc W LIGHTREC_NO_DS st op next pc .bgei 0 false true

/-- `rec_regimm_BLTZAL`. -/
def rec_regimm_BLTZAL (rc : regcache) (W : Nat) ( LIGHTREC_NO_DS : Nat) (st : emitter_state)
    (op : opcode) (next : Option delay_slot) (pc : Nat) : List emit × emitter_state :=
  rec_b rc W LIGHTREC_NO_DS st op next pc .bgei (u32 (pc + 8)) false true

/-- `rec_regimm_BGEZ`. -/
def rec_regimm_BGEZ (rc : regcache) (W : Nat) ( LIGHTREC_NO_DS : Nat) (st : emitter_state)
    (op : opcode) (next : Option delay_slot) (pc : Nat) : List emit × emitter_state :=
  rec_b rc W LIGHTREC_NO_DS st op next pc .blti 0 (op.i_rs = 0) true

/-- `rec_regimm_BGEZAL`. -/
def rec_regimm_BGEZAL (rc : regcache) (W : Nat) ( LIGHTREC_NO_DS : Nat) (st : emitter_state)
    (op : opcode) (next : Option delay_slot) (pc : Nat) : List emit × emitter_state :=
  rec_b rc W LIGHTREC_NO_DS st op next pc .blti (u32 (pc + 8)) (op.i_rs = 0) true

/-- `rec_meta_BEQZ`. -/
def rec_meta_BEQZ (rc : regcache) (W : Nat) ( LIGHTREC_NO_DS : Nat) (st : emitter_state)
    (op : opcode) (next : Option delay_slot) (pc : Nat) : List emit × emitter_state :=
  rec_b rc W LIGHTREC_NO_DS st op next pc .bnei 0 false true

/-- `rec_meta_BNEZ`. -/
def rec_meta_BNEZ (rc : regcache) (W : Nat) ( LIGHTREC_NO_DS : Nat) (st : emitter_state)
    (op : opcode) (next : Option delay_slot) (pc : Nat) : List emit × emitter_state :=
  rec_b rc W LIGHTREC_NO_DS st op next pc .beqi 0 false true

/-- The three actions that write the value `v` to guest register `g` through
the register cache: `lightrec_alloc_reg_out`, `jit_movi`, `lightrec_free_reg`. -/
def link_write (rc : regcache) (g v : Nat) : List emit :=
  [.alloc_reg_out g (rc.host_of g), .jit (.movi (rc.host_of g) v), .free_reg (rc.host_of g)]

/-- Whether an action belongs to the lowering of a conditional branch: the
compare-and-branch node, or the snapshot of the register cache and its
restoration. -/
def is_branch_part : emit → Bool
  | .jit (.new_node_pww _ _ _ _) => true
  | .enter_branch => true
  | .leave_branch => true
  | _ => false

/-- The delay-slot code that `lightrec_emit_end_of_block` and the not-taken path
of `rec_b` emit: `if (ds && ds->opcode) lightrec_rec_opcode(block, ds, pc + 4)`. -/
def delay_code (ds : Option delay_slot) (pc : Nat) : List emit :=
  match ds with
  | none => []
  | some d => if d.word ≠ 0 then d.code (u32 (pc + 4)) else []

/-- The cycle count that the epilogue subtracts. -/
def eob_cycles (st : emitter_state) (ds : Option delay_slot) : Nat :=
  match ds with
  | none => st.cycles
  | some d => u32 (st.cycles + d.cycles)

/-- The way out of the epilogue: the pending jumps are bound and the stub is
reached through `eob_wrapper_func`, or (when the delay slot has a successor) a
jump is recorded for later. -/
def eob_exit (st : emitter_state) (ds : Option delay_slot) : List emit :=
  if (match ds with
      | none => true
      | some d => !d.has_next) then
    st.branches.map (fun l => emit.jit (.patch l)) ++
      [.jit (.ldxi JIT_R0 LIGHTREC_REG_STATE .eob_wrapper_func), .jit (.jmpr JIT_R0)]
  else [.jit (.jmpi st.next_label)]

/-- The epilogue after the link write: next PC, delay slot, storeback, `JIT_V0`
and cycle counter, way out. -/
def eob_rest (st : emitter_state) (pc : Nat) (reg_new_pc : Int) (imm : Nat)
    (ds : Option delay_slot) : List emit :=
  (if reg_new_pc < 0 then [emit.alloc_reg JIT_V0, .jit (.movi JIT_V0 imm)] else []) ++
  delay_code ds pc ++
  [.storeback_regs,
    .jit (.movr JIT_V0 (if reg_new_pc < 0 then JIT_V0 else reg_new_pc.toNat)),
    .jit (.subi LIGHTREC_REG_CYCLE LIGHTREC_REG_CYCLE (eob_cycles st ds))] ++
  eob_exit st ds

/-! ## Guest branch conditions -/

/-- The signature shared by the lowerings of the conditional branches. -/
abbrev branch_emitter :=
  regcache → Nat → Nat → emitter_state → opcode → Option delay_slot → Nat →
    List emit × emitter_state

/-- The conditional branches of the guest with the lowering of each: the
emitter function, and the branch condition of the MIPS-I instruction on the
values of `rs` and `rt`, read as signed 32-bit numbers where the instruction
compares with zero. -/
def branch_lowerings : List (branch_emitter × (Nat → Nat → Bool)) :=
  [ (rec_BEQ, fun rs rt => decide (rs = rt)),
    (rec_BNE, fun rs rt => decide (rs ≠ rt)),
    (rec_BLEZ, fun rs _ => decide (to_int 32 rs ≤ 0)),
    (rec_BGTZ, fun rs _ => decide (0 < to_int 32 rs)),
    (rec_regimm_BLTZ, fun rs _ => decide (to_int 32 rs < 0)),
    (rec_regimm_BGEZ, fun rs _ => decide (0 ≤ to_int 32 rs)),
    (rec_regimm_BLTZAL, fun rs _ => decide (to_int 32 rs < 0)),
    (rec_regimm_BGEZAL, fun rs _ => decide (0 ≤ to_int 32 rs)),
    (rec_meta_BEQZ, fun rs _ => decide (rs = 0)),
    (rec_meta_BNEZ, fun rs _ => decide (rs ≠ 0)) ]

/-- What it means that `code` lowers a conditional branch with the guest
condition `cond` for a machine `m` that enters it: `code` is a head, a
taken-side epilogue for the branch target and a tail; the head neither leaves
the code nor has an effect outside the registers; when `cond` holds the
epilogue is entered with no jump pending, and when it does not the host branch
has fired, the whole epilogue is skipped, and the tail starts with the label of
that branch (`st.next_label`). -/
def branch_lowered (rc : regcache) (W : Nat) (st : emitter_state) (pc target : Nat)
    (ds : Option delay_slot) (m : host_machine) (code : List emit) (cond : Bool) : Prop :=
  ∃ (head taken tail : List emit) (st1 : emitter_state) (link : Nat),
    code = head ++ taken ++ tail ∧
    taken = (lightrec_emit_end_of_block rc st1 pc (-1) target 31 link ds).1 ∧
    emit.jit (.movi JIT_V0 target) ∈ taken ∧
    (exec W head m).halted = false ∧ (exec W head m).events = m.events ∧
    (cond = true → (exec W head m).skip = none) ∧
    (cond = false →
      (exec W head m).skip = some st.next_label ∧
      exec W (head ++ taken) m = exec W head m ∧
      tail.head? = some (.jit (.patch st.next_label)))

/-! ## Concrete configurations used for evaluation -/

/-- Modelled from the spec: an instance of `kunseg` (declared in
`lightrec-private.h`) for concrete evaluations, an "unsegmenting mask applied
to a guest address": the mask `addr & 0x1fffffff`, which is the one
`rec_load_direct` applies. -/
def kunseg_mask (addr : Nat) : Nat := addr % 0x20000000

/-- Sample coprocessor callbacks: every register reads as zero. -/
def cop_ops_zero : lightrec_cop_ops := { mfc := fun _ => 0, cfc := fun _ => 0 }

/-- A state with the two megabytes of PSX RAM at guest address 0, a BIOS map
and one RAM mirror behind it, in which every code-LUT slot holds the non-null
entry `lut`. -/
def sample_state (lut : Nat) : lightrec_state :=
  { native_reg_cache := List.replicate 34 0
    next_pc := 0
    current_cycle := 0
    target_cycle := 0
    exit_flags := 0
    ops := { cop0_ops := cop_ops_zero, cop2_ops := cop_ops_zero }
    maps :=
      [ { pc := 0, length := 0x200000, address := 0x10000000, ops := none, mirror_of := none },
        { pc := 0x1fc00000, length := 0x80000, address := 0x30000000, ops := none,
          mirror_of := none },
        { pc := 0x200000, length := 0x200000, address := 0, ops := none, mirror_of := some 0 } ]
    offset_ram := 0x10000000
    offset_bios := 0x30000000 - 0x1fc00000
    offset_scratch := 0
    mirrors_mapped := false
    code_lut := fun _ => lut }

/-- The guest word `SW $0, 4($0)`. -/
def sample_sw : opcode := { word := 0xAC000004, flags := 0 }

/-- The guest word `SWL $0, 1($0)`. -/
def sample_swl : opcode := { word := 0xA8000001, flags := 0 }

/-- The guest word `LW $0, 0($0)` with some flags set. -/
def sample_lw : opcode := { word := 0x8C000000, flags := 6 }

/-- Host memory filled with zero bytes. -/
def zero_mem : host_mem := fun _ => 0

/-- Callbacks of a hardware-register map: every load returns `0x5a`. -/
def sample_map_ops : lightrec_mem_map_ops :=
  { lb := fun _ => 0x5a, lh := fun _ => 0x5a, lw := fun _ => 0x5a }

/-- The sample state with a fourth map, the hardware registers at
`0x1f801000`, which goes through callbacks. -/
def sample_state_hw (lut : Nat) : lightrec_state :=
  { sample_state lut with
    maps := (sample_state lut).maps ++
      [ { pc := 0x1f801000, length := 0x2000, address := 0, ops := some sample_map_ops,
          mirror_of := none } ] }

/-- The sample state with an empty code LUT and the given cycle counter and
target. -/
def sample_state_cycles (current target : Nat) : lightrec_state :=
  { sample_state 0 with current_cycle := current, target_cycle := target }

/-- A disassembler that returns an empty opcode list for every address. -/
def sample_disassemble (_code : Nat) : Option (List opcode × Nat) := some ([], 0)

/-- Sample switches: interpreter first pass on, recompiler thread off. -/
def sample_config : config :=
  { ENABLE_FIRST_PASS := true, ENABLE_THREADED_COMPILER := false, BLOCK_NEVER_COMPILE := 1 }

/-- A block at the start of RAM with the entry point `function` (0: not yet
compiled). -/
def sample_block (function : Nat) : block :=
  { pc := 0x80000000, kunseg_pc := 0, map := 0, function := function, opcode_list := [],
    cycles := 0, code := 0x10000000, length := 0, flags := 0, jit := none }

/-- A step of the surroundings: the block cache answers `found`, the
interpreter changes the state by `emulate`, a compiled block costs 5 cycles and
jumps back to `0x80000000`. -/
def sample_env_step (found : Option block) (emulate : lightrec_state → lightrec_state) :
    env_step :=
  { find_block := found, outdated := false, malloc_ok := true,
    disassemble := sample_disassemble, optimize := id,
    emulate := emulate, emulate_pc := 0x80000010,
    cycles_of_opcode := fun _ => 1, new_jit := some 1, emitted := 7,
    run := id, run_cycles := 5, run_pc := 0x80000000 }

/-- Surroundings in which the block cache always holds a compiled block that
leaves `0xffffffff` in `JIT_R0`. -/
def sample_env_wide (_n : Nat) : env_step :=
  { sample_env_step (some (sample_block 7)) id with run_cycles := 0xffffffff }

/-- A complete set of coprocessor callbacks for `lightrec_init`. -/
def sample_cop_ops_arg : cop_ops_arg :=
  { mfc := some (fun r => r + 1), cfc := some (fun r => r + 2), mtc := some 0x1000,
    ctc := some 0x1010, op := some 0x1020 }

/-- The argument `ops` of `lightrec_init` with all ten callbacks. -/
def sample_ops_arg : lightrec_ops_arg :=
  { cop0_ops := sample_cop_ops_arg, cop2_ops := sample_cop_ops_arg }

/-- The argument `ops` of `lightrec_init` with the callback `cop2_ops.ctc` left
null. -/
def sample_ops_arg_no_ctc2 : lightrec_ops_arg :=
  { cop0_ops := sample_cop_ops_arg, cop2_ops := { sample_cop_ops_arg with ctc := none } }

/-- Surroundings of `lightrec_init` in which every allocation succeeds. -/
def init_env_ok : init_env :=
  { calloc_ok := true, block_cache_ok := true, reg_cache_ok := true, rec_ok := true,
    wrapper_ok := true, rw_wrapper_ok := true, mfc_wrapper_ok := true, mtc_wrapper_ok := true,
    rfe_wrapper_ok := true, cp_wrapper_ok := true }

/-- The nine PSX memory maps with RAM at the host address `base` and the three
mirrors at the host addresses `m1`, `m2`, `m3`. -/
def psx_maps (base m1 m2 m3 : Nat) : List lightrec_mem_map :=
  [ { pc := 0, length := 0x200000, address := base, ops := none, mirror_of := none },
    { pc := 0x1fc00000, length := 0x80000, address := 0x30000000, ops := none,
      mirror_of := none },
    { pc := 0x1f800000, length := 0x400, address := 0x31000000, ops := none,
      mirror_of := none },
    { pc := 0x1f000000, length := 0x10000, address := 0, ops := some sample_map_ops,
      mirror_of := none },
    { pc := 0x1f801000, length := 0x2000, address := 0, ops := some sample_map_ops,
      mirror_of := none },
    { pc := 0x5ffe0130, length := 4, address := 0, ops := some sample_map_ops,
      mirror_of := none },
    { pc := 0x200000, length := 0x200000, address := m1, ops := none, mirror_of := some 0 },
    { pc := 0x400000, length := 0x200000, address := m2, ops := none, mirror_of := some 0 },
    { pc := 0x600000, length := 0x200000, address := m3, ops := none, mirror_of := some 0 } ]

/-- A register cache that keeps guest register `g` in host register `g + 40`
and hands out the scratch registers `JIT_R(k)`. -/
def sample_regcache : regcache := { host_of := fun g => g + 40, temp := fun k => k }

/-- A register cache that keeps guest register `$2` in host register 0 and
every other guest register `g` in host register `g + 40`. -/
def sample_regcache_r0 : regcache :=
  { host_of := fun g => if g = 2 then 0 else g + 40, temp := fun k => k + 1 }

/-- A host machine with the register file `regs`, in which every load returns
zero. -/
def sample_machine (regs : Nat → Nat) : host_machine :=
  { regs := regs, load_val := fun _ _ => 0, field_val := fun _ _ => 0, events := [],
    skip := none, halted := false }

/-- The guest word `DIV $1, $2`. -/
def sample_div : opcode := { word := 0x0022001A, flags := 0 }

/-- The guest word `ADDU $2, $3, $3`. -/
def sample_addu_double : opcode := { word := 0x00631021, flags := 0 }

/-- The guest word `ADDU $1, $3, $4`. -/
def sample_addu : opcode := { word := 0x00640821, flags := 0 }

/-- The guest word `ADDU $2, $3, $4`. -/
def sample_addu_rt : opcode := { word := 0x00641021, flags := 0 }

/-- A 64-bit register file with `$1 = 0x80000000` held sign-extended,
`$3 = 0x7fffffff` and `$4 = 1`, for the register caches `sample_regcache` and
`sample_regcache_r0`. -/
def sample_regs_sum (r : Nat) : Nat :=
  if r = 41 then 0xffffffff80000000 else if r = 43 then 0x7fffffff else if r = 44 then 1 else 0

/-- The guest word `DIVU $1, $2`. -/
def sample_divu : opcode := { word := 0x0022001B, flags := 0 }

/-- The guest word `MTC0 $2, $12` (status register). -/
def sample_mtc0_status : opcode := { word := 0x40826000, flags := 0 }

/-- The guest word `MTC0 $2, $14` (EPC). -/
def sample_mtc0_epc : opcode := { word := 0x40827000, flags := 0 }

/-- The guest word `MTC2 $2, $12`. -/
def sample_mtc2 : opcode := { word := 0x48826000, flags := 0 }

/-- An emitter state with 3 cycles counted and one pending end-of-block jump. -/
def sample_emitter_state : emitter_state := { cycles := 3, branches := [7], next_label := 8 }

/-- The guest word `SB $2, -1($1)`. -/
def sample_sb_last : opcode := { word := 0xA022FFFF, flags := 0 }

/-- The guest word `SB $2, 1($1)`. -/
def sample_sb_odd : opcode := { word := 0xA0220001, flags := 0 }

/-- The guest word `LW $2, 0($1)`. -/
def sample_lw_direct : opcode := { word := 0x8C220000, flags := 0 }

/-- A 64-bit register file: the state at host address `0x7000000`, guest
register `$1` = `r1` (sign-extended by the caller), `$2` = `0x5a`, and `junk` in
every scratch register. -/
def sample_regs (r1 junk : Nat) : Nat → Nat :=
  fun r =>
    if r = LIGHTREC_REG_STATE then 0x7000000
    else if r = 41 then r1
    else if r = 42 then 0x5a
    else if r < 3 then junk
    else 0

/-- The guest word `SWC2 $2, 0($0)`. -/
def sample_swc2 : opcode := { word := 0xE8020000, flags := 0 }

/-- The guest word `LWC2 $2, 0($0)`. -/
def sample_lwc2 : opcode := { word := 0xC8020000, flags := 0 }

/-- A COP0 word with `rs = 0x11`: bit 25 is set and no slot of `rec_cp0`
matches. -/
def sample_cop0_word : opcode := { word := 0x42200000, flags := 0 }

/-- A COP2 word with `rs = 1`: bit 25 is clear and no slot of `rec_cp2_basic`
matches. -/
def sample_cop2_word : opcode := { word := 0x48200000, flags := 0 }

/-- The empty hash table of the texture dumper. -/
def empty_hash_table : Nat → Option table_entry_t := fun _ => none

/-- The first `n` hashes of bucket 0: the multiples of `HASH_TABLE_SIZE`. -/
def bucket0_hashes (n : Nat) : List Nat := (List.range n).map (fun k => k * HASH_TABLE_SIZE)

/-- The guest word `BNE $1, $1, +2`. -/
def sample_bne_same : opcode := { word := 0x14210002, flags := 0 }

/-- The guest word `BEQ $1, $1, +2`. -/
def sample_beq_same : opcode := { word := 0x10210002, flags := 0 }

/-- The guest word `BEQ $1, $2, -3`. -/
def sample_beq : opcode := { word := 0x1022FFFD, flags := 0 }

/-- The guest word `JAL 0x0040000`. -/
def sample_jal : opcode := { word := 0x0C010000, flags := 0 }

/-- The guest word `JALR $5, $1` (link register `$5`). -/
def sample_jalr : opcode := { word := 0x00202809, flags := 0 }

/-- The guest word `BLTZAL $1, +2`. -/
def sample_bltzal : opcode := { word := 0x04300002, flags := 0 }

/-- The guest word `BGEZAL $1, +2`. -/
def sample_bgezal : opcode := { word := 0x04310002, flags := 0 }

/-- The guest word `LW $0, 0($1)`. -/
def sample_lw_zero : opcode := { word := 0x8C200000, flags := 0 }

/-- A delay slot holding one opcode that emits a single `jit_movi`. -/
def sample_delay_slot : delay_slot :=
  { word := 0x24030007, has_next := false, cycles := 1,
    code := fun _ => [.alloc_reg_out 3 43, .jit (.movi 43 7), .free_reg 43] }

/-- The guest word `SWR $0, 0($0)`. -/
def sample_swr : opcode := { word := 0xB8000000, flags := 0 }

/-- The guest word `SWL $0, 0($0)`. -/
def sample_swl0 : opcode := { word := 0xA8000000, flags := 0 }

/-- The guest word `LWR $0, 0($0)`. -/
def sample_lwr : opcode := { word := 0x98000000, flags := 0 }

/-- The guest word `LWL $0, 0($0)`. -/
def sample_lwl : opcode := { word := 0x88000000, flags := 0 }

/-! # Theorems -/

/-! ## Facts about the invalidation loop -/

theorem u32_step (k j : Nat) : u32 (u32 (k + 4) + 4 * j) = u32 (k + 4 * (j + 1)) := by
  unfold u32; omega

theorem invalidate_map_ram_lut (st : lightrec_state) (a i : Nat) :
    (lightrec_invalidate_map st PSX_MAP_KERNEL_USER_RAM a).code_lut i
      = if i = a / 4 then 0 else st.code_lut i := by
  simp [lightrec_invalidate_map, Function.update_apply]

theorem invalidate_map_frame (st : lightrec_state) (m a : Nat) :
    lightrec_invalidate_map st m a
      = { st with code_lut := (lightrec_invalidate_map st m a).code_lut } := by
  unfold lightrec_invalidate_map; split <;> rfl

theorem invalidate_loop_small (m len : Nat) (h : len ≤ 4) (st : lightrec_state) (k : Nat) :
    lightrec_invalidate_loop m len st k = (st, k) := by
  match len, h with
  | 0, _ => rfl
  | 1, _ => rfl
  | 2, _ => rfl
  | 3, _ => rfl
  | 4, _ => rfl

theorem invalidate_loop_step (m len : Nat) (st : lightrec_state) (k : Nat) :
    lightrec_invalidate_loop m (len + 5) st k
      = lightrec_invalidate_loop m (len + 1) (lightrec_invalidate_map st m k) (u32 (k + 4)) := by
  rw [lightrec_invalidate_loop]

/-- The slot written by the `j`-th call of `lightrec_invalidate_map` made on
behalf of `lightrec_invalidate` when the walk starts at `k`. -/
theorem slot_split (k m i : Nat) (hk : k < 2 ^ 32) :
    (∃ j, j < m + 1 ∧ u32 (k + 4 * j) / 4 = i)
      ↔ (i = k / 4 ∨ ∃ j, j < m ∧ u32 (k + 4 * (j + 1)) / 4 = i) := by
  have h0 : u32 (k + 4 * 0) = k := by
    unfold u32; simpa using Nat.mod_eq_of_lt hk
  constructor
  · rintro ⟨j, hj, rfl⟩
    cases j with
    | zero => left; rw [h0]
    | succ j => right; exact ⟨j, by omega, rfl⟩
  · rintro (rfl | ⟨j, hj, rfl⟩)
    · exact ⟨0, by omega, by rw [h0]⟩
    · exact ⟨j + 1, by omega, rfl⟩

/-- Effect of the `for` loop of `lightrec_invalidate` on the RAM map: it makes
`(len - 1) / 4` calls, at `k`, `k + 4`, ... (as `u32`). -/
theorem invalidate_loop_spec : ∀ (len : Nat) (st : lightrec_state) (k : Nat), k < 2 ^ 32 →
    (lightrec_invalidate_loop PSX_MAP_KERNEL_USER_RAM len st k).2
        = u32 (k + 4 * ((len - 1) / 4)) ∧
    (∀ i, (lightrec_invalidate_loop PSX_MAP_KERNEL_USER_RAM len st k).1.code_lut i
        = if ∃ j, j < (len - 1) / 4 ∧ u32 (k + 4 * j) / 4 = i then 0 else st.code_lut i) ∧
    (lightrec_invalidate_loop PSX_MAP_KERNEL_USER_RAM len st k).1
        = { st with code_lut :=
              (lightrec_invalidate_loop PSX_MAP_KERNEL_USER_RAM len st k).1.code_lut } := by
  intro len
  induction len using Nat.strong_induction_on with
  | _ len ih =>
    intro st k hk
    by_cases h : len ≤ 4
    · rw [invalidate_loop_small _ _ h]
      have hm : (len - 1) / 4 = 0 := by omega
      refine ⟨?_, ?_, rfl⟩
      · rw [hm]; unfold u32; simpa using (Nat.mod_eq_of_lt hk).symm
      · intro i; simp [hm]
    · obtain ⟨n, rfl⟩ : ∃ n, len = n + 5 := ⟨len - 5, by omega⟩
      rw [invalidate_loop_step]
      have hk4 : u32 (k + 4) < 2 ^ 32 := Nat.mod_lt _ (by norm_num)
      obtain ⟨ih1, ih2, ih3⟩ :=
        ih (n + 1) (by omega) (lightrec_invalidate_map st PSX_MAP_KERNEL_USER_RAM k)
          (u32 (k + 4)) hk4
      have hm : (n + 5 - 1) / 4 = n / 4 + 1 := by omega
      have hm1 : (n + 1 - 1) / 4 = n / 4 := by simp
      rw [hm1] at ih1 ih2
      rw [hm]
      refine ⟨by rw [ih1, u32_step], ?_, ?_⟩
      · intro i
        rw [ih2 i, invalidate_map_ram_lut]
        simp only [u32_step]
        by_cases hi : i = k / 4
        · have : ∃ j, j < n / 4 + 1 ∧ u32 (k + 4 * j) / 4 = i :=
            (slot_split k (n / 4) i hk).2 (Or.inl hi)
          rw [if_pos this, if_pos hi]
          split <;> rfl
        · by_cases hj : ∃ j, j < n / 4 ∧ u32 (k + 4 * (j + 1)) / 4 = i
          · have : ∃ j, j < n / 4 + 1 ∧ u32 (k + 4 * j) / 4 = i :=
              (slot_split k (n / 4) i hk).2 (Or.inr hj)
            rw [if_pos hj, if_pos this]
          · have : ¬ ∃ j, j < n / 4 + 1 ∧ u32 (k + 4 * j) / 4 = i := by
              intro hc
              rcases (slot_split k (n / 4) i hk).1 hc with h1 | h1
              · exact hi h1
              · exact hj h1
            rw [if_neg hj, if_neg hi, if_neg this]
      · rw [ih3]
        rw [invalidate_map_frame st PSX_MAP_KERNEL_USER_RAM k]


theorem slot_injOn (k n : Nat) (hn : n ≤ 2 ^ 30) :
    Set.InjOn (fun j => u32 (k + 4 * j) / 4) (↑(Finset.range n) : Set Nat) := by
  intro a ha b hb hab
  simp only [Finset.coe_range, Set.mem_Iio] at ha hb
  simp only [u32] at hab
  norm_num at hn
  omega

theorem invalidate_start_lt (kunseg : Nat → Nat) (st : lightrec_state) (addr : Nat) :
    invalidate_start kunseg st addr < 2 ^ 32 :=
  lt_of_le_of_lt Nat.and_le_left (Nat.mod_lt _ (by norm_num))

/-- Closed form of `lightrec_invalidate` on an address that resolves to the
RAM map: the slots `u32 (k + 4 * j) / 4`, `j ≤ (len - 1) / 4`, are nulled, the
others are kept, where `k` is the masked start address. -/
theorem invalidate_ram_closed_form (kunseg : Nat → Nat) (fuel : Nat) (st : lightrec_state)
    (addr len i : Nat)
    (hmap : lightrec_get_map st (u32 (kunseg (align4 addr))) = some i)
    (hmir : follow_mirror st.maps fuel i = some PSX_MAP_KERNEL_USER_RAM) :
    ∃ st', lightrec_invalidate kunseg fuel st addr len = some st' ∧
      (∀ s, st'.code_lut s
          = if ∃ j, j < (len - 1) / 4 + 1 ∧ u32 (invalidate_start kunseg st addr + 4 * j) / 4 = s
            then 0 else st.code_lut s) ∧
      st' = { st with code_lut := st'.code_lut } := by
  have hk := invalidate_start_lt kunseg st addr
  obtain ⟨h1, h2, h3⟩ := invalidate_loop_spec len st _ hk
  generalize hr : lightrec_invalidate_loop PSX_MAP_KERNEL_USER_RAM len st
    (invalidate_start kunseg st addr) = r at h1 h2 h3
  refine ⟨lightrec_invalidate_map r.1 PSX_MAP_KERNEL_USER_RAM r.2, ?_, ?_, ?_⟩
  · simp only [lightrec_invalidate, hmap, hmir]
    simp only [ne_eq, not_true_eq_false, if_false]
    rw [← hr]; rfl
  · intro s
    rw [invalidate_map_ram_lut, h2 s, h1]
    generalize invalidate_start kunseg st addr = k
    by_cases hj : ∃ j, j < (len - 1) / 4 ∧ u32 (k + 4 * j) / 4 = s
    · have : ∃ j, j < (len - 1) / 4 + 1 ∧ u32 (k + 4 * j) / 4 = s := by
        obtain ⟨j, hj1, hj2⟩ := hj
        exact ⟨j, by omega, hj2⟩
      rw [if_pos hj, if_pos this]
      split <;> rfl
    · rw [if_neg hj]
      by_cases hs : s = u32 (k + 4 * ((len - 1) / 4)) / 4
      · have : ∃ j, j < (len - 1) / 4 + 1 ∧ u32 (k + 4 * j) / 4 = s :=
          ⟨(len - 1) / 4, by omega, hs.symm⟩
        rw [if_pos hs, if_pos this]
      · have : ¬ ∃ j, j < (len - 1) / 4 + 1 ∧ u32 (k + 4 * j) / 4 = s := by
          rintro ⟨j, hj1, hj2⟩
          rcases Nat.lt_succ_iff_lt_or_eq.1 hj1 with h | h
          · exact hj ⟨j, h, hj2⟩
          · exact hs (by rw [← hj2, h])
        rw [if_neg hs, if_neg this]
  · rw [invalidate_map_frame, h3]


/-! ## `lightrec_invalidate` -/

/-- C1 (amended): for an address that resolves (after `kunseg` of `addr & ~3`
and following `mirror_of`) to the RAM map, and a range whose words lie inside
RAM (the masked start plus 4 bytes for each word, `ceil(len / 4)` words and at
least one, does not pass the RAM length), `lightrec_invalidate` returns, sets
exactly `ceil(len / 4)` code-LUT slots to null when `len > 0` and exactly one
slot when `len = 0`, all of them below the `length >> 2` entries of the LUT,
leaves every other slot unchanged, and changes no other field of the state. -/
theorem lightrec_invalidate_ram_slot_count (kunseg : Nat → Nat) (fuel : Nat)
    (st : lightrec_state) (addr len i : Nat) (hlen : len < 2 ^ 32)
    (hmap : lightrec_get_map st (u32 (kunseg (align4 addr))) = some i)
    (hmir : follow_mirror st.maps fuel i = some PSX_MAP_KERNEL_USER_RAM)
    (hin : invalidate_start kunseg st addr + 4 * ((len - 1) / 4 + 1) ≤ ram_length st) :
    ∃ (st' : lightrec_state) (S : Finset Nat),
      lightrec_invalidate kunseg fuel st addr len = some st' ∧
      S.card = (if len = 0 then 1 else (len + 3) / 4) ∧
      (∀ s, s ∈ S → s < ram_length st >>> 2) ∧
      (∀ s, s ∈ S → st'.code_lut s = 0) ∧
      (∀ s, s ∉ S → st'.code_lut s = st.code_lut s) ∧
      st' = { st with code_lut := st'.code_lut } := by
  obtain ⟨st', h1, h2, h3⟩ := invalidate_ram_closed_form kunseg fuel st addr len i hmap hmir
  have hn : (len - 1) / 4 + 1 ≤ 2 ^ 30 := by norm_num at hlen ⊢; omega
  refine ⟨st', (Finset.range ((len - 1) / 4 + 1)).image
    (fun j => u32 (invalidate_start kunseg st addr + 4 * j) / 4), h1, ?_, ?_, ?_, ?_, h3⟩
  · rw [Finset.card_image_of_injOn (slot_injOn _ _ hn), Finset.card_range]
    split <;> omega
  · intro s hs
    simp only [Finset.mem_image, Finset.mem_range] at hs
    obtain ⟨j, hj, rfl⟩ := hs
    have hle : u32 (invalidate_start kunseg st addr + 4 * j)
        ≤ invalidate_start kunseg st addr + 4 * j := Nat.mod_le _ _
    rw [Nat.shiftRight_eq_div_pow]
    norm_num
    omega
  · intro s hs
    rw [h2 s, if_pos]
    simpa using hs
  · intro s hs
    rw [h2 s, if_neg]
    simpa using hs

/-- C1 witness: nine bytes from the KSEG0 address `0x80000102`, three words
inside the RAM of `0x200000` bytes. -/
theorem lightrec_invalidate_ram_slot_count_witness :
    (9 < 2 ^ 32 ∧
      lightrec_get_map (sample_state 1) (u32 (kunseg_mask (align4 0x80000102))) = some 0 ∧
      follow_mirror (sample_state 1).maps 1 0 = some PSX_MAP_KERNEL_USER_RAM ∧
      invalidate_start kunseg_mask (sample_state 1) 0x80000102 + 4 * ((9 - 1) / 4 + 1)
        ≤ ram_length (sample_state 1)) ∧
    ∃ (st' : lightrec_state) (S : Finset Nat),
      lightrec_invalidate kunseg_mask 1 (sample_state 1) 0x80000102 9 = some st' ∧
      S.card = (if 9 = 0 then 1 else (9 + 3) / 4) ∧
      (∀ s, s ∈ S → s < ram_length (sample_state 1) >>> 2) ∧
      (∀ s, s ∈ S → st'.code_lut s = 0) ∧
      (∀ s, s ∉ S → st'.code_lut s = (sample_state 1).code_lut s) ∧
      st' = { sample_state 1 with code_lut := st'.code_lut } :=
  ⟨⟨by norm_num, by decide, by decide, by decide⟩,
    lightrec_invalidate_ram_slot_count kunseg_mask 1 (sample_state 1) 0x80000102 9 0
      (by norm_num) (by decide) (by decide) (by decide)⟩

/-- C1 counterexample: with `len = 0` the claim allows `ceil(0 / 4) = 0` nulled
slots, that is an unchanged LUT, yet slot 0 goes from the entry `1` to null. -/
theorem lightrec_invalidate_len_zero_nulls_a_slot :
    ∃ st', lightrec_invalidate kunseg_mask 1 (sample_state 1) 0 0 = some st' ∧
      ¬ ∃ S : Finset Nat, S.card = (0 + 3) / 4 ∧
          (∀ s, s ∈ S → st'.code_lut s = 0) ∧
          (∀ s, s ∉ S → st'.code_lut s = (sample_state 1).code_lut s) := by
  refine ⟨_, rfl, ?_⟩
  rintro ⟨S, hS, -, h2⟩
  have hS0 : S = ∅ := Finset.card_eq_zero.1 (by simpa using hS)
  have := h2 0 (by simp [hS0])
  revert this
  decide


/-- C2 (evaluation at the failing input): `lightrec_invalidate(state, 2, 4)` on
RAM covers the bytes 2..5, which lie in the guest words 0 and 1; the code nulls
slot 0 only and slot 1 keeps its entry. -/
theorem lightrec_invalidate_unaligned_keeps_slot :
    ∃ st', lightrec_invalidate kunseg_mask 1 (sample_state 1) 2 4 = some st' ∧
      st'.code_lut 0 = 0 ∧ st'.code_lut 1 = 1 :=
  ⟨_, rfl, by decide, by decide⟩

/-- C3: when `kunseg(addr & ~3)` lies in no memory map, or lies in a map whose
`mirror_of` chain ends at a map other than the RAM map, `lightrec_invalidate`
returns and leaves the whole state unchanged, for every `len`. -/
theorem lightrec_invalidate_non_ram_noop (kunseg : Nat → Nat) (fuel : Nat)
    (st : lightrec_state) (addr len : Nat)
    (h : lightrec_get_map st (u32 (kunseg (align4 addr))) = none ∨
      ∃ i t, lightrec_get_map st (u32 (kunseg (align4 addr))) = some i ∧
        follow_mirror st.maps fuel i = some t ∧ t ≠ PSX_MAP_KERNEL_USER_RAM) :
    lightrec_invalidate kunseg fuel st addr len = some st := by
  rcases h with h | ⟨i, t, h1, h2, h3⟩
  · simp [lightrec_invalidate, h]
  · simp [lightrec_invalidate, h1, h2, h3]

/-- C3 witness: the BIOS address `0xbfc00000` resolves to the BIOS map, which is
not a mirror of RAM. -/
theorem lightrec_invalidate_non_ram_noop_witness :
    (lightrec_get_map (sample_state 1) (u32 (kunseg_mask (align4 0xbfc00000))) = none ∨
      ∃ i t, lightrec_get_map (sample_state 1) (u32 (kunseg_mask (align4 0xbfc00000))) = some i ∧
        follow_mirror (sample_state 1).maps 1 i = some t ∧ t ≠ PSX_MAP_KERNEL_USER_RAM) ∧
    lightrec_invalidate kunseg_mask 1 (sample_state 1) 0xbfc00000 64 = some (sample_state 1) :=
  ⟨Or.inr ⟨1, 1, by decide, by decide, by decide⟩,
    lightrec_invalidate_non_ram_noop kunseg_mask 1 (sample_state 1) 0xbfc00000 64
      (Or.inr ⟨1, 1, by decide, by decide, by decide⟩)⟩


/-! ## Facts about `lightrec_get_map` and `lightrec_rw` -/

theorem get_map_from_hit (k : Nat) :
    ∀ (maps : List lightrec_mem_map) (j i : Nat), lightrec_get_map_from k j maps = some i →
      ∃ m, maps[i - j]? = some m ∧ j ≤ i ∧ m.pc ≤ k ∧ k < u32 (m.pc + m.length) := by
  intro maps
  induction maps with
  | nil => intro j i h; simp [lightrec_get_map_from] at h
  | cons m rest ih =>
    intro j i h
    unfold lightrec_get_map_from at h
    split at h
    · rename_i hc
      cases h
      exact ⟨m, by simp, le_refl _, hc.1, hc.2⟩
    · obtain ⟨m', h1, h2, h3, h4⟩ := ih (j + 1) i h
      refine ⟨m', ?_, by omega, h3, h4⟩
      have : i - j = (i - (j + 1)) + 1 := by omega
      rw [this]; simpa using h1

/-- A hit of `lightrec_get_map` lies inside the map that is returned. -/
theorem get_map_hit (st : lightrec_state) (k i : Nat) (h : lightrec_get_map st k = some i) :
    (map_at st i).pc ≤ k ∧ k < (map_at st i).pc + (map_at st i).length := by
  obtain ⟨m, h1, -, h3, h4⟩ := get_map_from_hit k st.maps 0 i h
  have hm : map_at st i = m := by
    simp only [Nat.sub_zero] at h1
    simp [map_at, List.getD, h1]
  rw [hm]
  exact ⟨h3, lt_of_lt_of_le h4 (Nat.mod_le _ _)⟩

theorem invalidate_map_align (st : lightrec_state) (m a : Nat) :
    lightrec_invalidate_map st m (align4 a) = lightrec_invalidate_map st m a := by
  have : align4 a / 4 = a / 4 := by unfold align4; omega
  simp [lightrec_invalidate_map, this]

/-- On a map without callbacks every store ends with
`lightrec_invalidate_map(state, map, kaddr)` and returns 0. -/
theorem rw_direct_store (st : lightrec_state) (op : opcode) (mem : host_mem)
    (map kaddr na data : Nat) (h : is_store op.i_op = true) :
    (lightrec_rw_direct st op mem map kaddr na data).state
        = lightrec_invalidate_map st map kaddr ∧
    (lightrec_rw_direct st op mem map kaddr na data).op = op ∧
    (lightrec_rw_direct st op mem map kaddr na data).ret = 0 := by
  simp only [is_store, Bool.decide_or, Bool.or_eq_true, decide_eq_true_eq] at h
  rcases h with h | h | h | h | h | h <;>
    simp [lightrec_rw_direct, h, OP_SB, OP_SH, OP_SW, OP_SWL, OP_SWR, OP_SWC2,
      invalidate_map_align]

/-- Offset of a hit into a map based at a multiple of `R` and no longer than `R`. -/
theorem hit_offset (R pc len k : Nat) (hpc : pc % R = 0) (hlen : len ≤ R)
    (h1 : pc ≤ k) (h2 : k < pc + len) (h3 : k < 2 ^ 32) :
    u32 (k + (2 ^ 32 - pc)) = k % R := by
  have e1 : u32 (k + (2 ^ 32 - pc)) = k - pc := by
    unfold u32
    have : k + (2 ^ 32 - pc) = (k - pc) + 2 ^ 32 := by omega
    rw [this, Nat.add_mod_right]
    exact Nat.mod_eq_of_lt (by omega)
  obtain ⟨q, hq⟩ := Nat.dvd_of_mod_eq_zero hpc
  have e2 : k = (k - pc) + R * q := by omega
  rw [e1]
  conv_rhs => rw [e2, Nat.add_mul_mod_self_left]
  exact (Nat.mod_eq_of_lt (by omega)).symm


/-- Unfolding of `lightrec_rw` on a hit of a map without callbacks whose mirror
chain ends at the map `t`. -/
theorem rw_direct_unfold (kunseg : Nat → Nat) (dio fuel : Nat) (st : lightrec_state)
    (op : opcode) (mem : host_mem) (addr data i t : Nat)
    (hmap : lightrec_get_map st (u32 (kunseg (rw_addr op addr))) = some i)
    (hops : (map_at st i).ops = none)
    (hmir : follow_mirror st.maps fuel i = some t) :
    lightrec_rw kunseg dio fuel st op mem addr data
      = some (lightrec_rw_direct st { op with flags := op.flags ||| dio } mem t
          (u32 (u32 (kunseg (rw_addr op addr)) + (2 ^ 32 - (map_at st i).pc)))
          (uptr ((map_at st t).address
            + u32 (u32 (kunseg (rw_addr op addr)) + (2 ^ 32 - (map_at st i).pc)))) data) := by
  simp only [lightrec_rw, hmap, hops, hmir]

/-! ## Stores through `lightrec_rw` and the code LUT -/

/-- C4: a store opcode (SB, SH, SW, SWL, SWR, SWC2) handled by `lightrec_rw` on
a map without callbacks, with effective address `a = addr + (s16) imm`.
First part: when the map hit is RAM or a mirror of it (its `mirror_of` chain
ends at the RAM map, it is based at a multiple of `ram_len = 2 ^ k` and is no
longer than `ram_len`, and `kunseg` keeps the address bits below `ram_len`),
`lightrec_rw` returns and `code_lut[(a & (ram_len - 1)) >> 2]` is null.
Second part: when the chain ends at a map other than RAM, `lightrec_rw`
returns and the code LUT is unchanged. -/
theorem lightrec_rw_store_code_lut (kunseg : Nat → Nat) (dio fuel : Nat)
    (st : lightrec_state) (op : opcode) (mem : host_mem) (addr data i k : Nat)
    (hstore : is_store op.i_op = true)
    (hmap : lightrec_get_map st (u32 (kunseg (rw_addr op addr))) = some i)
    (hops : (map_at st i).ops = none) :
    (follow_mirror st.maps fuel i = some PSX_MAP_KERNEL_USER_RAM →
      ram_length st = 2 ^ k → (map_at st i).pc % 2 ^ k = 0 → (map_at st i).length ≤ 2 ^ k →
      u32 (kunseg (rw_addr op addr)) % 2 ^ k = rw_addr op addr % 2 ^ k →
      ∃ r, lightrec_rw kunseg dio fuel st op mem addr data = some r ∧
        r.state.code_lut ((rw_addr op addr &&& (ram_length st - 1)) >>> 2) = 0) ∧
    (∀ t, follow_mirror st.maps fuel i = some t → t ≠ PSX_MAP_KERNEL_USER_RAM →
      ∃ r, lightrec_rw kunseg dio fuel st op mem addr data = some r ∧
        r.state.code_lut = st.code_lut) := by
  have hstore' : is_store ({ op with flags := op.flags ||| dio } : opcode).i_op = true := hstore
  obtain ⟨hit1, hit2⟩ := get_map_hit st _ i hmap
  constructor
  · intro hmir hram hbase hlen hk
    refine ⟨_, rw_direct_unfold kunseg dio fuel st op mem addr data i _ hmap hops hmir, ?_⟩
    rw [(rw_direct_store st _ mem _ _ _ data hstore').1, invalidate_map_ram_lut, if_pos]
    have hlt : u32 (kunseg (rw_addr op addr)) < 2 ^ 32 := Nat.mod_lt _ (by norm_num)
    rw [hit_offset (2 ^ k) _ _ _ hbase hlen hit1 hit2 hlt, hk, hram,
      Nat.and_pow_two_sub_one_eq_mod, Nat.shiftRight_eq_div_pow]
  · intro t hmir ht
    refine ⟨_, rw_direct_unfold kunseg dio fuel st op mem addr data i t hmap hops hmir, ?_⟩
    rw [(rw_direct_store st _ mem _ _ _ data hstore').1]
    simp [lightrec_invalidate_map, ht]


/-- C4 witness: `SW` to the mirror address `0x80200104` nulls slot `0x104 >> 2`;
`SW` to the BIOS address `0xbfc00004` leaves the LUT alone. -/
theorem lightrec_rw_store_code_lut_witness :
    (∃ r, lightrec_rw kunseg_mask 1 2 (sample_state 1) sample_sw zero_mem 0x80200100 7 = some r ∧
      r.state.code_lut
        ((rw_addr sample_sw 0x80200100 &&& (ram_length (sample_state 1) - 1)) >>> 2) = 0) ∧
    (∃ r, lightrec_rw kunseg_mask 1 1 (sample_state 1) sample_sw zero_mem 0xbfc00000 7 = some r ∧
      r.state.code_lut = (sample_state 1).code_lut) :=
  ⟨(lightrec_rw_store_code_lut kunseg_mask 1 2 (sample_state 1) sample_sw zero_mem 0x80200100 7
      2 21 (by decide) (by decide) rfl).1 (by decide) (by decide) (by decide) (by decide)
      (by decide),
    (lightrec_rw_store_code_lut kunseg_mask 1 1 (sample_state 1) sample_sw zero_mem 0xbfc00000 7
      1 21 (by decide) (by decide) rfl).2 1 (by decide) (by decide)⟩

/-! ## Unmapped accesses -/

theorem get_map_from_none (k : Nat) :
    ∀ (maps : List lightrec_mem_map) (j : Nat),
      (∀ m, m ∈ maps → ¬ (k ≥ m.pc ∧ k < u32 (m.pc + m.length))) →
      lightrec_get_map_from k j maps = none := by
  intro maps
  induction maps with
  | nil => intro j _; rfl
  | cons m rest ih =>
    intro j h
    unfold lightrec_get_map_from
    rw [if_neg (h m (List.mem_cons_self _ _))]
    exact ih (j + 1) (fun m' hm' => h m' (List.mem_cons_of_mem _ hm'))

/-- C7: when `kunseg(addr + (s16) imm)` lies in none of the maps of the state,
`lightrec_rw` returns 0, ORs `LIGHTREC_EXIT_SEGFAULT` (8) into `exit_flags`
(bit 3 is set, every flag set before stays set), changes no other field of the
state (so not the code LUT), nor guest memory, nor the opcode and its flags,
and makes no callback call and no memory access. -/
theorem lightrec_rw_unmapped (kunseg : Nat → Nat) (dio fuel : Nat) (st : lightrec_state)
    (op : opcode) (mem : host_mem) (addr data : Nat)
    (h : ∀ m, m ∈ st.maps → ¬ (u32 (kunseg (rw_addr op addr)) ≥ m.pc ∧
      u32 (kunseg (rw_addr op addr)) < u32 (m.pc + m.length))) :
    ∃ r, lightrec_rw kunseg dio fuel st op mem addr data = some r ∧
      r.ret = 0 ∧
      r.state = { st with exit_flags := st.exit_flags ||| LIGHTREC_EXIT_SEGFAULT } ∧
      LIGHTREC_EXIT_SEGFAULT = 8 ∧
      r.state.exit_flags.testBit 3 = true ∧
      (∀ b, st.exit_flags.testBit b = true → r.state.exit_flags.testBit b = true) ∧
      r.state.code_lut = st.code_lut ∧
      r.mem = mem ∧ r.op = op ∧ r.events = [] := by
  have hnone : lightrec_get_map st (u32 (kunseg (rw_addr op addr))) = none :=
    get_map_from_none _ st.maps 0 h
  have hrw : lightrec_rw kunseg dio fuel st op mem addr data
      = some ⟨__segfault_cb st (rw_addr op addr), op, mem, [], 0⟩ := by
    simp only [lightrec_rw, hnone]
  refine ⟨_, hrw, rfl, rfl, rfl, ?_, ?_, rfl, rfl, rfl, rfl⟩
  · simp [__segfault_cb, lightrec_set_exit_flags, LIGHTREC_EXIT_SEGFAULT, Nat.testBit_or]
    right; decide
  · intro b hb
    simp [__segfault_cb, lightrec_set_exit_flags, Nat.testBit_or, hb]

/-- C7 witness: `SW` to `0x1f000004`, which no map of the sample state holds,
with `EXIT_SYSCALL` already set. -/
theorem lightrec_rw_unmapped_witness :
    ∃ r, lightrec_rw kunseg_mask 1 1 { sample_state 1 with exit_flags := 1 } sample_sw zero_mem
        0x1f000000 7 = some r ∧
      r.ret = 0 ∧
      r.state = { sample_state 1 with exit_flags := 1 ||| LIGHTREC_EXIT_SEGFAULT } ∧
      LIGHTREC_EXIT_SEGFAULT = 8 ∧
      r.state.exit_flags.testBit 3 = true ∧
      (∀ b, (1 : Nat).testBit b = true → r.state.exit_flags.testBit b = true) ∧
      r.state.code_lut = (sample_state 1).code_lut ∧
      r.mem = zero_mem ∧ r.op = sample_sw ∧ r.events = [] :=
  lightrec_rw_unmapped kunseg_mask 1 1 { sample_state 1 with exit_flags := 1 } sample_sw
    zero_mem 0x1f000000 7 (by decide)


/-! ## The opcode flags and the dispatch of `lightrec_rw` -/

/-- The switch of `lightrec_rw` leaves the opcode it is given untouched. -/
theorem rw_direct_op (st : lightrec_state) (op : opcode) (mem : host_mem)
    (map kaddr na data : Nat) :
    (lightrec_rw_direct st op mem map kaddr na data).op = op := by
  simp only [lightrec_rw_direct, apply_ite rw_result.op, ite_self]

/-- Every path of `lightrec_rw_ops` calls exactly one callback of the map,
with the address it was given. -/
theorem rw_ops_events (op : opcode) (map : Nat) (ops : lightrec_mem_map_ops) (addr data : Nat) :
    ∃ e, (lightrec_rw_ops op map ops addr data).1 = [e] ∧ e.callback = some (map, addr) ∧
      e.host_addr = none := by
  unfold lightrec_rw_ops
  repeat' split
  all_goals exact ⟨_, rfl, rfl, rfl⟩

/-- Unfolding of `lightrec_rw` on a hit of a map with callbacks. -/
theorem rw_ops_unfold (kunseg : Nat → Nat) (dio fuel : Nat) (st : lightrec_state)
    (op : opcode) (mem : host_mem) (addr data i : Nat) (ops : lightrec_mem_map_ops)
    (hmap : lightrec_get_map st (u32 (kunseg (rw_addr op addr))) = some i)
    (hops : (map_at st i).ops = some ops) :
    lightrec_rw kunseg dio fuel st op mem addr data
      = some ⟨st, op, mem, (lightrec_rw_ops op i ops (rw_addr op addr) data).1,
          (lightrec_rw_ops op i ops (rw_addr op addr) data).2⟩ := by
  simp only [lightrec_rw, hmap, hops]

/-- C8: when the access of `lightrec_rw` hits a map without callbacks (such as
the RAM map), then on return the flag `LIGHTREC_DIRECT_IO` is set in the
opcode's flags and its other flags, and the opcode word, are unchanged; when it
hits a map that has callbacks, the access is dispatched to one callback of that
map and the opcode, flags included, is unchanged. -/
theorem lightrec_rw_direct_io_flag (kunseg : Nat → Nat) (dio fuel : Nat) (st : lightrec_state)
    (op : opcode) (mem : host_mem) (addr data i : Nat)
    (hmap : lightrec_get_map st (u32 (kunseg (rw_addr op addr))) = some i) :
    (∀ t, (map_at st i).ops = none → follow_mirror st.maps fuel i = some t →
      ∃ r, lightrec_rw kunseg dio fuel st op mem addr data = some r ∧
        r.op.flags = op.flags ||| dio ∧ r.op.word = op.word ∧
        r.op.flags &&& dio = dio ∧
        (∀ b, dio.testBit b = false → r.op.flags.testBit b = op.flags.testBit b)) ∧
    (∀ ops, (map_at st i).ops = some ops →
      ∃ r e, lightrec_rw kunseg dio fuel st op mem addr data = some r ∧
        r.op = op ∧ r.events = [e] ∧ e.callback = some (i, rw_addr op addr)) := by
  constructor
  · intro t hops hmir
    refine ⟨_, rw_direct_unfold kunseg dio fuel st op mem addr data i t hmap hops hmir, ?_⟩
    rw [rw_direct_op]
    refine ⟨rfl, rfl, ?_, ?_⟩
    · apply Nat.eq_of_testBit_eq
      intro b
      simp only [Nat.testBit_and, Nat.testBit_or]
      cases op.flags.testBit b <;> cases dio.testBit b <;> rfl
    · intro b hb
      simp [Nat.testBit_or, hb]
  · intro ops hops
    obtain ⟨e, he1, he2, -⟩ := rw_ops_events op i ops (rw_addr op addr) data
    exact ⟨_, e, rw_ops_unfold kunseg dio fuel st op mem addr data i ops hmap hops, rfl, he1, he2⟩

/-- C8 witness: `LW` from RAM sets the flag (bit 0 here) and keeps the flags
`6`; `LW` from the hardware registers keeps the opcode and calls `lw`. -/
theorem lightrec_rw_direct_io_flag_witness :
    (∃ r, lightrec_rw kunseg_mask 1 1 (sample_state_hw 1) sample_lw zero_mem 0x80000010 0 = some r ∧
        r.op.flags = sample_lw.flags ||| 1 ∧ r.op.word = sample_lw.word ∧
        r.op.flags &&& 1 = 1 ∧
        (∀ b, (1 : Nat).testBit b = false → r.op.flags.testBit b = sample_lw.flags.testBit b)) ∧
    (∃ r e, lightrec_rw kunseg_mask 1 1 (sample_state_hw 1) sample_lw zero_mem 0x1f801810 0
          = some r ∧
        r.op = sample_lw ∧ r.events = [e] ∧
        e.callback = some (3, rw_addr sample_lw 0x1f801810)) :=
  ⟨(lightrec_rw_direct_io_flag kunseg_mask 1 1 (sample_state_hw 1) sample_lw zero_mem
      0x80000010 0 0 (by decide)).1 0 rfl (by decide),
    (lightrec_rw_direct_io_flag kunseg_mask 1 1 (sample_state_hw 1) sample_lw zero_mem
      0x1f801810 0 3 (by decide)).2 sample_map_ops rfl⟩


/-- The native accesses of the switch of `lightrec_rw`: there is one, and each
is at `new_addr`, or at `new_addr & ~3` for LWL, LWR, SWL and SWR. -/
theorem rw_direct_accesses (st : lightrec_state) (op : opcode) (mem : host_mem)
    (map kaddr na data : Nat) :
    (∃ e, e ∈ (lightrec_rw_direct st op mem map kaddr na data).events ∧ e.host_addr ≠ none) ∧
    ∀ e, e ∈ (lightrec_rw_direct st op mem map kaddr na data).events →
      ∀ h, e.host_addr = some h →
        h = if is_unaligned_word_op op.i_op = true then align4 na else na := by
  simp only [lightrec_rw_direct, apply_ite rw_result.events]
  generalize op.i_op = o
  generalize op.i_rt = rt
  generalize u32 (st.ops.cop2_ops.mfc rt) = v1
  generalize read32 mem na = v2
  generalize u32 data = v3
  generalize u32 (data >>> ((3 - kaddr % 4) * 8) |||
    read32 mem (align4 na) &&& u32 (GENMASK 31 ((kaddr % 4 + 1) * 8))) = v4
  generalize u32 (data <<< (kaddr % 4 * 8) |||
    read32 mem (align4 na) &&& 1 <<< (kaddr % 4 * 8) - 1) = v5
  generalize data % 2 ^ 8 = v6
  generalize data % 2 ^ 16 = v7
  by_cases h0 : o = OP_SB
  · subst h0
    simp [is_unaligned_word_op, Event.host_addr, OP_SB, OP_SH, OP_SW, OP_SWL, OP_SWR, OP_SWC2, OP_LB, OP_LBU, OP_LH, OP_LHU,
      OP_LWL, OP_LWR, OP_LWC2]
  by_cases h1 : o = OP_SH
  · subst h1
    simp [is_unaligned_word_op, Event.host_addr, OP_SB, OP_SH, OP_SW, OP_SWL, OP_SWR, OP_SWC2, OP_LB, OP_LBU, OP_LH, OP_LHU,
      OP_LWL, OP_LWR, OP_LWC2]
  by_cases h2 : o = OP_SWL
  · subst h2
    simp [is_unaligned_word_op, Event.host_addr, OP_SB, OP_SH, OP_SW, OP_SWL, OP_SWR, OP_SWC2, OP_LB, OP_LBU, OP_LH, OP_LHU,
      OP_LWL, OP_LWR, OP_LWC2]
  by_cases h3 : o = OP_SWR
  · subst h3
    simp [is_unaligned_word_op, Event.host_addr, OP_SB, OP_SH, OP_SW, OP_SWL, OP_SWR, OP_SWC2, OP_LB, OP_LBU, OP_LH, OP_LHU,
      OP_LWL, OP_LWR, OP_LWC2]
  by_cases h4 : o = OP_SW
  · subst h4
    simp [is_unaligned_word_op, Event.host_addr, OP_SB, OP_SH, OP_SW, OP_SWL, OP_SWR, OP_SWC2, OP_LB, OP_LBU, OP_LH, OP_LHU,
      OP_LWL, OP_LWR, OP_LWC2]
  by_cases h5 : o = OP_SWC2
  · subst h5
    simp [is_unaligned_word_op, Event.host_addr, OP_SB, OP_SH, OP_SW, OP_SWL, OP_SWR, OP_SWC2, OP_LB, OP_LBU, OP_LH, OP_LHU,
      OP_LWL, OP_LWR, OP_LWC2]
  by_cases h6 : o = OP_LB
  · subst h6
    simp [is_unaligned_word_op, Event.host_addr, OP_SB, OP_SH, OP_SW, OP_SWL, OP_SWR, OP_SWC2, OP_LB, OP_LBU, OP_LH, OP_LHU,
      OP_LWL, OP_LWR, OP_LWC2]
  by_cases h7 : o = OP_LBU
  · subst h7
    simp [is_unaligned_word_op, Event.host_addr, OP_SB, OP_SH, OP_SW, OP_SWL, OP_SWR, OP_SWC2, OP_LB, OP_LBU, OP_LH, OP_LHU,
      OP_LWL, OP_LWR, OP_LWC2]
  by_cases h8 : o = OP_LH
  · subst h8
    simp [is_unaligned_word_op, Event.host_addr, OP_SB, OP_SH, OP_SW, OP_SWL, OP_SWR, OP_SWC2, OP_LB, OP_LBU, OP_LH, OP_LHU,
      OP_LWL, OP_LWR, OP_LWC2]
  by_cases h9 : o = OP_LHU
  · subst h9
    simp [is_unaligned_word_op, Event.host_addr, OP_SB, OP_SH, OP_SW, OP_SWL, OP_SWR, OP_SWC2, OP_LB, OP_LBU, OP_LH, OP_LHU,
      OP_LWL, OP_LWR, OP_LWC2]
  by_cases h10 : o = OP_LWL
  · subst h10
    simp [is_unaligned_word_op, Event.host_addr, OP_SB, OP_SH, OP_SW, OP_SWL, OP_SWR, OP_SWC2, OP_LB, OP_LBU, OP_LH, OP_LHU,
      OP_LWL, OP_LWR, OP_LWC2]
  by_cases h11 : o = OP_LWR
  · subst h11
    simp [is_unaligned_word_op, Event.host_addr, OP_SB, OP_SH, OP_SW, OP_SWL, OP_SWR, OP_SWC2, OP_LB, OP_LBU, OP_LH, OP_LHU,
      OP_LWL, OP_LWR, OP_LWC2]
  by_cases h12 : o = OP_LWC2
  · subst h12
    simp [is_unaligned_word_op, Event.host_addr, OP_SB, OP_SH, OP_SW, OP_SWL, OP_SWR, OP_SWC2, OP_LB, OP_LBU, OP_LH, OP_LHU,
      OP_LWL, OP_LWR, OP_LWC2]
  simp only [OP_SB, OP_SH, OP_SW, OP_SWL, OP_SWR, OP_SWC2, OP_LB, OP_LBU, OP_LH, OP_LHU,
      OP_LWL, OP_LWR, OP_LWC2] at h0 h1 h2 h3 h4 h5 h6 h7 h8 h9 h10 h11 h12
  simp [is_unaligned_word_op, Event.host_addr, h0, h1, h2, h3, h4, h5, h6, h7, h8, h9, h10, h11, h12, OP_SB, OP_SH, OP_SW, OP_SWL, OP_SWR, OP_SWC2, OP_LB, OP_LBU, OP_LH, OP_LHU,
      OP_LWL, OP_LWR, OP_LWC2]


/-! ## Where `lightrec_rw` performs the access -/

theorem u32_sub_of_le (k pc : Nat) (h1 : pc ≤ k) (h2 : k < 2 ^ 32) :
    u32 (k + (2 ^ 32 - pc)) = k - pc := by
  unfold u32
  have : k + (2 ^ 32 - pc) = (k - pc) + 2 ^ 32 := by omega
  rw [this, Nat.add_mod_right]
  exact Nat.mod_eq_of_lt (by omega)

/-- C9 (amended): an access handled by `lightrec_rw` with effective address
`a = addr + (s16) imm` hitting map `m`.  If `m` has callbacks, one callback of
`m` is called, with the segmented address `a`.  Otherwise `lightrec_rw` makes
native accesses, and each is at the host address
`t.address + (kunseg(a) - m.pc)`, where `t` is the map reached from `m` by
following `mirror_of`; for LWL, LWR, SWL and SWR it is at that address rounded
down to a multiple of 4. -/
theorem lightrec_rw_access_address (kunseg : Nat → Nat) (dio fuel : Nat) (st : lightrec_state)
    (op : opcode) (mem : host_mem) (addr data i : Nat)
    (hmap : lightrec_get_map st (u32 (kunseg (rw_addr op addr))) = some i) :
    (∀ ops, (map_at st i).ops = some ops →
      ∃ r e, lightrec_rw kunseg dio fuel st op mem addr data = some r ∧
        r.events = [e] ∧ e.callback = some (i, rw_addr op addr)) ∧
    (∀ t, (map_at st i).ops = none → follow_mirror st.maps fuel i = some t →
      ∃ r, lightrec_rw kunseg dio fuel st op mem addr data = some r ∧
        (∃ e, e ∈ r.events ∧ e.host_addr ≠ none) ∧
        ∀ e, e ∈ r.events → ∀ h, e.host_addr = some h →
          h = if is_unaligned_word_op op.i_op = true
              then align4 (uptr ((map_at st t).address
                + (u32 (kunseg (rw_addr op addr)) - (map_at st i).pc)))
              else uptr ((map_at st t).address
                + (u32 (kunseg (rw_addr op addr)) - (map_at st i).pc))) := by
  constructor
  · intro ops hops
    obtain ⟨e, he1, he2, -⟩ := rw_ops_events op i ops (rw_addr op addr) data
    exact ⟨_, e, rw_ops_unfold kunseg dio fuel st op mem addr data i ops hmap hops, he1, he2⟩
  · intro t hops hmir
    obtain ⟨hit1, -⟩ := get_map_hit st _ i hmap
    have hlt : u32 (kunseg (rw_addr op addr)) < 2 ^ 32 := Nat.mod_lt _ (by norm_num)
    refine ⟨_, rw_direct_unfold kunseg dio fuel st op mem addr data i t hmap hops hmir, ?_⟩
    rw [u32_sub_of_le _ _ hit1 hlt]
    exact rw_direct_accesses st _ mem t _ _ data

/-- C9 witness: `LW` from the hardware registers goes to the callback with the
address `0x1f801810`; `SW` to the mirror address `0x80200104` is a native store
at `RAM.address + 0x104`. -/
theorem lightrec_rw_access_address_witness :
    (∃ r e, lightrec_rw kunseg_mask 1 2 (sample_state_hw 1) sample_lw zero_mem 0x1f801810 0
          = some r ∧
        r.events = [e] ∧ e.callback = some (3, 0x1f801810)) ∧
    (∃ r, lightrec_rw kunseg_mask 1 2 (sample_state_hw 1) sample_sw zero_mem 0x80200100 7
          = some r ∧
        (∃ e, e ∈ r.events ∧ e.host_addr ≠ none) ∧
        ∀ e, e ∈ r.events → ∀ h, e.host_addr = some h → h = 0x10000104) :=
  ⟨(lightrec_rw_access_address kunseg_mask 1 2 (sample_state_hw 1) sample_lw zero_mem
      0x1f801810 0 3 (by decide)).1 sample_map_ops rfl,
    (lightrec_rw_access_address kunseg_mask 1 2 (sample_state_hw 1) sample_sw zero_mem
      0x80200100 7 2 (by decide)).2 0 rfl (by decide)⟩

/-- C9 counterexample: `SWL` at the RAM address 1 reads and writes the aligned
word at `RAM.address + 0`, not at `RAM.address + (kunseg(1) - 0)`. -/
theorem lightrec_rw_swl_accesses_aligned_word :
    ∃ r, lightrec_rw kunseg_mask 1 1 (sample_state 1) sample_swl zero_mem 0 0x11223344 = some r ∧
      ¬ ∀ e, e ∈ r.events → ∀ h, e.host_addr = some h →
          h = uptr ((map_at (sample_state 1) 0).address
                + (u32 (kunseg_mask (rw_addr sample_swl 0)) - (map_at (sample_state 1) 0).pc)) := by
  refine ⟨_, rfl, ?_⟩
  intro hall
  have := hall (.host_load 0x10000000 4) (by decide) 0x10000000 rfl
  revert this
  decide


/-! ## `dump_registers` / `restore_registers` -/

/-- C6: for every state (with its 34 register slots) and every 34-word buffer,
`lightrec_dump_registers(state, regs)` followed by
`lightrec_restore_registers(state, regs)` leaves the state, all 34 guest
register slots and every other field, exactly as before; the buffer then holds
the 34 registers. -/
theorem lightrec_dump_restore_roundtrip (st : lightrec_state) (regs : List Nat)
    (hst : st.native_reg_cache.length = NATIVE_REG_CACHE_WORDS)
    (hregs : regs.length = NATIVE_REG_CACHE_WORDS) :
    lightrec_restore_registers st (lightrec_dump_registers st regs) = st ∧
    lightrec_dump_registers st regs = st.native_reg_cache := by
  have hdump : lightrec_dump_registers st regs = st.native_reg_cache := by
    unfold lightrec_dump_registers memcpy_words
    rw [← hst, List.take_length, hst, ← hregs, List.drop_length, List.append_nil]
  refine ⟨?_, hdump⟩
  rw [hdump]
  unfold lightrec_restore_registers memcpy_words
  rw [← hst, List.take_length, List.drop_length, List.append_nil]

/-- C6 witness: the sample state and a buffer of 34 words `0xdead`. -/
theorem lightrec_dump_restore_roundtrip_witness :
    lightrec_restore_registers (sample_state 1)
        (lightrec_dump_registers (sample_state 1) (List.replicate 34 0xdead)) = sample_state 1 ∧
    lightrec_dump_registers (sample_state 1) (List.replicate 34 0xdead)
      = (sample_state 1).native_reg_cache :=
  lightrec_dump_restore_roundtrip (sample_state 1) (List.replicate 34 0xdead)
    (by decide) (by decide)

/-! ## The code LUT after `lightrec_compile_block` -/

/-- What `lightrec_precompile_block` stores in a block it returns. -/
theorem precompile_block_fields (kunseg : Nat → Nat) (fuel : Nat) (st : lightrec_state)
    (pc : Nat) (malloc_ok : Bool) (dis : Nat → Option (List opcode × Nat))
    (opt : List opcode → List opcode) (b : block)
    (h : lightrec_precompile_block kunseg fuel st pc malloc_ok dis opt = some (some b)) :
    ∃ i, lightrec_get_map st (u32 (kunseg pc)) = some i ∧
      follow_mirror st.maps fuel i = some b.map ∧
      b.kunseg_pc = u32 ((map_at st b.map).pc + (u32 (kunseg pc) - (map_at st i).pc)) ∧
      b.pc = pc ∧ b.function = 0 := by
  unfold lightrec_precompile_block at h
  cases hg : lightrec_get_map st (u32 (kunseg pc)) with
  | none => simp [hg] at h
  | some i =>
    cases hm : follow_mirror st.maps fuel i with
    | none => simp [hg, hm] at h
    | some t =>
      obtain ⟨hit1, -⟩ := get_map_hit st _ i hg
      have hlt : u32 (kunseg pc) < 2 ^ 32 := Nat.mod_lt _ (by norm_num)
      have hsub := u32_sub_of_le _ _ hit1 hlt
      simp only [hg, hm, hsub] at h
      split at h
      · simp at h
      · split at h
        · simp at h
        · simp only [Option.some.injEq] at h
          subst h
          exact ⟨i, rfl, hm, rfl, rfl, rfl⟩

/-- C5: with the RAM map at guest base 0 (the layout for which the code LUT of
`length >> 2` entries is allocated and read), after `lightrec_compile_block`
succeeds (returns 0) on a block made by `lightrec_precompile_block`, when the
block's map is the RAM map the slot `code_lut[(p - ram_base) >> 2]` equals
`block->function`, where `p = block->kunseg_pc` is the unsegmented PC of the
aliased RAM address (`RAM.pc` plus the offset of the entry PC into the map that
was hit), and every other slot is unchanged.  For a block in any other map the
state, and so every code-LUT slot, is unchanged. -/
theorem lightrec_compile_block_code_lut (kunseg : Nat → Nat) (fuel : Nat) (st : lightrec_state)
    (pc : Nat) (dis : Nat → Option (List opcode × Nat)) (opt : List opcode → List opcode)
    (cyc : opcode → Nat) (b : block) (jit emitted : Nat)
    (hpre : lightrec_precompile_block kunseg fuel st pc true dis opt = some (some b))
    (hbase : (map_at st PSX_MAP_KERNEL_USER_RAM).pc = 0) :
    (lightrec_compile_block cyc st b (some jit) emitted).ret = 0 ∧
    (lightrec_compile_block cyc st b (some jit) emitted).block.function = emitted ∧
    (b.map = PSX_MAP_KERNEL_USER_RAM →
      (∃ i, lightrec_get_map st (u32 (kunseg pc)) = some i ∧
        follow_mirror st.maps fuel i = some PSX_MAP_KERNEL_USER_RAM ∧
        b.kunseg_pc = u32 ((map_at st PSX_MAP_KERNEL_USER_RAM).pc
          + (u32 (kunseg pc) - (map_at st i).pc))) ∧
      (lightrec_compile_block cyc st b (some jit) emitted).state.code_lut
          ((b.kunseg_pc - (map_at st PSX_MAP_KERNEL_USER_RAM).pc) >>> 2)
        = (lightrec_compile_block cyc st b (some jit) emitted).block.function ∧
      (∀ s, s ≠ (b.kunseg_pc - (map_at st PSX_MAP_KERNEL_USER_RAM).pc) >>> 2 →
        (lightrec_compile_block cyc st b (some jit) emitted).state.code_lut s = st.code_lut s)) ∧
    (b.map ≠ PSX_MAP_KERNEL_USER_RAM →
      (lightrec_compile_block cyc st b (some jit) emitted).state = st) := by
  obtain ⟨i, h1, h2, h3, -, -⟩ := precompile_block_fields kunseg fuel st pc true dis opt b hpre
  refine ⟨rfl, rfl, ?_, ?_⟩
  · intro hram
    have hlut : (lightrec_compile_block cyc st b (some jit) emitted).state.code_lut
        = Function.update st.code_lut (b.kunseg_pc >>> 2) emitted := by
      simp [lightrec_compile_block, hram]
    rw [hbase, Nat.sub_zero]
    refine ⟨⟨i, h1, hram ▸ h2, ?_⟩, ?_, ?_⟩
    · rw [← hbase]; exact hram ▸ h3
    · rw [hlut]; simp [lightrec_compile_block]
    · intro s hs
      rw [hlut, Function.update_noteq hs]
  · intro hram
    simp [lightrec_compile_block, hram]


/-- C5 witness: a block entered at `0x80200040`, in a RAM mirror, is published
in slot `0x40 >> 2`; a block in the BIOS leaves the state alone. -/
theorem lightrec_compile_block_code_lut_witness :
    (map_at (sample_state 0) PSX_MAP_KERNEL_USER_RAM).pc = 0 ∧
    (∃ b, lightrec_precompile_block kunseg_mask 2 (sample_state 0) 0x80200040 true
          sample_disassemble id = some (some b) ∧
        b.kunseg_pc = 0x40 ∧
        (lightrec_compile_block (fun _ => 1) (sample_state 0) b (some 1) 7).state.code_lut
            ((b.kunseg_pc - (map_at (sample_state 0) PSX_MAP_KERNEL_USER_RAM).pc) >>> 2)
          = (lightrec_compile_block (fun _ => 1) (sample_state 0) b (some 1) 7).block.function) ∧
    (∃ b, lightrec_precompile_block kunseg_mask 2 (sample_state 0) 0xbfc00000 true
          sample_disassemble id = some (some b) ∧
        (lightrec_compile_block (fun _ => 1) (sample_state 0) b (some 1) 7).state
          = sample_state 0) :=
  ⟨rfl, ⟨_, rfl, rfl,
      ((lightrec_compile_block_code_lut kunseg_mask 2 (sample_state 0) 0x80200040
        sample_disassemble id (fun _ => 1) _ 1 7 rfl rfl).2.2.1 rfl).2.1⟩,
    ⟨_, rfl,
      (lightrec_compile_block_code_lut kunseg_mask 2 (sample_state 0) 0xbfc00000
        sample_disassemble id (fun _ => 1) _ 1 7 rfl rfl).2.2.2 (by decide)⟩⟩


/-! ## Termination condition of `lightrec_execute` -/

/-- The bound on the returned cycle count cannot be dropped on a 64-bit host:
with `current_cycle = target = 0x7fffffff` and a block that leaves `0xffffffff`
in `JIT_R0`, the sum `0x17ffffffe` is above the target as a 64-bit word, the
stub leaves, and the stored `current_cycle` is `0x7ffffffe`, below the target,
with normal flags.  On a 32-bit host the same run does not leave at that
point. -/
theorem lightrec_execute_wide_cycle_count :
    (∃ r, lightrec_execute sample_config kunseg_mask 2 sample_env_wide 64 8
          (sample_state_cycles 0x7fffffff 0) 0x80000000 0x7fffffff = some r ∧
        r.1.current_cycle = 0x7ffffffe ∧ r.1.target_cycle = 0x7fffffff ∧
        r.1.exit_flags = LIGHTREC_EXIT_NORMAL) ∧
    (wrapper_after_block 32 (sample_state_cycles 0x7fffffff 0x7fffffff) 0xffffffff
        0x80000000).isLeft = false :=
  ⟨⟨_, rfl, rfl, rfl, rfl⟩, by decide⟩

/-! ## `lightrec_init`: sanity check of the callbacks -/

/-- C11: `lightrec_init` returns null, and makes no call at all (so neither
allocates the state nor initialises the JIT), whenever the `ops` pointer is null
or any one of the ten coprocessor callbacks (`mfc`, `cfc`, `mtc`, `ctc`, `op` of
`cop0_ops` and of `cop2_ops`) is null; when all ten are present and every
allocation succeeds it returns a non-null state whose `ops` are a copy of the
argument. -/
theorem lightrec_init_callbacks (cfg : config) (env : init_env) (map : List lightrec_mem_map)
    (ops : Option lightrec_ops_arg) :
    ((ops = none ∨ ∃ o, ops = some o ∧
        (o.cop0_ops.mfc = none ∨ o.cop0_ops.cfc = none ∨ o.cop0_ops.mtc = none ∨
         o.cop0_ops.ctc = none ∨ o.cop0_ops.op = none ∨
         o.cop2_ops.mfc = none ∨ o.cop2_ops.cfc = none ∨ o.cop2_ops.mtc = none ∨
         o.cop2_ops.ctc = none ∨ o.cop2_ops.op = none)) →
      lightrec_init cfg env map ops = (none, [])) ∧
    (∀ o, ops = some o →
      (o.cop0_ops.mfc ≠ none ∧ o.cop0_ops.cfc ≠ none ∧ o.cop0_ops.mtc ≠ none ∧
       o.cop0_ops.ctc ≠ none ∧ o.cop0_ops.op ≠ none ∧
       o.cop2_ops.mfc ≠ none ∧ o.cop2_ops.cfc ≠ none ∧ o.cop2_ops.mtc ≠ none ∧
       o.cop2_ops.ctc ≠ none ∧ o.cop2_ops.op ≠ none) →
      (env.calloc_ok = true ∧ env.block_cache_ok = true ∧ env.reg_cache_ok = true ∧
       env.rec_ok = true ∧ env.wrapper_ok = true ∧ env.rw_wrapper_ok = true ∧
       env.mfc_wrapper_ok = true ∧ env.mtc_wrapper_ok = true ∧ env.rfe_wrapper_ok = true ∧
       env.cp_wrapper_ok = true) →
      ∃ st, (lightrec_init cfg env map ops).1 = some st ∧
        o.cop0_ops.mfc = some st.ops.cop0_ops.mfc ∧ o.cop0_ops.cfc = some st.ops.cop0_ops.cfc ∧
        o.cop0_ops.mtc = some st.ops.cop0_ops.mtc ∧ o.cop0_ops.ctc = some st.ops.cop0_ops.ctc ∧
        o.cop0_ops.op = some st.ops.cop0_ops.op ∧
        o.cop2_ops.mfc = some st.ops.cop2_ops.mfc ∧ o.cop2_ops.cfc = some st.ops.cop2_ops.cfc ∧
        o.cop2_ops.mtc = some st.ops.cop2_ops.mtc ∧ o.cop2_ops.ctc = some st.ops.cop2_ops.ctc ∧
        o.cop2_ops.op = some st.ops.cop2_ops.op) := by
  constructor
  · rintro (h | ⟨o, rfl, h⟩)
    · subst h; rfl
    · unfold lightrec_init
      dsimp only
      rw [if_pos]
      rcases h with h | h | h | h | h | h | h | h | h | h <;> simp [h]
  · rintro o rfl ⟨a1, a2, a3, a4, a5, b1, b2, b3, b4, b5⟩
      ⟨e1, e2, e3, e4, e5, e6, e7, e8, e9, e10⟩
    obtain ⟨f1, a1⟩ := Option.ne_none_iff_exists'.1 a1
    obtain ⟨f2, a2⟩ := Option.ne_none_iff_exists'.1 a2
    obtain ⟨f3, a3⟩ := Option.ne_none_iff_exists'.1 a3
    obtain ⟨f4, a4⟩ := Option.ne_none_iff_exists'.1 a4
    obtain ⟨f5, a5⟩ := Option.ne_none_iff_exists'.1 a5
    obtain ⟨g1, b1⟩ := Option.ne_none_iff_exists'.1 b1
    obtain ⟨g2, b2⟩ := Option.ne_none_iff_exists'.1 b2
    obtain ⟨g3, b3⟩ := Option.ne_none_iff_exists'.1 b3
    obtain ⟨g4, b4⟩ := Option.ne_none_iff_exists'.1 b4
    obtain ⟨g5, b5⟩ := Option.ne_none_iff_exists'.1 b5
    have hinit : (lightrec_init cfg env map (some o)).1
        = some (init_offsets { calloc_state with
            maps := map
            ops := { cop0_ops := copy_cop_ops o.cop0_ops,
                     cop2_ops := copy_cop_ops o.cop2_ops } }) := by
      simp [lightrec_init, a1, a2, a3, a4, a5, b1, b2, b3, b4, b5, e1, e2, e3, e4, e5, e6, e7, e8,
        e9, e10]
    refine ⟨_, hinit, ?_⟩
    simp [init_offsets, copy_cop_ops, a1, a2, a3, a4, a5, b1, b2, b3, b4, b5, apply_ite]

/-- C11 witness: a null `ops` pointer, a set of callbacks without
`cop2_ops.ctc`, and a complete set with every allocation succeeding. -/
theorem lightrec_init_callbacks_witness :
    lightrec_init sample_config init_env_ok (psx_maps 0x10000000 0 0 0) none = (none, []) ∧
    lightrec_init sample_config init_env_ok (psx_maps 0x10000000 0 0 0)
        (some sample_ops_arg_no_ctc2) = (none, []) ∧
    ∃ st, (lightrec_init sample_config init_env_ok (psx_maps 0x10000000 0 0 0)
          (some sample_ops_arg)).1 = some st ∧
        sample_ops_arg.cop0_ops.mfc = some st.ops.cop0_ops.mfc ∧
        sample_ops_arg.cop0_ops.cfc = some st.ops.cop0_ops.cfc ∧
        sample_ops_arg.cop0_ops.mtc = some st.ops.cop0_ops.mtc ∧
        sample_ops_arg.cop0_ops.ctc = some st.ops.cop0_ops.ctc ∧
        sample_ops_arg.cop0_ops.op = some st.ops.cop0_ops.op ∧
        sample_ops_arg.cop2_ops.mfc = some st.ops.cop2_ops.mfc ∧
        sample_ops_arg.cop2_ops.cfc = some st.ops.cop2_ops.cfc ∧
        sample_ops_arg.cop2_ops.mtc = some st.ops.cop2_ops.mtc ∧
        sample_ops_arg.cop2_ops.ctc = some st.ops.cop2_ops.ctc ∧
        sample_ops_arg.cop2_ops.op = some st.ops.cop2_ops.op :=
  ⟨(lightrec_init_callbacks sample_config init_env_ok (psx_maps 0x10000000 0 0 0) none).1
      (Or.inl rfl),
    (lightrec_init_callbacks sample_config init_env_ok (psx_maps 0x10000000 0 0 0)
      (some sample_ops_arg_no_ctc2)).1
      (Or.inr ⟨_, rfl, by simp [sample_ops_arg_no_ctc2]⟩),
    (lightrec_init_callbacks sample_config init_env_ok (psx_maps 0x10000000 0 0 0)
      (some sample_ops_arg)).2 sample_ops_arg rfl
      (by simp [sample_ops_arg, sample_cop_ops_arg])
      ⟨rfl, rfl, rfl, rfl, rfl, rfl, rfl, rfl, rfl, rfl⟩⟩

/-! ## `lightrec_rfe_cb` -/

theorem testBit_0x3c (i : Nat) : (0x3c : Nat).testBit i = decide (2 ≤ i ∧ i < 6) := by
  by_cases h : i < 6
  · interval_cases i <;> decide
  · rw [Nat.testBit_lt_two_pow (lt_of_lt_of_le (by norm_num : (0x3c : Nat) < 2 ^ 6)
      (Nat.pow_le_pow_right (by norm_num) (not_lt.1 h)))]
    simp [h]

theorem testBit_0xfffffff0 (i : Nat) :
    (0xfffffff0 : Nat).testBit i = decide (4 ≤ i ∧ i < 32) := by
  by_cases h : i < 32
  · interval_cases i <;> decide
  · rw [Nat.testBit_lt_two_pow (lt_of_lt_of_le (by norm_num : (0xfffffff0 : Nat) < 2 ^ 32)
      (Nat.pow_le_pow_right (by norm_num) (not_lt.1 h)))]
    simp [h]

/-- C12: with `s` the CP0 status value that `cop0_ops.mfc(12)` returns,
`lightrec_rfe_cb` reads register 12 and writes back to CP0 register 12 exactly
`((s & 0x3c) >> 2) | (s & ~0xf)`: bits 4..31 are unchanged and bits 0..3 become
the old bits 2..5. -/
theorem lightrec_rfe_cb_status (st : lightrec_state) :
    lightrec_rfe_cb st
      = [.mfc 0 12, .ctc 0 12 (rfe_status (u32 (st.ops.cop0_ops.mfc 12)))] ∧
    rfe_status (u32 (st.ops.cop0_ops.mfc 12))
      = ((u32 (st.ops.cop0_ops.mfc 12) &&& 0x3c) >>> 2)
          ||| (u32 (st.ops.cop0_ops.mfc 12) &&& (2 ^ 32 - 1 - 0xf)) ∧
    (∀ i, 4 ≤ i → i < 32 →
      (rfe_status (u32 (st.ops.cop0_ops.mfc 12))).testBit i
        = (u32 (st.ops.cop0_ops.mfc 12)).testBit i) ∧
    (∀ i, i < 4 →
      (rfe_status (u32 (st.ops.cop0_ops.mfc 12))).testBit i
        = (u32 (st.ops.cop0_ops.mfc 12)).testBit (i + 2)) ∧
    rfe_status (u32 (st.ops.cop0_ops.mfc 12)) < 2 ^ 32 := by
  generalize hs : u32 (st.ops.cop0_ops.mfc 12) = s
  have hlt : s < 2 ^ 32 := hs ▸ Nat.mod_lt _ (by norm_num)
  have hbit : ∀ i, (rfe_status s).testBit i
      = if i < 4 then s.testBit (i + 2) else (s.testBit i && decide (i < 32)) := by
    intro i
    simp only [rfe_status, Nat.testBit_or, Nat.testBit_and, Nat.testBit_shiftRight,
      testBit_0x3c, testBit_0xfffffff0]
    by_cases h4 : i < 4
    · have h1 : 2 ≤ 2 + i ∧ 2 + i < 6 := by omega
      have h2 : ¬ (4 ≤ i ∧ i < 32) := by omega
      simp [h4, h1, h2, Nat.add_comm]
      intros; omega
    · have h1 : ¬ (2 ≤ 2 + i ∧ 2 + i < 6) := by omega
      by_cases h32 : i < 32
      · have h2 : 4 ≤ i ∧ i < 32 := by omega
        simp [h4, h1, h2, h32]
        intros; omega
      · have h2 : ¬ (4 ≤ i ∧ i < 32) := by omega
        simp [h4, h1, h2, h32]
        intros; omega
  refine ⟨by simp [lightrec_rfe_cb, hs], rfl, ?_, ?_, ?_⟩
  · intro i h4 h32
    rw [hbit i, if_neg (by omega)]
    simp [h32]
  · intro i h4
    rw [hbit i, if_pos h4]
  · apply Nat.lt_pow_two_of_testBit
    intro i hi
    rw [hbit i, if_neg (by omega)]
    simp [show ¬ i < 32 by omega]

/-! ## `lightrec_init`: offsets and mirror detection -/

/-- A successful `lightrec_init` returns the state built by `init_offsets`. -/
theorem init_success_state (cfg : config) (env : init_env) (map : List lightrec_mem_map)
    (ops : Option lightrec_ops_arg) (st : lightrec_state)
    (h : (lightrec_init cfg env map ops).1 = some st) :
    ∃ o : lightrec_ops_arg, st = init_offsets { calloc_state with
      maps := map
      ops := { cop0_ops := copy_cop_ops o.cop0_ops, cop2_ops := copy_cop_ops o.cop2_ops } } := by
  unfold lightrec_init at h
  cases ops with
  | none => simp at h
  | some o =>
    refine ⟨o, ?_⟩
    simp only [apply_ite Prod.fst] at h
    by_cases c0 : o.cop0_ops.mfc.isNone = true ∨ o.cop0_ops.cfc.isNone = true ∨
        o.cop0_ops.mtc.isNone = true ∨ o.cop0_ops.ctc.isNone = true ∨
        o.cop0_ops.op.isNone = true ∨ o.cop2_ops.mfc.isNone = true ∨
        o.cop2_ops.cfc.isNone = true ∨ o.cop2_ops.mtc.isNone = true ∨
        o.cop2_ops.ctc.isNone = true ∨ o.cop2_ops.op.isNone = true
    · rw [if_pos c0] at h; cases h
    rw [if_neg c0] at h
    by_cases c1 : env.calloc_ok = false
    · rw [if_pos c1] at h; cases h
    rw [if_neg c1] at h
    by_cases c2 : env.block_cache_ok = false
    · rw [if_pos c2] at h; cases h
    rw [if_neg c2] at h
    by_cases c3 : env.reg_cache_ok = false
    · rw [if_pos c3] at h; cases h
    rw [if_neg c3] at h
    by_cases c4 : cfg.ENABLE_THREADED_COMPILER = true ∧ env.rec_ok = false
    · rw [if_pos c4] at h; cases h
    rw [if_neg c4] at h
    by_cases c5 : env.wrapper_ok = false
    · rw [if_pos c5] at h; cases h
    rw [if_neg c5] at h
    by_cases c6 : env.rw_wrapper_ok = false
    · rw [if_pos c6] at h; cases h
    rw [if_neg c6] at h
    by_cases c7 : env.mfc_wrapper_ok = false
    · rw [if_pos c7] at h; cases h
    rw [if_neg c7] at h
    by_cases c8 : env.mtc_wrapper_ok = false
    · rw [if_pos c8] at h; cases h
    rw [if_neg c8] at h
    by_cases c9 : env.rfe_wrapper_ok = false
    · rw [if_pos c9] at h; cases h
    rw [if_neg c9] at h
    by_cases c10 : env.cp_wrapper_ok = false
    · rw [if_pos c10] at h; cases h
    rw [if_neg c10] at h
    exact (Option.some.inj h).symm

/-- The offset `(uintptr_t) address - pc` as an integer modulo `2 ^ 64`. -/
theorem uptr_sub (address pc : Nat) (hpc : pc < 2 ^ 32) :
    ((uptr (address + (2 ^ 64 - pc)) : Nat) : Int) = ((address : Int) - (pc : Int)) % 2 ^ 64 := by
  unfold uptr
  norm_num at hpc ⊢
  omega

/-- C14: after a successful `lightrec_init` (the map array holding the PSX
maps, with `u32` guest bases), `state.mirrors_mapped` is true if and only if
the host addresses of MIRROR1, MIRROR2 and MIRROR3 equal the RAM host address
plus `0x200000`, `0x400000` and `0x600000` respectively (all three, in pointer
arithmetic), and `offset_ram`, `offset_bios`, `offset_scratch` equal the
respective map's host address minus its guest base `pc` (as `uintptr_t`, that
is modulo `2 ^ 64`). -/
theorem lightrec_init_mirrors_offsets (cfg : config) (env : init_env)
    (map : List lightrec_mem_map) (ops : Option lightrec_ops_arg) (st : lightrec_state)
    (h : (lightrec_init cfg env map ops).1 = some st)
    (hpc : ∀ m, m ∈ map → m.pc < 2 ^ 32) (hnb : PSX_MAP_MIRROR3 < map.length) :
    st.maps = map ∧
    (st.mirrors_mapped = true ↔
      ((map_at st PSX_MAP_MIRROR1).address
          = uptr ((map_at st PSX_MAP_KERNEL_USER_RAM).address + 0x200000) ∧
       (map_at st PSX_MAP_MIRROR2).address
          = uptr ((map_at st PSX_MAP_KERNEL_USER_RAM).address + 0x400000) ∧
       (map_at st PSX_MAP_MIRROR3).address
          = uptr ((map_at st PSX_MAP_KERNEL_USER_RAM).address + 0x600000))) ∧
    (st.offset_ram : Int)
      = (((map_at st PSX_MAP_KERNEL_USER_RAM).address : Int)
          - ((map_at st PSX_MAP_KERNEL_USER_RAM).pc : Int)) % 2 ^ 64 ∧
    (st.offset_bios : Int)
      = (((map_at st PSX_MAP_BIOS).address : Int) - ((map_at st PSX_MAP_BIOS).pc : Int)) % 2 ^ 64 ∧
    (st.offset_scratch : Int)
      = (((map_at st PSX_MAP_SCRATCH_PAD).address : Int)
          - ((map_at st PSX_MAP_SCRATCH_PAD).pc : Int)) % 2 ^ 64 := by
  obtain ⟨o, rfl⟩ := init_success_state cfg env map ops st h
  have hmem : ∀ i, i < map.length →
      (map.getD i { pc := 0, length := 0, address := 0, ops := none, mirror_of := none }).pc
        < 2 ^ 32 := by
    intro i hi
    rw [List.getD_eq_getElem _ _ hi]
    exact hpc _ (List.getElem_mem _)
  have h0 := hmem PSX_MAP_KERNEL_USER_RAM (by unfold PSX_MAP_KERNEL_USER_RAM PSX_MAP_MIRROR3 at *; omega)
  have h1 := hmem PSX_MAP_BIOS (by unfold PSX_MAP_BIOS PSX_MAP_MIRROR3 at *; omega)
  have h2 := hmem PSX_MAP_SCRATCH_PAD (by unfold PSX_MAP_SCRATCH_PAD PSX_MAP_MIRROR3 at *; omega)
  unfold init_offsets
  dsimp only
  split
  · rename_i hc
    exact ⟨rfl, ⟨fun _ => hc, fun _ => rfl⟩, uptr_sub _ _ h0, uptr_sub _ _ h1, uptr_sub _ _ h2⟩
  · rename_i hc
    refine ⟨rfl, ⟨fun hm => ?_, fun hm => absurd hm hc⟩, uptr_sub _ _ h0, uptr_sub _ _ h1,
      uptr_sub _ _ h2⟩
    exact absurd hm (by simp [calloc_state])

/-- C14 witness: with the mirrors mapped right behind RAM the flag is set, and
the offsets are the differences of host address and guest base. -/
theorem lightrec_init_mirrors_offsets_witness :
    ∃ st, (lightrec_init sample_config init_env_ok
          (psx_maps 0x10000000 0x10200000 0x10400000 0x10600000) (some sample_ops_arg)).1
        = some st ∧
      st.mirrors_mapped = true ∧ st.offset_ram = 0x10000000 ∧
      st.offset_bios = 0x30000000 - 0x1fc00000 ∧
      (st.mirrors_mapped = true ↔
        ((map_at st PSX_MAP_MIRROR1).address
            = uptr ((map_at st PSX_MAP_KERNEL_USER_RAM).address + 0x200000) ∧
         (map_at st PSX_MAP_MIRROR2).address
            = uptr ((map_at st PSX_MAP_KERNEL_USER_RAM).address + 0x400000) ∧
         (map_at st PSX_MAP_MIRROR3).address
            = uptr ((map_at st PSX_MAP_KERNEL_USER_RAM).address + 0x600000))) :=
  ⟨_, rfl, by decide, by decide, by decide,
    (lightrec_init_mirrors_offsets sample_config init_env_ok
      (psx_maps 0x10000000 0x10200000 0x10400000 0x10600000) (some sample_ops_arg) _ rfl
      (by decide) (by decide)).2.1⟩

/-- A run of `lightrec_init` with the second mirror mapped elsewhere: the flag
stays clear. -/
theorem lightrec_init_mirrors_not_mapped :
    ∃ st, (lightrec_init sample_config init_env_ok
          (psx_maps 0x10000000 0x10200000 0x20400000 0x10600000) (some sample_ops_arg)).1
        = some st ∧ st.mirrors_mapped = false :=
  ⟨_, rfl, by decide⟩

/-! ## The termination test of the outer stub -/

theorem sext_32_32 (x : Nat) : sext 32 32 x = x % 2 ^ 32 := by
  unfold sext
  split <;> simp

/-- The termination test of the outer stub, node by node: after adding the
returned cycles to the sign-extended `current_cycle` and storing the low 32
bits, it takes its exit path, storing the low 32 bits of `JIT_V0` in
`state.next_pc`, if and only if the loaded `exit_flags` are not 0 or the loaded
(sign-extended) `target_cycle` is below the sum as an unsigned word. -/
theorem wrapper_exit_iff (W : Nat) (st : lightrec_state) (r0 v0 : Nat) :
    ((∃ st', wrapper_after_block W st r0 v0 = Sum.inl st') ↔
      (sext W 32 st.exit_flags ≠ 0 ∨
        sext W 32 st.target_cycle < (sext W 32 st.current_cycle + r0) % 2 ^ W)) ∧
    (∀ st', wrapper_after_block W st r0 v0 = Sum.inl st' →
      st' = { st with current_cycle := u32 ((sext W 32 st.current_cycle + r0) % 2 ^ W),
                      next_pc := u32 v0 }) ∧
    (∀ p, wrapper_after_block W st r0 v0 = Sum.inr p →
      p.1 = { st with current_cycle := u32 ((sext W 32 st.current_cycle + r0) % 2 ^ W) }) := by
  have hcond : ((if sext W 32 st.target_cycle < (sext W 32 st.current_cycle + r0) % 2 ^ W
      then 1 else 0) ||| sext W 32 st.exit_flags) ≠ 0 ↔
      (sext W 32 st.exit_flags ≠ 0 ∨
        sext W 32 st.target_cycle < (sext W 32 st.current_cycle + r0) % 2 ^ W) := by
    by_cases hf : sext W 32 st.exit_flags = 0
    · rw [hf, Nat.or_zero]
      by_cases hlt : sext W 32 st.target_cycle < (sext W 32 st.current_cycle + r0) % 2 ^ W
      · simp [hlt]
      · simp [hlt]
    · constructor
      · intro _; exact Or.inl hf
      · intro _ h0
        apply hf
        apply Nat.eq_of_testBit_eq
        intro i
        have := congrArg (fun n => Nat.testBit n i) h0
        simp only [Nat.testBit_or, Nat.zero_testBit, Bool.or_eq_false_iff] at this
        simpa using this.2
  unfold wrapper_after_block
  dsimp only
  by_cases hr0 : ((if sext W 32 st.target_cycle < (sext W 32 st.current_cycle + r0) % 2 ^ W
      then 1 else 0) ||| sext W 32 st.exit_flags) ≠ 0
  · rw [if_pos hr0]
    refine ⟨⟨fun _ => hcond.1 hr0, fun _ => ⟨_, rfl⟩⟩, ?_, ?_⟩
    · intro st' h; cases h; rfl
    · intro p h; cases h
  · rw [if_neg hr0]
    refine ⟨⟨?_, fun hc => absurd (hcond.2 hc) hr0⟩, ?_, ?_⟩
    · rintro ⟨st', h⟩
      split_ifs at h
    · intro st' h
      split_ifs at h
    · intro p h
      split_ifs at h <;> (cases h; rfl)

/-- On a 32-bit host the termination test of the outer stub is the one of its
comment in the source, on the `u32` counters: it takes the exit path if and
only if `exit_flags != NORMAL` or `target_cycle < current_cycle` after the
returned cycles have been added. -/
theorem wrapper_exit_iff_32 (st : lightrec_state) (r0 v0 : Nat)
    (hf : st.exit_flags < 2 ^ 32) (ht : st.target_cycle < 2 ^ 32) :
    (∃ st', wrapper_after_block 32 st r0 v0 = Sum.inl st') ↔
      (st.exit_flags ≠ LIGHTREC_EXIT_NORMAL ∨ st.target_cycle < u32 (st.current_cycle + r0)) := by
  rw [(wrapper_exit_iff 32 st r0 v0).1]
  simp only [sext_32_32, Nat.mod_eq_of_lt hf, Nat.mod_eq_of_lt ht, LIGHTREC_EXIT_NORMAL, u32]
  rw [Nat.mod_add_mod]

/-- The comparison of the outer stub is strict: a block returns 5 cycles with
`current_cycle = 0`, `target_cycle = 5` and normal flags; then
`current_cycle >= target_cycle` holds, yet the stub does not take its exit
path, on a 32-bit host and on a 64-bit host. -/
theorem wrapper_continues_at_target :
    (wrapper_after_block 32 (sample_state_cycles 0 5) 5 0x80000000).isLeft = false ∧
    (wrapper_after_block 64 (sample_state_cycles 0 5) 5 0x80000000).isLeft = false ∧
    (wrapper_after_block 64 (sample_state_cycles 0 5) 5 0x80000000).elim (fun _ => none)
        (fun p => some (p.1.current_cycle, p.1.target_cycle, p.1.exit_flags))
      = some (5, 5, LIGHTREC_EXIT_NORMAL) := by
  refine ⟨by decide, by decide, by decide⟩

/-- C18 (evaluation at the failing input): on a 64-bit host, with
`current_cycle = 0x7fffffff`, `target_cycle = 0x80000000` and normal flags, a
block returns 4 cycles; the stub stores `current_cycle = 0x80000003`, which is
above `target_cycle`, and does not take its exit path, because `jit_ldxi_i` has
sign-extended `target_cycle` to `0xffffffff80000000` while the sum
`0x7fffffff + 4` carries no sign extension.  On a 32-bit host the same return
takes the exit path. -/
theorem wrapper_misses_exit_across_sign_bit :
    (wrapper_after_block 64 (sample_state_cycles 0x7fffffff 0x80000000) 4 0x80000000).isLeft
      = false ∧
    (wrapper_after_block 64 (sample_state_cycles 0x7fffffff 0x80000000) 4 0x80000000).elim
        (fun _ => none)
        (fun p => some (p.1.current_cycle, p.1.target_cycle, p.1.exit_flags))
      = some (0x80000003, 0x80000000, LIGHTREC_EXIT_NORMAL) ∧
    sext 64 32 0x80000000 = 0xffffffff80000000 ∧
    (wrapper_after_block 32 (sample_state_cycles 0x7fffffff 0x80000000) 4 0x80000000).isLeft
      = true := by
  refine ⟨by decide, by decide, by decide, by decide⟩

/-! ## Division by zero in emitted code -/

theorem sext_32_neg (W v : Nat) (hW : W = 32 ∨ W = 64) (hv : v < 2 ^ 32) :
    signed_lt W (sext W 32 v) 0 = decide (2 ^ 31 ≤ v) := by
  rcases hW with rfl | rfl
  · unfold signed_lt sext
    norm_num at hv ⊢
    omega
  · unfold signed_lt sext
    norm_num at hv ⊢
    split_ifs <;> omega

theorem sext_32_low (W v : Nat) (hW : W = 32 ∨ W = 64) (hv : v < 2 ^ 32) :
    sext W 32 v % 2 ^ 32 = v ∧ sext W 32 v < 2 ^ W := by
  rcases hW with rfl | rfl
  · unfold sext
    norm_num at hv ⊢
    omega
  · unfold sext
    norm_num at hv ⊢
    split_ifs <;> omega

/-- The fallback of `rec_alu_div` on host registers that hold sign-extended
guest values: for every 32-bit `rs`, when the host register of `rt` is 0 as a
whole word and the one of `rs` holds the sign-extended value (LO and HI cached
in registers of their own), the emitted code leaves HI = `rs` and, for signed
DIV, LO = 1 when `rs < 0` and LO = -1 (`0xffffffff`) otherwise; for DIVU,
LO = `0xffffffff`.  No host division is executed on this path: the run adds no
event.  On a 32-bit host every register content is of that form. -/
theorem rec_alu_div_by_zero (rc : regcache) (W : Nat) (op : opcode) (is_signed : Bool)
    (m : host_machine) (v : Nat)
    (hW : W = 32 ∨ W = 64) (hv : v < 2 ^ 32)
    (hskip : m.skip = none) (hhalt : m.halted = false)
    (hrs : m.regs (rc.host_of op.r_rs) = sext W 32 v)
    (hrt : m.regs (rc.host_of op.r_rt) = 0)
    (hlo : rc.host_of REG_LO ≠ rc.host_of op.r_rs)
    (hhi : rc.host_of REG_HI ≠ rc.host_of REG_LO) :
    (exec W (rec_alu_div rc W op is_signed) m).regs (rc.host_of REG_HI) % 2 ^ 32 = v ∧
    (exec W (rec_alu_div rc W op is_signed) m).regs (rc.host_of REG_LO) % 2 ^ 32
      = (if is_signed then (if 2 ^ 31 ≤ v then 1 else 0xffffffff) else 0xffffffff) ∧
    (exec W (rec_alu_div rc W op is_signed) m).events = m.events ∧
    (exec W (rec_alu_div rc W op is_signed) m).skip = none := by
  obtain ⟨hlow, hlt⟩ := sext_32_low W v hW hv
  have hneg := sext_32_neg W v hW hv
  have hlo' : rc.host_of op.r_rs ≠ rc.host_of REG_LO := fun h => hlo h.symm
  have hhi' : rc.host_of REG_LO ≠ rc.host_of REG_HI := fun h => hhi h.symm
  cases is_signed
  · rcases hW with rfl | rfl
    · simp [rec_alu_div, exec, exec_step, exec_node, set_reg, add_event, hskip, hhalt, hrt, hrs,
        hlo, hlo', hhi, hhi', Function.update_apply]
      simpa using hlow
    · simp [rec_alu_div, exec, exec_step, exec_node, set_reg, add_event, hskip, hhalt, hrt, hrs,
        hlo, hlo', hhi, hhi', Function.update_apply]
      norm_num at hlt hlow ⊢
      omega
  · rcases hW with rfl | rfl
    · simp [rec_alu_div, exec, exec_step, exec_node, set_reg, add_event, hskip, hhalt, hrt, hrs,
        hlo, hlo', hhi, hhi', Function.update_apply, hneg]
      norm_num at hlt hlow ⊢
      refine ⟨by omega, ?_⟩
      by_cases hc : 2147483648 ≤ v
      · simp [hc, Nat.shiftLeft_eq]
      · simp [hc, Nat.shiftLeft_eq]
    · simp [rec_alu_div, exec, exec_step, exec_node, set_reg, add_event, hskip, hhalt, hrt, hrs,
        hlo, hlo', hhi, hhi', Function.update_apply, hneg]
      norm_num at hlt hlow ⊢
      refine ⟨by omega, ?_⟩
      by_cases hc : 2147483648 ≤ v
      · simp [hc, Nat.shiftLeft_eq]
      · simp [hc, Nat.shiftLeft_eq]

/-- The fallback of `rec_alu_div` at `rs = -5`, `rt = 0` on a 64-bit host whose
registers hold sign-extended values: LO = 1, HI = -5, no division. -/
theorem rec_alu_div_by_zero_witness :
    (exec 64 (rec_alu_div sample_regcache 64 sample_div true)
        (sample_machine (fun r => if r = 41 then 0xfffffffffffffffb else 0))).regs
        (sample_regcache.host_of REG_HI) % 2 ^ 32 = 0xfffffffb ∧
    (exec 64 (rec_alu_div sample_regcache 64 sample_div true)
        (sample_machine (fun r => if r = 41 then 0xfffffffffffffffb else 0))).regs
        (sample_regcache.host_of REG_LO) % 2 ^ 32
      = (if true then (if 2 ^ 31 ≤ 0xfffffffb then 1 else 0xffffffff) else 0xffffffff) ∧
    (exec 64 (rec_alu_div sample_regcache 64 sample_div true)
        (sample_machine (fun r => if r = 41 then 0xfffffffffffffffb else 0))).events = [] ∧
    (exec 64 (rec_alu_div sample_regcache 64 sample_div true)
        (sample_machine (fun r => if r = 41 then 0xfffffffffffffffb else 0))).skip = none :=
  rec_alu_div_by_zero sample_regcache 64 sample_div true
    (sample_machine (fun r => if r = 41 then 0xfffffffffffffffb else 0)) 0xfffffffb
    (Or.inr rfl) (by decide) rfl rfl (by decide) (by decide) (by decide) (by decide)


/-- C13 (evaluation at the failing inputs): on a 64-bit host the emitter's own
`ADDU` leaves host registers whose upper half is not the sign extension of the
guest value, and `rec_alu_div` tests the whole register.
(1) `ADDU $2, $3, $3` with `$3 = 0x80000000` gives the guest value 0, held as
`0xffffffff00000000`; in the `DIV $1, $2` that follows, `jit_beqi(rt, 0)` does
not jump, `rt` is then sign-extended to 0 and the host division `jit_qdivr` is
executed with the divisor 0.
(2) `ADDU $1, $3, $4` with `$3 = 0x7fffffff`, `$4 = 1` gives the negative guest
value `0x80000000`, held as `0x0000000080000000`; in the `DIV $1, $2` with
`$2 = 0` that follows, the fallback runs and `jit_lti(lo, rs, 0)` sees a
positive word: LO = `0xffffffff` where `rs < 0` calls for LO = 1. -/
theorem rec_alu_div_unextended_registers :
    (exec 64 (rec_special_ADDU sample_regcache 64 sample_addu_double)
        (sample_machine (fun r => if r = 43 then 0xffffffff80000000
          else if r = 41 then 7 else 0))).regs 42 = 0xffffffff00000000 ∧
    (0xffffffff00000000 : Nat) % 2 ^ 32 = 0 ∧
    (exec 64 (rec_special_ADDU sample_regcache 64 sample_addu_double ++
          rec_special_DIV sample_regcache 64 sample_div)
        (sample_machine (fun r => if r = 43 then 0xffffffff80000000
          else if r = 41 then 7 else 0))).events = [.div true 7 0] ∧
    (exec 64 (rec_special_ADDU sample_regcache 64 sample_addu)
        (sample_machine (fun r => if r = 43 then 0x7fffffff
          else if r = 44 then 1 else 0))).regs 41 = 0x80000000 ∧
    (exec 64 (rec_special_ADDU sample_regcache 64 sample_addu ++
          rec_special_DIV sample_regcache 64 sample_div)
        (sample_machine (fun r => if r = 43 then 0x7fffffff
          else if r = 44 then 1 else 0))).events = [] ∧
    (exec 64 (rec_special_ADDU sample_regcache 64 sample_addu ++
          rec_special_DIV sample_regcache 64 sample_div)
        (sample_machine (fun r => if r = 43 then 0x7fffffff
          else if r = 44 then 1 else 0))).regs (sample_regcache.host_of REG_LO) % 2 ^ 32
      = 0xffffffff ∧
    (exec 64 (rec_special_ADDU sample_regcache 64 sample_addu ++
          rec_special_DIV sample_regcache 64 sample_div)
        (sample_machine (fun r => if r = 43 then 0x7fffffff
          else if r = 44 then 1 else 0))).regs (sample_regcache.host_of REG_HI) % 2 ^ 32
      = 0x80000000 := by
  refine ⟨by decide, by decide, by decide, by decide, by decide, by decide, by decide⟩

/-! ## Writes to coprocessor registers and the end of the block -/

/-- C20: for an MTC0 at guest address `pc` whose `rd` is 12 or 13, `rec_mtc`
emits, after the sequence that calls the `mtc` thunk, the end-of-block epilogue
with next PC = `pc + 4` loaded into `JIT_V0`, no write to a link register and no
delay-slot code; for every other `rd`, and for every MTC2/CTC2 whatever its
`rd`, only the call sequence is emitted, and that sequence holds the call and
neither a storeback nor a jump. -/
theorem rec_mtc_end_of_block (rc : regcache) (st : emitter_state) (op : opcode) (pc : Nat) :
    (op.i_op = OP_CP0 → (op.r_rd = 12 ∨ op.r_rd = 13) →
      rec_cp0_MTC0 rc st op pc =
        (rec_mtc_call rc op ++
          ([.alloc_reg JIT_V0, .jit (.movi JIT_V0 (u32 (pc + 4))), .storeback_regs,
            .jit (.movr JIT_V0 JIT_V0),
            .jit (.subi LIGHTREC_REG_CYCLE LIGHTREC_REG_CYCLE st.cycles)] ++
          st.branches.map (fun l => emit.jit (.patch l)) ++
          [.jit (.ldxi JIT_R0 LIGHTREC_REG_STATE .eob_wrapper_func), .jit (.jmpr JIT_R0)]),
          st)) ∧
    (op.i_op = OP_CP0 → op.r_rd ≠ 12 → op.r_rd ≠ 13 →
      rec_cp0_MTC0 rc st op pc = (rec_mtc_call rc op, st)) ∧
    (op.i_op = OP_CP2 →
      rec_cp2_basic_MTC2 rc st op pc = (rec_mtc_call rc op, st) ∧
      rec_cp2_basic_CTC2 rc st op pc = (rec_mtc_call rc op, st)) ∧
    emit.jit (.callr (rc.temp 1)) ∈ rec_mtc_call rc op ∧
    (∀ e ∈ rec_mtc_call rc op, e ≠ .storeback_regs ∧ is_jump e = false) := by
  refine ⟨?_, ?_, ?_, ?_, ?_⟩
  · intro h hrd
    simp [rec_cp0_MTC0, rec_mtc, h, hrd, lightrec_emit_end_of_block]
  · intro h h12 h13
    simp [rec_cp0_MTC0, rec_mtc, h, h12, h13]
  · intro h
    simp [rec_cp2_basic_MTC2, rec_cp2_basic_CTC2, rec_mtc, h, OP_CP2, OP_CP0]
  · simp [rec_mtc_call]
  · intro e he
    simp only [rec_mtc_call, List.mem_cons, List.mem_singleton, List.not_mem_nil, or_false] at he
    rcases he with rfl | rfl | rfl | rfl | rfl | rfl | rfl | rfl | rfl | rfl | rfl | rfl <;>
      simp [is_jump]

theorem rec_mtc_end_of_block_witness :
    rec_cp0_MTC0 sample_regcache sample_emitter_state sample_mtc0_status 0x80001000 =
      (rec_mtc_call sample_regcache sample_mtc0_status ++
        ([.alloc_reg JIT_V0, .jit (.movi JIT_V0 (u32 (0x80001000 + 4))), .storeback_regs,
          .jit (.movr JIT_V0 JIT_V0),
          .jit (.subi LIGHTREC_REG_CYCLE LIGHTREC_REG_CYCLE sample_emitter_state.cycles)] ++
        sample_emitter_state.branches.map (fun l => emit.jit (.patch l)) ++
        [.jit (.ldxi JIT_R0 LIGHTREC_REG_STATE .eob_wrapper_func), .jit (.jmpr JIT_R0)]),
        sample_emitter_state) ∧
    rec_cp0_MTC0 sample_regcache sample_emitter_state sample_mtc0_epc 0x80001000 =
      (rec_mtc_call sample_regcache sample_mtc0_epc, sample_emitter_state) ∧
    rec_cp2_basic_MTC2 sample_regcache sample_emitter_state sample_mtc2 0x80001000 =
      (rec_mtc_call sample_regcache sample_mtc2, sample_emitter_state) :=
  ⟨(rec_mtc_end_of_block sample_regcache sample_emitter_state sample_mtc0_status
      0x80001000).1 (by decide) (by decide),
    (rec_mtc_end_of_block sample_regcache sample_emitter_state sample_mtc0_epc
      0x80001000).2.1 (by decide) (by decide) (by decide),
    ((rec_mtc_end_of_block sample_regcache sample_emitter_state sample_mtc2
      0x80001000).2.2.1 (by decide)).1⟩


/-! ## Storeback before leaving the block -/

theorem spilled_before_patches (bs : List Nat) (rest : List emit) :
    spilled_before is_jump true (bs.map (fun l => emit.jit (.patch l)) ++ rest)
      = spilled_before is_jump true rest := by
  induction bs with
  | nil => rfl
  | cons b bs ih => simpa [spilled_before, is_jump] using ih

theorem makes_dirty_patches (bs : List Nat) :
    ∀ e ∈ bs.map (fun l => emit.jit (.patch l)), makes_dirty e = false := by
  intro e he
  obtain ⟨l, -, rfl⟩ := List.mem_map.mp he
  rfl

/-- C19 (counterexample): the sequence emitted for `DIV $1, $2` followed by
`SWL $0, 1($0)` marks LO and HI dirty and then calls the `rw` thunk, and it
holds no storeback at all; `rec_io` alone emits the call with no storeback
before it. -/
theorem rec_io_call_without_storeback :
    emit.jit (.callr (sample_regcache.temp 1)) ∈ rec_SWL sample_regcache sample_swl ∧
    emit.storeback_regs ∉ rec_SWL sample_regcache sample_swl ∧
    emit.alloc_reg_out REG_LO (sample_regcache.host_of REG_LO)
      ∈ rec_special_DIV sample_regcache 64 sample_div ∧
    emit.storeback_regs
      ∉ rec_special_DIV sample_regcache 64 sample_div ++ rec_SWL sample_regcache sample_swl ∧
    spilled_before is_callr true
      (rec_special_DIV sample_regcache 64 sample_div ++ rec_SWL sample_regcache sample_swl)
      = false := by
  decide


/-- C19 (amended): in the sequence emitted by `lightrec_emit_end_of_block`, a
`lightrec_storeback_regs` precedes the jump out of the block (`jit_jmpr`, or the
`jit_jmpi` of an epilogue that is not the last), nothing after the storeback
marks a guest register dirty, and the only jumps before it are those of the
delay-slot code; in `rec_io`, `rec_mfc`, `rec_mtc`, `rec_cp0_RFE`, `rec_CP` and
`rec_break_syscall` no storeback precedes the `jit_callr` of the runtime thunk,
and `lightrec_regcache_mark_live` follows it. -/
theorem storeback_precedes_block_exit (rc : regcache) (st : emitter_state) (pc : Nat)
    (reg_new_pc : Int) (imm ra_reg link : Nat) (ds : Option delay_slot) (op : opcode)
    (load_rt read_rt is_break : Bool) :
    (∃ pre post last,
      (lightrec_emit_end_of_block rc st pc reg_new_pc imm ra_reg link ds).1
        = pre ++ emit.storeback_regs :: (post ++ [last]) ∧
      (∀ e ∈ pre, is_jump e = true → ∃ d, ds = some d ∧ e ∈ d.code (u32 (pc + 4))) ∧
      (∀ e ∈ post ++ [last], makes_dirty e = false) ∧
      (∀ e ∈ post, is_jump e = false) ∧ is_jump last = true ∧
      spilled_before is_jump false (emit.storeback_regs :: (post ++ [last])) = true) ∧
    (∃ pre post, rec_io rc op load_rt read_rt = pre ++ emit.jit (.callr (rc.temp 1)) :: post ∧
      emit.storeback_regs ∉ pre ∧ emit.mark_live ∈ post) ∧
    (∃ pre post, rec_mfc rc op = pre ++ emit.jit (.callr (rc.temp 1)) :: post ∧
      emit.storeback_regs ∉ pre ∧ emit.mark_live ∈ post) ∧
    (∃ pre post, (rec_mtc rc st op pc).1 = pre ++ emit.jit (.callr (rc.temp 1)) :: post ∧
      emit.storeback_regs ∉ pre ∧ emit.mark_live ∈ post) ∧
    (∃ pre post, rec_cp0_RFE rc = pre ++ emit.jit (.callr (rc.temp 0)) :: post ∧
      emit.storeback_regs ∉ pre ∧ emit.mark_live ∈ post) ∧
    (∃ pre post, rec_CP rc op = pre ++ emit.jit (.callr (rc.temp 1)) :: post ∧
      emit.storeback_regs ∉ pre ∧ emit.mark_live ∈ post) ∧
    (∃ pre post, (rec_break_syscall rc st pc is_break).1
        = pre ++ emit.jit (.callr (rc.temp 0)) :: post ∧
      emit.storeback_regs ∉ pre ∧ emit.mark_live ∈ post) := by
  refine ⟨?_, ?_, ?_, ?_, ?_, ?_, ?_⟩
  · obtain ⟨A, hA, hpre⟩ : ∃ A : List emit,
        A = (if link ≠ 0 then
            [emit.alloc_reg_out ra_reg (rc.host_of ra_reg),
              .jit (.movi (rc.host_of ra_reg) link), .free_reg (rc.host_of ra_reg)]
          else []) ++
          (if reg_new_pc < 0 then [emit.alloc_reg JIT_V0, .jit (.movi JIT_V0 imm)] else []) ∧
        ∀ (d : List emit), ∀ e ∈ A ++ d, is_jump e = true → e ∈ d := by
      refine ⟨_, rfl, ?_⟩
      intro d e he hj
      simp only [List.mem_append] at he
      rcases he with (he | he) | he
      · split at he
        · simp only [List.mem_cons, List.mem_singleton, List.not_mem_nil, or_false] at he
          rcases he with rfl | rfl | rfl <;> simp [is_jump] at hj
        · simp at he
      · split at he
        · simp only [List.mem_cons, List.mem_singleton, List.not_mem_nil, or_false] at he
          rcases he with rfl | rfl <;> simp [is_jump] at hj
        · simp at he
      · exact he
    rcases ds with _ | d
    · refine ⟨A ++ [], [emit.jit (.movr JIT_V0 (if reg_new_pc < 0 then JIT_V0 else reg_new_pc.toNat)),
        .jit (.subi LIGHTREC_REG_CYCLE LIGHTREC_REG_CYCLE st.cycles)] ++
        st.branches.map (fun l => emit.jit (.patch l)) ++
        [.jit (.ldxi JIT_R0 LIGHTREC_REG_STATE .eob_wrapper_func)], .jit (.jmpr JIT_R0),
        ?_, ?_, ?_, ?_, rfl, ?_⟩
      · simp [lightrec_emit_end_of_block, hA]
      · intro e he hj
        have := hpre [] e he hj
        simp at this
      · intro e he
        simp only [List.mem_append, List.mem_cons, List.mem_singleton, List.not_mem_nil,
          or_false] at he
        rcases he with (((rfl | rfl) | he) | rfl) | rfl
        · rfl
        · rfl
        · exact makes_dirty_patches _ e he
        · rfl
        · rfl
      · intro e he
        simp only [List.mem_append, List.mem_cons, List.mem_singleton, List.not_mem_nil,
          or_false] at he
        rcases he with ((rfl | rfl) | he) | rfl
        · rfl
        · rfl
        · obtain ⟨l, -, rfl⟩ := List.mem_map.mp he
          rfl
        · rfl
      · simp only [List.append_assoc, List.cons_append, List.nil_append, spilled_before,
          is_jump]
        simp only [Bool.true_and, Bool.false_eq_true, if_false]
        have h := spilled_before_patches st.branches
          [emit.jit (.ldxi JIT_R0 LIGHTREC_REG_STATE .eob_wrapper_func), .jit (.jmpr JIT_R0)]
        simpa using h
    · have hdelay : ∀ e ∈ A ++ (if d.word ≠ 0 then d.code (u32 (pc + 4)) else []),
          is_jump e = true → ∃ d', some d = some d' ∧ e ∈ d'.code (u32 (pc + 4)) := by
        intro e he hj
        have h := hpre _ e he hj
        split at h
        · exact ⟨d, rfl, h⟩
        · simp at h
      cases hn : d.has_next
      · refine ⟨A ++ (if d.word ≠ 0 then d.code (u32 (pc + 4)) else []),
          [emit.jit (.movr JIT_V0 (if reg_new_pc < 0 then JIT_V0 else reg_new_pc.toNat)),
          .jit (.subi LIGHTREC_REG_CYCLE LIGHTREC_REG_CYCLE (u32 (st.cycles + d.cycles)))] ++
          st.branches.map (fun l => emit.jit (.patch l)) ++
          [.jit (.ldxi JIT_R0 LIGHTREC_REG_STATE .eob_wrapper_func)], .jit (.jmpr JIT_R0),
          ?_, hdelay, ?_, ?_, rfl, ?_⟩
        · simp [lightrec_emit_end_of_block, hA, hn]
        · intro e he
          simp only [List.mem_append, List.mem_cons, List.mem_singleton, List.not_mem_nil,
            or_false] at he
          rcases he with (((rfl | rfl) | he) | rfl) | rfl
          · rfl
          · rfl
          · exact makes_dirty_patches _ e he
          · rfl
          · rfl
        · intro e he
          simp only [List.mem_append, List.mem_cons, List.mem_singleton, List.not_mem_nil,
            or_false] at he
          rcases he with ((rfl | rfl) | he) | rfl
          · rfl
          · rfl
          · obtain ⟨l, -, rfl⟩ := List.mem_map.mp he
            rfl
          · rfl
        · simp only [List.append_assoc, List.cons_append, List.nil_append, spilled_before,
            is_jump]
          simp only [Bool.true_and, Bool.false_eq_true, if_false]
          have h := spilled_before_patches st.branches
            [emit.jit (.ldxi JIT_R0 LIGHTREC_REG_STATE .eob_wrapper_func), .jit (.jmpr JIT_R0)]
          simpa using h
      · refine ⟨A ++ (if d.word ≠ 0 then d.code (u32 (pc + 4)) else []),
          [emit.jit (.movr JIT_V0 (if reg_new_pc < 0 then JIT_V0 else reg_new_pc.toNat)),
          .jit (.subi LIGHTREC_REG_CYCLE LIGHTREC_REG_CYCLE (u32 (st.cycles + d.cycles)))],
          .jit (.jmpi st.next_label), ?_, hdelay, ?_, ?_, rfl, ?_⟩
        · simp [lightrec_emit_end_of_block, hA, hn]
        · intro e he
          simp only [List.mem_append, List.mem_cons, List.mem_singleton, List.not_mem_nil,
            or_false] at he
          rcases he with (rfl | rfl) | rfl <;> rfl
        · intro e he
          simp only [List.mem_cons, List.mem_singleton, List.not_mem_nil, or_false] at he
          rcases he with rfl | rfl <;> rfl
        · simp [spilled_before, is_jump]
  · refine ⟨[emit.alloc_reg_in op.i_rs (rc.host_of op.i_rs),
        .jit (.stxi_i .op_data_addr LIGHTREC_REG_STATE (rc.host_of op.i_rs)),
        .free_reg (rc.host_of op.i_rs)] ++
      (if load_rt then
        [emit.alloc_reg_in op.i_rt (rc.host_of op.i_rt),
          .jit (.stxi_i .op_data_data LIGHTREC_REG_STATE (rc.host_of op.i_rt)),
          .free_reg (rc.host_of op.i_rt)]
      else []) ++
      [.alloc_reg_temp (rc.temp 0), .alloc_reg_temp (rc.temp 1),
        .jit (.ldxi (rc.temp 1) LIGHTREC_REG_STATE .rw_func), .jit (.movi (rc.temp 0) op.word),
        .jit (.stxi_i .op_data_op LIGHTREC_REG_STATE (rc.temp 0))],
      [emit.free_reg (rc.temp 0), .free_reg (rc.temp 1), .mark_live] ++
      (if read_rt ∧ op.i_rt ≠ 0 then
        [emit.alloc_reg_out op.i_rt (rc.host_of op.i_rt),
          .jit (.ldxi_i (rc.host_of op.i_rt) LIGHTREC_REG_STATE .op_data_data),
          .free_reg (rc.host_of op.i_rt)]
      else []), ?_, ?_, ?_⟩
    · simp [rec_io]
    · cases load_rt <;> simp
    · simp
  · exact ⟨[emit.alloc_reg_temp (rc.temp 0), .alloc_reg_temp (rc.temp 1),
        .jit (.ldxi (rc.temp 1) LIGHTREC_REG_STATE .mfc_func), .jit (.movi (rc.temp 0) op.word),
        .jit (.stxi_i .op_data_op LIGHTREC_REG_STATE (rc.temp 0))],
      [emit.free_reg (rc.temp 0), .free_reg (rc.temp 1), .mark_live,
        .alloc_reg_out op.r_rt (rc.host_of op.r_rt),
        .jit (.ldxi_i (rc.host_of op.r_rt) LIGHTREC_REG_STATE .op_data_data),
        .free_reg (rc.host_of op.r_rt)], rfl, by simp, by simp⟩
  · by_cases hc : op.i_op = OP_CP0 ∧ (op.r_rd = 12 ∨ op.r_rd = 13)
    · refine ⟨[emit.alloc_reg_temp (rc.temp 0), .alloc_reg_temp (rc.temp 1),
          .alloc_reg_in op.r_rt (rc.host_of op.r_rt),
          .jit (.ldxi (rc.temp 1) LIGHTREC_REG_STATE .mtc_func),
          .jit (.movi (rc.temp 0) op.word),
          .jit (.stxi_i .op_data_op LIGHTREC_REG_STATE (rc.temp 0)),
          .jit (.stxi_i .op_data_data LIGHTREC_REG_STATE (rc.host_of op.r_rt)),
          .free_reg (rc.host_of op.r_rt)],
          [emit.free_reg (rc.temp 0), .free_reg (rc.temp 1), .mark_live] ++
            (lightrec_emit_end_of_block rc st pc (-1) (u32 (pc + 4)) 0 0 none).1, ?_, ?_, ?_⟩
      · simp only [rec_mtc, if_pos hc, rec_mtc_call, List.cons_append, List.nil_append]
      · simp
      · simp
    · refine ⟨[emit.alloc_reg_temp (rc.temp 0), .alloc_reg_temp (rc.temp 1),
          .alloc_reg_in op.r_rt (rc.host_of op.r_rt),
          .jit (.ldxi (rc.temp 1) LIGHTREC_REG_STATE .mtc_func),
          .jit (.movi (rc.temp 0) op.word),
          .jit (.stxi_i .op_data_op LIGHTREC_REG_STATE (rc.temp 0)),
          .jit (.stxi_i .op_data_data LIGHTREC_REG_STATE (rc.host_of op.r_rt)),
          .free_reg (rc.host_of op.r_rt)],
          [emit.free_reg (rc.temp 0), .free_reg (rc.temp 1), .mark_live], ?_, ?_, ?_⟩
      · simp only [rec_mtc, if_neg hc, rec_mtc_call, List.cons_append, List.nil_append]
      · simp
      · simp
  · exact ⟨[emit.alloc_reg_temp (rc.temp 0),
        .jit (.ldxi (rc.temp 0) LIGHTREC_REG_STATE .rfe_func)],
      [emit.free_reg (rc.temp 0), .mark_live], rfl, by simp, by simp⟩
  · exact ⟨[emit.alloc_reg_temp (rc.temp 0), .alloc_reg_temp (rc.temp 1),
        .jit (.ldxi (rc.temp 1) LIGHTREC_REG_STATE .cp_func), .jit (.movi (rc.temp 0) op.word),
        .jit (.stxi_i .op_data_op LIGHTREC_REG_STATE (rc.temp 0))],
      [emit.free_reg (rc.temp 0), .free_reg (rc.temp 1), .mark_live], rfl, by simp, by simp⟩
  · refine ⟨[emit.alloc_reg_temp (rc.temp 0),
        .jit (.ldxi (rc.temp 0) LIGHTREC_REG_STATE (if is_break then .break_func
          else .syscall_func))],
        [emit.free_reg (rc.temp 0), .mark_live] ++
          (lightrec_emit_end_of_block rc st pc (-1) pc 31 0 none).1, ?_, ?_, ?_⟩
    · simp only [rec_break_syscall, List.cons_append, List.nil_append]
    · simp
    · simp


/-! ## Direct stores and loads in emitted code -/

/-- C15 (evaluation): on a 64-bit host with `offset_ram = 0x10000000` and
`offset_scratch = 0`, the code emitted by `rec_store_direct` for
`SB $2, -1($1)` with `$1 = 0x80200000` (the last RAM byte, `a = 0x1fffff`) writes
nothing to the code LUT and stores the byte at `offset_scratch + a`; for
`SB $2, 1($1)` with `$1 = 0x80001000` (`a = 0x1001`) the pointer-sized LUT write
goes to byte offset `2 * a = 0x2002` from `code_lut`, not to
`(a >> 2) * 8 = 0x2000`; it does come before the data store. -/
theorem rec_store_direct_lut_write :
    (exec 64 (rec_store_direct sample_regcache 64 (sample_state 0) sample_sb_last .str_c)
        (sample_machine (sample_regs 0xffffffff80200000 0))).events
      = [.store .str_c 0x1fffff 0x5a] ∧
    (exec 64 (rec_store_direct sample_regcache 64 (sample_state 0) sample_sb_odd .str_c)
        (sample_machine (sample_regs 0xffffffff80001000 0))).events
      = [.state_store .code_lut (0x7000000 + 0x2002) 0 8,
          .store .str_c (0x10000000 + 0x1001) 0x5a] ∧
    (0x1001 >>> 2) * 8 = 0x2000 := by
  decide

/-- C16 (evaluation): on a 64-bit host with `offset_ram = 0x10000000` and
`offset_scratch = 0`, for `SB $2, -1($1)` with `$1 = 0x80200000` the code of
`rec_store_direct_no_invalidate` stores the byte at host address
`offset_ram + 0x1fffff`, while the code of `rec_store_direct` stores it at
`offset_scratch + 0x1fffff`. -/
theorem rec_store_direct_no_invalidate_differs :
    (exec 64
        (rec_store_direct_no_invalidate sample_regcache 64 (sample_state 0) sample_sb_last
          .str_c)
        (sample_machine (sample_regs 0xffffffff80200000 0))).events
      = [.store .str_c (0x10000000 + 0x1fffff) 0x5a] ∧
    (exec 64 (rec_store_direct sample_regcache 64 (sample_state 0) sample_sb_last .str_c)
        (sample_machine (sample_regs 0xffffffff80200000 0))).events
      = [.store .str_c (0 + 0x1fffff) 0x5a] := by
  decide

/-- C17 (evaluation): on a 64-bit host with `offset_ram = 0x10000000`,
`offset_bios = 0x10400000` and `offset_scratch = 0`, the code emitted by
`rec_load_direct` for `LW $2, 0($1)` with `$1 = 0x1f800010` (scratch pad) loads
from `0x1f800010` plus whatever the scratch host register held before: from
`0x1f800010 + 0xdead` when it held `0xdead`. -/
theorem rec_load_direct_scratch_junk :
    (exec 64 (rec_load_direct sample_regcache 64 (sample_state 0) sample_lw_direct .ldr_i)
        (sample_machine (sample_regs 0x1f800010 0xdead))).events
      = [.load .ldr_i (0x1f800010 + 0xdead)] ∧
    (exec 64 (rec_load_direct sample_regcache 64 (sample_state 0) sample_lw_direct .ldr_i)
        (sample_machine (sample_regs 0x1f800010 0))).events
      = [.load .ldr_i 0x1f800010] := by
  decide


/-! ## Stores through the callbacks of a map -/

/-- C27 (evaluation): `SWC2 $2, 0($0)` with address `0x1f801810`, which hits the
hardware-register map (map 3, with callbacks): `lightrec_rw` calls the load
callback `lw` of the map and no store callback, and returns what `lw` returned
(`0x5a`), not 0; `SW` at the same address calls `sw` and returns 0. -/
theorem lightrec_rw_swc2_calls_lw :
    (∃ r, lightrec_rw kunseg_mask 1 1 (sample_state_hw 1) sample_swc2 zero_mem 0x1f801810 0x1234
          = some r ∧
        r.events = [.cb_lw 3 0x1f801810] ∧ r.ret = 0x5a) ∧
    (∃ r, lightrec_rw kunseg_mask 1 1 (sample_state_hw 1) { word := 0xAC020000, flags := 0 }
          zero_mem 0x1f801810 0x1234 = some r ∧
        r.events = [.cb_sw 3 0x1f801810 0x1234] ∧ r.ret = 0) ∧
    is_store sample_swc2.i_op = true := by
  refine ⟨⟨_, rfl, ?_, ?_⟩, ⟨_, rfl, ?_, ?_⟩, ?_⟩ <;> decide

/-! ## The generic coprocessor helper -/

/-- C28 (evaluation): the COP0 word `0x42200000` (`rs = 0x11`) is lowered by
`rec_CP0` through `rec_CP`, and `lightrec_cp_cb` calls `cop2_ops.op` for it; the
COP2 word `0x48200000` (`rs = 1`) is lowered by `rec_CP2` through `rec_CP`, and
`lightrec_cp_cb` calls `cop0_ops.op` for it.  Each callback receives the full
word. -/
theorem lightrec_cp_cb_tests_bit_25 :
    sample_cop0_word.i_op = OP_CP0 ∧
    rec_CP0 sample_regcache sample_emitter_state sample_cop0_word 0x80001000
      = (rec_CP sample_regcache sample_cop0_word, sample_emitter_state) ∧
    lightrec_cp_cb (sample_state 0) sample_cop0_word = [.op 2 0x42200000] ∧
    sample_cop2_word.i_op = OP_CP2 ∧
    rec_CP2 sample_regcache sample_emitter_state sample_cop2_word 0x80001000
      = (rec_CP sample_regcache sample_cop2_word, sample_emitter_state) ∧
    lightrec_cp_cb (sample_state 0) sample_cop2_word = [.op 0 0x48200000] := by
  refine ⟨by decide, ?_, by decide, by decide, ?_, by decide⟩
  · simp [rec_CP0, sample_cop0_word, opcode.r_rs, OP_CP0_MFC0, OP_CP0_CFC0, OP_CP0_MTC0,
      OP_CP0_CTC0, OP_CP0_RFE]
  · simp [rec_CP2, sample_cop2_word, opcode.r_rs, opcode.r_op, OP_CP2_BASIC, OP_CP2_BASIC_MFC2,
      OP_CP2_BASIC_CFC2, OP_CP2_BASIC_MTC2, OP_CP2_BASIC_CTC2]

/-! ## `lightrec_invalidate_all` -/

/-- C25 (evaluation): with two megabytes of RAM the code LUT has `0x80000`
entries, all non-null here.  After `lightrec_invalidate_all` the entries from
`0x10000` on are still non-null when a pointer has 8 bytes, and those from
`0x20000` on when it has 4 bytes: the last entry `0x7ffff` keeps its value on
both hosts, while entry 0 is null. -/
theorem lightrec_invalidate_all_keeps_entries :
    (map_at (sample_state 7) PSX_MAP_KERNEL_USER_RAM).length >>> 2 = 0x80000 ∧
    (lightrec_invalidate_all 8 (sample_state 7)).code_lut 0 = 0 ∧
    (lightrec_invalidate_all 8 (sample_state 7)).code_lut 0xffff = 0 ∧
    (lightrec_invalidate_all 8 (sample_state 7)).code_lut 0x10000 = 7 ∧
    (lightrec_invalidate_all 8 (sample_state 7)).code_lut 0x7ffff = 7 ∧
    (lightrec_invalidate_all 4 (sample_state 7)).code_lut 0x1ffff = 0 ∧
    (lightrec_invalidate_all 4 (sample_state 7)).code_lut 0x20000 = 7 ∧
    (lightrec_invalidate_all 4 (sample_state 7)).code_lut 0x7ffff = 7 := by
  decide

/-! ## The hash table of the texture dumper -/

/-- C30 (evaluation): inserting the 33 distinct hashes `0, 0x10000, ..,
32 * 0x10000`, all of bucket 0, with every allocation succeeding: after 17
inserts the bucket has `len = 17` above its `capacity = 16` field (32 slots are
allocated), after 32 inserts `len = 32` fills the allocation, and the 33rd insert
writes `hashes[32]` with only 32 slots allocated. -/
theorem hash_table_insert_writes_outside :
    ((insert_all empty_hash_table (bucket0_hashes 17)).bucket 0).map
        (fun e => (e.capacity, e.len, e.hashes.length)) = some (16, 17, 32) ∧
    ((insert_all empty_hash_table (bucket0_hashes 32)).bucket 0).map
        (fun e => (e.capacity, e.len, e.hashes.length)) = some (16, 32, 32) ∧
    (insert_all empty_hash_table (bucket0_hashes 33)).outside = some (32, 32) ∧
    (bucket0_hashes 33).Nodup ∧
    ∀ h ∈ bucket0_hashes 33, h % HASH_TABLE_SIZE = 0 ∧ h < 2 ^ 32 := by
  refine ⟨by decide, by decide, by decide, by decide, by decide⟩


/-! ## The parts of the end-of-block epilogue -/

/-- The sequence emitted by `lightrec_emit_end_of_block`, part by part: link
write, next PC, delay slot, storeback, `JIT_V0` and cycle counter, way out. -/
theorem eob_parts (rc : regcache) (st : emitter_state) (pc : Nat) (reg_new_pc : Int)
    (imm ra_reg link : Nat) (ds : Option delay_slot) :
    (lightrec_emit_end_of_block rc st pc reg_new_pc imm ra_reg link ds).1
      = (if link ≠ 0 then link_write rc ra_reg link else []) ++
        (if reg_new_pc < 0 then [emit.alloc_reg JIT_V0, .jit (.movi JIT_V0 imm)] else []) ++
        delay_code ds pc ++
        [.storeback_regs,
          .jit (.movr JIT_V0 (if reg_new_pc < 0 then JIT_V0 else reg_new_pc.toNat)),
          .jit (.subi LIGHTREC_REG_CYCLE LIGHTREC_REG_CYCLE (eob_cycles st ds))] ++
        eob_exit st ds := by
  rcases ds with _ | d
  · simp [lightrec_emit_end_of_block, link_write, delay_code, eob_cycles, eob_exit]
  · cases hn : d.has_next <;>
      simp [lightrec_emit_end_of_block, link_write, delay_code, eob_cycles, eob_exit, hn]

/-- The actions of an end-of-block epilogue that belong to the lowering of a
conditional branch come from the delay slot. -/
theorem eob_branch_part (rc : regcache) (st : emitter_state) (pc : Nat) (reg_new_pc : Int)
    (imm ra_reg link : Nat) (ds : Option delay_slot) :
    ∀ e ∈ (lightrec_emit_end_of_block rc st pc reg_new_pc imm ra_reg link ds).1,
      is_branch_part e = true → e ∈ delay_code ds pc := by
  intro e he hb
  rw [eob_parts] at he
  simp only [List.mem_append] at he
  rcases he with (((he | he) | he) | he) | he
  · exfalso
    by_cases hl : link = 0
    · simp [hl] at he
    · simp only [hl, ne_eq, not_false_eq_true, if_true, link_write, List.mem_cons,
        List.mem_singleton, List.not_mem_nil, or_false] at he
      rcases he with rfl | rfl | rfl <;> simp [is_branch_part] at hb
  · exfalso
    by_cases hp : reg_new_pc < 0
    · simp only [hp, if_true, List.mem_cons, List.mem_singleton, List.not_mem_nil,
        or_false] at he
      rcases he with rfl | rfl <;> simp [is_branch_part] at hb
    · simp [hp] at he
  · exact he
  · exfalso
    simp only [List.mem_cons, List.mem_singleton, List.not_mem_nil, or_false] at he
    rcases he with rfl | rfl | rfl <;> simp [is_branch_part] at hb
  · exfalso
    unfold eob_exit at he
    split at he
    · simp only [List.mem_append, List.mem_map, List.mem_cons, List.mem_singleton,
        List.not_mem_nil, or_false] at he
      rcases he with ⟨l, -, rfl⟩ | rfl | rfl <;> simp [is_branch_part] at hb
    · simp only [List.mem_singleton] at he
      subst he
      simp [is_branch_part] at hb


/-! ## Branches on two equal registers -/

/-- C21 (counterexample): `BNE $1, $1, +2` is lowered by `rec_b` with
`unconditional = false`: the sequence holds the compare-and-branch node
`beqr`, the snapshot of the register cache and the label of the not-taken
path. -/
theorem rec_BNE_same_register_conditional :
    sample_bne_same.i_rs = sample_bne_same.i_rt ∧
    rec_BNE sample_regcache 64 4 sample_emitter_state sample_bne_same none 0x80001000
      = rec_b sample_regcache 64 4 sample_emitter_state sample_bne_same none 0x80001000
          .beqr 0 false false ∧
    emit.jit (.new_node_pww .beqr 8 41 41)
      ∈ (rec_BNE sample_regcache 64 4 sample_emitter_state sample_bne_same none 0x80001000).1 ∧
    emit.enter_branch
      ∈ (rec_BNE sample_regcache 64 4 sample_emitter_state sample_bne_same none 0x80001000).1 ∧
    emit.jit (.patch 8)
      ∈ (rec_BNE sample_regcache 64 4 sample_emitter_state sample_bne_same none 0x80001000).1 ∧
    emit.leave_branch
      ∈ (rec_BNE sample_regcache 64 4 sample_emitter_state sample_bne_same none 0x80001000).1 := by
  refine ⟨by decide, rfl, by decide, by decide, by decide, by decide⟩

/-- C21 (amended): a BEQ with `rs == rt`, `rs = rt = 0` included, is lowered
as unconditional: the emitted sequence is the end-of-block epilogue for the
branch target alone, and it holds a compare-and-branch node or a snapshot of
the register cache only where the code of the delay slot does.  A BNE is
lowered as a conditional branch whatever its registers: head with the node
`beqr` and the snapshot, taken-side epilogue, label and not-taken path. -/
theorem rec_BEQ_same_register_unconditional (rc : regcache) (W : Nat) ( LIGHTREC_NO_DS : Nat)
    (st : emitter_state) (op : opcode) (next : Option delay_slot) (pc : Nat)
    (h : op.i_rs = op.i_rt) :
    rec_BEQ rc W LIGHTREC_NO_DS st op next pc
      = rec_b rc W LIGHTREC_NO_DS st op next pc .bner 0 true false ∧
    rec_BEQ rc W LIGHTREC_NO_DS st op next pc
      = lightrec_emit_end_of_block rc st pc (-1) (branch_target op pc) 31 0
          (delay_slot_of LIGHTREC_NO_DS op next) ∧
    (∀ e ∈ (rec_BEQ rc W LIGHTREC_NO_DS st op next pc).1, is_branch_part e = true →
      e ∈ delay_code (delay_slot_of LIGHTREC_NO_DS op next) pc) ∧
    rec_BNE rc W LIGHTREC_NO_DS st op next pc
      = rec_b rc W LIGHTREC_NO_DS st op next pc .beqr 0 false false ∧
    (rec_BNE rc W LIGHTREC_NO_DS st op next pc).1
      = rec_b_head rc W op .beqr st.next_label false ++
        (lightrec_emit_end_of_block rc { st with next_label := st.next_label + 1 } pc (-1)
          (branch_target op pc) 31 0 (delay_slot_of LIGHTREC_NO_DS op next)).1 ++
        rec_b_tail rc (delay_slot_of LIGHTREC_NO_DS op next) pc st.next_label 0 false ∧
    emit.jit (.new_node_pww .beqr st.next_label (rc.host_of op.i_rs) (rc.host_of op.i_rt))
      ∈ rec_b_head rc W op .beqr st.next_label false ∧
    emit.enter_branch ∈ rec_b_head rc W op .beqr st.next_label false := by
  have hbeq : rec_BEQ rc W LIGHTREC_NO_DS st op next pc
      = lightrec_emit_end_of_block rc st pc (-1) (branch_target op pc) 31 0
          (delay_slot_of LIGHTREC_NO_DS op next) := by
    simp [rec_BEQ, rec_b, h]
  refine ⟨by simp [rec_BEQ, h], hbeq, ?_, rfl, rfl, ?_, ?_⟩
  · rw [hbeq]
    exact eob_branch_part rc st pc (-1) (branch_target op pc) 31 0 _
  · simp [rec_b_head]
  · simp [rec_b_head]

theorem rec_BEQ_same_register_unconditional_witness :
    rec_BEQ sample_regcache 64 4 sample_emitter_state sample_beq_same none 0x80001000
      = lightrec_emit_end_of_block sample_regcache sample_emitter_state 0x80001000 (-1)
          (branch_target sample_beq_same 0x80001000) 31 0
          (delay_slot_of 4 sample_beq_same none) ∧
    branch_target sample_beq_same 0x80001000 = 0x8000100c :=
  ⟨(rec_BEQ_same_register_unconditional sample_regcache 64 4 sample_emitter_state
      sample_beq_same none 0x80001000 (by decide)).2.1, by decide⟩


/-! ## The link register of jumps and branches -/

/-- The epilogue of a linking transfer starts with the write of the link
register. -/
theorem eob_link (rc : regcache) (st : emitter_state) (pc : Nat) (reg_new_pc : Int)
    (imm ra_reg link : Nat) (ds : Option delay_slot) (h : link ≠ 0) :
    (lightrec_emit_end_of_block rc st pc reg_new_pc imm ra_reg link ds).1
      = link_write rc ra_reg link ++ eob_rest st pc reg_new_pc imm ds := by
  rw [eob_parts]
  simp [eob_rest, h]

/-- The epilogue of a transfer with `link = 0` holds no link write. -/
theorem eob_no_link (rc : regcache) (st : emitter_state) (pc : Nat) (reg_new_pc : Int)
    (imm ra_reg : Nat) (ds : Option delay_slot) :
    (lightrec_emit_end_of_block rc st pc reg_new_pc imm ra_reg 0 ds).1
      = eob_rest st pc reg_new_pc imm ds := by
  rw [eob_parts]
  simp [eob_rest]

/-- C23: for a linking transfer at a guest address `pc` whose link value `pc + 8`
is not 0 as a `u32`, that is for every `pc` other than `0xfffffff8` (an address
in none of the PSX memory maps, so that no block is made for it), the emitted
sequence writes `pc + 8` to the link register through `lightrec_alloc_reg_out`:
to `$31` for JAL, to `rd` for JALR (after the request of `rs`), and for BLTZAL
and BGEZAL to `$31` at the start of the taken-side epilogue and again after the
label of the not-taken path; a BGEZAL on `$0` is unconditional, has no
not-taken path, and has the taken-side write only. -/
theorem link_register_write (rc : regcache) (W : Nat) ( LIGHTREC_NO_DS : Nat)
    (st : emitter_state) (op : opcode) (next : Option delay_slot) (pc : Nat)
    (hpc : u32 (pc + 8) ≠ 0) :
    (rec_JAL rc LIGHTREC_NO_DS st op next pc).1
      = link_write rc 31 (u32 (pc + 8)) ++
        eob_rest st pc (-1) ((pc &&& 0xf0000000) ||| u32 (op.j_imm <<< 2))
          (delay_slot_of LIGHTREC_NO_DS op next) ∧
    (rec_special_JALR rc LIGHTREC_NO_DS st op next pc).1
      = emit.request_reg_in op.r_rs JIT_V0 ::
        (link_write rc op.r_rd (u32 (pc + 8)) ++
          eob_rest st pc (JIT_V0 : Nat) 0 (delay_slot_of LIGHTREC_NO_DS op next)) ∧
    (rec_regimm_BLTZAL rc W LIGHTREC_NO_DS st op next pc).1
      = rec_b_head rc W op .bgei st.next_label true ++
        (link_write rc 31 (u32 (pc + 8)) ++
          eob_rest { st with next_label := st.next_label + 1 } pc (-1) (branch_target op pc)
            (delay_slot_of LIGHTREC_NO_DS op next)) ++
        ([.jit (.patch st.next_label), .leave_branch] ++ link_write rc 31 (u32 (pc + 8)) ++
          delay_code (delay_slot_of LIGHTREC_NO_DS op next) pc) ∧
    (op.i_rs ≠ 0 →
      (rec_regimm_BGEZAL rc W LIGHTREC_NO_DS st op next pc).1
        = rec_b_head rc W op .blti st.next_label true ++
          (link_write rc 31 (u32 (pc + 8)) ++
            eob_rest { st with next_label := st.next_label + 1 } pc (-1) (branch_target op pc)
              (delay_slot_of LIGHTREC_NO_DS op next)) ++
          ([.jit (.patch st.next_label), .leave_branch] ++ link_write rc 31 (u32 (pc + 8)) ++
            delay_code (delay_slot_of LIGHTREC_NO_DS op next) pc)) ∧
    (op.i_rs = 0 →
      (rec_regimm_BGEZAL rc W LIGHTREC_NO_DS st op next pc).1
        = link_write rc 31 (u32 (pc + 8)) ++
          eob_rest st pc (-1) (branch_target op pc) (delay_slot_of LIGHTREC_NO_DS op next)) := by
  have htail : ∀ ds : Option delay_slot,
      rec_b_tail rc ds pc st.next_label (u32 (pc + 8)) true
        = [.jit (.patch st.next_label), .leave_branch] ++ link_write rc 31 (u32 (pc + 8)) ++
          delay_code ds pc := by
    intro ds
    simp [rec_b_tail, link_write, delay_code, hpc]
  refine ⟨?_, ?_, ?_, ?_, ?_⟩
  · simp only [rec_JAL]
    exact eob_link rc st pc (-1) _ 31 _ _ hpc
  · simp only [rec_special_JALR]
    rw [eob_link rc st pc _ _ _ _ _ hpc]
  · simp only [rec_regimm_BLTZAL, rec_b, Bool.false_eq_true, if_false]
    rw [eob_link rc _ pc (-1) _ 31 _ _ hpc, htail]
  · intro hrs
    simp only [rec_regimm_BGEZAL, rec_b, hrs, decide_False, Bool.false_eq_true, if_false]
    rw [eob_link rc _ pc (-1) _ 31 _ _ hpc, htail]
  · intro hrs
    simp only [rec_regimm_BGEZAL, rec_b, hrs, decide_True, if_true]
    exact eob_link rc st pc (-1) _ 31 _ _ hpc

theorem link_register_write_witness :
    (rec_JAL sample_regcache 4 sample_emitter_state sample_jal (some sample_delay_slot)
        0x80001000).1
      = link_write sample_regcache 31 (u32 (0x80001000 + 8)) ++
        eob_rest sample_emitter_state 0x80001000 (-1)
          ((0x80001000 &&& 0xf0000000) ||| u32 (sample_jal.j_imm <<< 2))
          (delay_slot_of 4 sample_jal (some sample_delay_slot)) ∧
    link_write sample_regcache 31 (u32 (0x80001000 + 8))
      = [.alloc_reg_out 31 71, .jit (.movi 71 0x80001008), .free_reg 71] :=
  ⟨(link_register_write sample_regcache 64 4 sample_emitter_state sample_jal
      (some sample_delay_slot) 0x80001000 (by decide)).1, by decide⟩


/-! ## SWC2 and LWC2 -/

/-- C22: on a map without callbacks, `lightrec_rw` for SWC2 stores the word
`cop2_ops.mfc(rt)` at the host address of the effective address and returns 0,
whatever its `data` argument is; for LWC2 it calls `cop2_ops.mtc(rt, word)` with
the word read there and returns 0.  `rec_SWC2` and `rec_LWC2` are
`rec_io(block, op, false, false)`: the emitted sequence requests no output
register, requests as input only `rs` (the base of the address), and moves
nothing through `op_data.data`. -/
theorem swc2_lwc2_bypass_register_cache (kunseg : Nat → Nat) (dio fuel : Nat)
    (st : lightrec_state) (op : opcode) (mem : host_mem) (addr data i t : Nat) (rc : regcache)
    (hmap : lightrec_get_map st (u32 (kunseg (rw_addr op addr))) = some i)
    (hops : (map_at st i).ops = none)
    (hmir : follow_mirror st.maps fuel i = some t) :
    (op.i_op = OP_SWC2 →
      ∃ r, lightrec_rw kunseg dio fuel st op mem addr data = some r ∧ r.ret = 0 ∧
        r.events = [.cop2_mfc op.i_rt,
          .host_store (uptr ((map_at st t).address
              + (u32 (kunseg (rw_addr op addr)) - (map_at st i).pc))) 4
            (u32 (st.ops.cop2_ops.mfc op.i_rt))] ∧
        r.mem = write32 mem (uptr ((map_at st t).address
              + (u32 (kunseg (rw_addr op addr)) - (map_at st i).pc)))
            (u32 (st.ops.cop2_ops.mfc op.i_rt)) ∧
        ∀ data', (lightrec_rw kunseg dio fuel st op mem addr data').map
            (fun r' => (r'.mem, r'.events, r'.ret, r'.state.code_lut))
          = some (r.mem, r.events, r.ret, r.state.code_lut)) ∧
    (op.i_op = OP_LWC2 →
      ∃ r, lightrec_rw kunseg dio fuel st op mem addr data = some r ∧ r.ret = 0 ∧
        r.events = [.host_load (uptr ((map_at st t).address
              + (u32 (kunseg (rw_addr op addr)) - (map_at st i).pc))) 4,
          .cop2_mtc op.i_rt (read32 mem (uptr ((map_at st t).address
              + (u32 (kunseg (rw_addr op addr)) - (map_at st i).pc))))] ∧
        r.mem = mem) ∧
    rec_SWC2 rc op = rec_io rc op false false ∧
    rec_LWC2 rc op = rec_io rc op false false ∧
    rec_io rc op false false
      = [.alloc_reg_in op.i_rs (rc.host_of op.i_rs),
          .jit (.stxi_i .op_data_addr LIGHTREC_REG_STATE (rc.host_of op.i_rs)),
          .free_reg (rc.host_of op.i_rs),
          .alloc_reg_temp (rc.temp 0), .alloc_reg_temp (rc.temp 1),
          .jit (.ldxi (rc.temp 1) LIGHTREC_REG_STATE .rw_func),
          .jit (.movi (rc.temp 0) op.word),
          .jit (.stxi_i .op_data_op LIGHTREC_REG_STATE (rc.temp 0)),
          .jit (.callr (rc.temp 1)), .free_reg (rc.temp 0), .free_reg (rc.temp 1),
          .mark_live] ∧
    (∀ e ∈ rec_io rc op false false,
      makes_dirty e = false ∧
      (∀ g h, e = .alloc_reg_in g h → g = op.i_rs) ∧
      (∀ b s, e ≠ .jit (.stxi_i .op_data_data b s)) ∧
      (∀ d b, e ≠ .jit (.ldxi_i d b .op_data_data))) := by
  obtain ⟨hit1, -⟩ := get_map_hit st _ i hmap
  have hlt : u32 (kunseg (rw_addr op addr)) < 2 ^ 32 := Nat.mod_lt _ (by norm_num)
  have hio : rec_io rc op false false
      = [.alloc_reg_in op.i_rs (rc.host_of op.i_rs),
          .jit (.stxi_i .op_data_addr LIGHTREC_REG_STATE (rc.host_of op.i_rs)),
          .free_reg (rc.host_of op.i_rs),
          .alloc_reg_temp (rc.temp 0), .alloc_reg_temp (rc.temp 1),
          .jit (.ldxi (rc.temp 1) LIGHTREC_REG_STATE .rw_func),
          .jit (.movi (rc.temp 0) op.word),
          .jit (.stxi_i .op_data_op LIGHTREC_REG_STATE (rc.temp 0)),
          .jit (.callr (rc.temp 1)), .free_reg (rc.temp 0), .free_reg (rc.temp 1),
          .mark_live] := by
    simp [rec_io]
  refine ⟨?_, ?_, rfl, rfl, hio, ?_⟩
  · intro h
    refine ⟨_, rw_direct_unfold kunseg dio fuel st op mem addr data i t hmap hops hmir, ?_⟩
    rw [u32_sub_of_le _ _ hit1 hlt]
    refine ⟨?_, ?_, ?_, ?_⟩
    · simp [lightrec_rw_direct, opcode.i_op, opcode.i_rt] at h ⊢
      simp [h, OP_SWC2, OP_SB, OP_SH, OP_SWL, OP_SWR, OP_SW]
    · simp [lightrec_rw_direct, opcode.i_op, opcode.i_rt] at h ⊢
      simp [h, OP_SWC2, OP_SB, OP_SH, OP_SWL, OP_SWR, OP_SW]
    · simp [lightrec_rw_direct, opcode.i_op, opcode.i_rt] at h ⊢
      simp [h, OP_SWC2, OP_SB, OP_SH, OP_SWL, OP_SWR, OP_SW]
    · intro data'
      rw [rw_direct_unfold kunseg dio fuel st op mem addr data' i t hmap hops hmir,
        u32_sub_of_le _ _ hit1 hlt]
      simp [lightrec_rw_direct, opcode.i_op, opcode.i_rt] at h ⊢
      simp [h, OP_SWC2, OP_SB, OP_SH, OP_SWL, OP_SWR, OP_SW]
  · intro h
    refine ⟨_, rw_direct_unfold kunseg dio fuel st op mem addr data i t hmap hops hmir, ?_⟩
    rw [u32_sub_of_le _ _ hit1 hlt]
    refine ⟨?_, ?_, ?_⟩
    · simp [lightrec_rw_direct, opcode.i_op, opcode.i_rt] at h ⊢
      simp [h, OP_LWC2, OP_SWC2, OP_SB, OP_SH, OP_SWL, OP_SWR, OP_SW, OP_LB, OP_LBU, OP_LH,
        OP_LHU, OP_LWL, OP_LWR]
    · simp [lightrec_rw_direct, opcode.i_op, opcode.i_rt] at h ⊢
      simp [h, OP_LWC2, OP_SWC2, OP_SB, OP_SH, OP_SWL, OP_SWR, OP_SW, OP_LB, OP_LBU, OP_LH,
        OP_LHU, OP_LWL, OP_LWR]
    · simp [lightrec_rw_direct, opcode.i_op, opcode.i_rt] at h ⊢
      simp [h, OP_LWC2, OP_SWC2, OP_SB, OP_SH, OP_SWL, OP_SWR, OP_SW, OP_LB, OP_LBU, OP_LH,
        OP_LHU, OP_LWL, OP_LWR]
  · intro e he
    rw [hio] at he
    simp only [List.mem_cons, List.mem_singleton, List.not_mem_nil, or_false] at he
    rcases he with rfl | rfl | rfl | rfl | rfl | rfl | rfl | rfl | rfl | rfl | rfl | rfl <;>
      simp [makes_dirty]


theorem swc2_lwc2_bypass_register_cache_witness :
    (∃ r, lightrec_rw kunseg_mask 1 1 (sample_state 1) sample_swc2 zero_mem 0x80000010 0x1234
          = some r ∧ r.ret = 0 ∧
        r.events = [.cop2_mfc 2, .host_store 0x10000010 4 0] ∧
        r.mem = write32 zero_mem 0x10000010 0 ∧
        ∀ data', (lightrec_rw kunseg_mask 1 1 (sample_state 1) sample_swc2 zero_mem 0x80000010
            data').map (fun r' => (r'.mem, r'.events, r'.ret, r'.state.code_lut))
          = some (r.mem, r.events, r.ret, r.state.code_lut)) ∧
    (∃ r, lightrec_rw kunseg_mask 1 1 (sample_state 1) sample_lwc2 zero_mem 0x80000010 0x1234
          = some r ∧ r.ret = 0 ∧
        r.events = [.host_load 0x10000010 4, .cop2_mtc 2 (read32 zero_mem 0x10000010)] ∧
        r.mem = zero_mem) :=
  ⟨(swc2_lwc2_bypass_register_cache kunseg_mask 1 1 (sample_state 1) sample_swc2 zero_mem
      0x80000010 0x1234 0 0 sample_regcache (by decide) rfl (by decide)).1 (by decide),
    (swc2_lwc2_bypass_register_cache kunseg_mask 1 1 (sample_state 1) sample_lwc2 zero_mem
      0x80000010 0x1234 0 0 sample_regcache (by decide) rfl (by decide)).2.1 (by decide)⟩

/-! ## Loads into guest register 0 -/

/-- C24: for a load opcode whose destination `rt` is guest register 0,
`rec_load_direct` emits nothing at all; `rec_io` still emits the call of the
`rw` thunk but no read-back of `op_data.data`; and none of the lowerings of
LB, LBU, LH, LHU, LW, LWL, LWR and LWC2 requests an output register. -/
theorem load_to_register_zero (rc : regcache) (W : Nat) ( LIGHTREC_DIRECT_IO : Nat)
    (state : lightrec_state) (op : opcode) (code : jit_code) (load_rt read_rt : Bool)
    (h : op.i_rt = 0) :
    rec_load_direct rc W state op code = [] ∧
    emit.jit (.callr (rc.temp 1)) ∈ rec_io rc op load_rt read_rt ∧
    (∀ e ∈ rec_io rc op load_rt read_rt,
      makes_dirty e = false ∧ ∀ d b, e ≠ .jit (.ldxi_i d b .op_data_data)) ∧
    (∀ l ∈ [rec_LB rc W LIGHTREC_DIRECT_IO state op, rec_LBU rc W LIGHTREC_DIRECT_IO state op,
        rec_LH rc W LIGHTREC_DIRECT_IO state op, rec_LHU rc W LIGHTREC_DIRECT_IO state op,
        rec_LW rc W LIGHTREC_DIRECT_IO state op, rec_LWL rc op, rec_LWR rc op, rec_LWC2 rc op],
      ∀ e ∈ l, makes_dirty e = false) := by
  have hdirect : ∀ c, rec_load_direct rc W state op c = [] := by
    intro c
    simp [rec_load_direct, h]
  have hio : ∀ a b, ∀ e ∈ rec_io rc op a b,
      makes_dirty e = false ∧ ∀ d b, e ≠ .jit (.ldxi_i d b .op_data_data) := by
    intro a b e he
    cases a <;>
    · simp only [rec_io, h, ne_eq, not_true_eq_false, and_false, if_false, if_true,
        Bool.false_eq_true, List.append_nil, List.mem_append, List.mem_cons,
        List.mem_singleton, List.not_mem_nil, or_false] at he
      rcases he with (he | he) | he <;>
        (try rcases he with rfl | rfl | rfl | rfl | rfl | rfl | rfl | rfl | rfl) <;>
        simp [makes_dirty] at *
  have hload : ∀ c, ∀ e ∈ rec_load rc W LIGHTREC_DIRECT_IO state op c, makes_dirty e = false := by
    intro c e he
    unfold rec_load at he
    split at he
    · simp [hdirect] at he
    · exact (hio _ _ e he).1
  refine ⟨hdirect code, ?_, hio load_rt read_rt, ?_⟩
  · cases load_rt <;> simp [rec_io]
  · intro l hl
    simp only [List.mem_cons, List.mem_singleton, List.not_mem_nil, or_false] at hl
    rcases hl with rfl | rfl | rfl | rfl | rfl | rfl | rfl | rfl
    · exact hload _
    · exact hload _
    · exact hload _
    · exact hload _
    · exact hload _
    · exact fun e he => (hio _ _ e he).1
    · exact fun e he => (hio _ _ e he).1
    · exact fun e he => (hio _ _ e he).1

theorem load_to_register_zero_witness :
    rec_load_direct sample_regcache 64 (sample_state 0) sample_lw_zero .ldr_i = [] ∧
    emit.jit (.callr (sample_regcache.temp 1)) ∈ rec_io sample_regcache sample_lw_zero false true ∧
    (∀ e ∈ rec_io sample_regcache sample_lw_zero false true,
      makes_dirty e = false ∧ ∀ d b, e ≠ .jit (.ldxi_i d b .op_data_data)) :=
  ⟨(load_to_register_zero sample_regcache 64 1 (sample_state 0) sample_lw_zero .ldr_i false true
      (by decide)).1,
    (load_to_register_zero sample_regcache 64 1 (sample_state 0) sample_lw_zero .ldr_i false true
      (by decide)).2.1,
    (load_to_register_zero sample_regcache 64 1 (sample_state 0) sample_lw_zero .ldr_i false true
      (by decide)).2.2.1⟩


/-! ## The condition of the emitted branches -/

theorem sext_32_val (W v : Nat) (hv : v < 2 ^ 32) :
    sext W 32 v = if v < 2 ^ 31 then v else v + (2 ^ W - 2 ^ 32) := by
  unfold sext
  rw [Nat.mod_eq_of_lt hv]

theorem sext_32_idem (v : Nat) (hv : v < 2 ^ 32) :
    sext 64 32 (sext 64 32 v) % 2 ^ 64 = sext 64 32 v := by
  obtain ⟨hlow, hlt⟩ := sext_32_low 64 v (Or.inr rfl) hv
  have hval := sext_32_val 64 v hv
  generalize sext 64 32 v = x at *
  unfold sext
  rw [hlow]
  norm_num at hval hv hlt ⊢
  split_ifs at hval ⊢ <;> omega

theorem sext_32_inj (W a b : Nat) (hW : W = 32 ∨ W = 64) (ha : a < 2 ^ 32) (hb : b < 2 ^ 32)
    (h : sext W 32 a = sext W 32 b) : a = b := by
  have h1 := (sext_32_low W a hW ha).1
  have h2 := (sext_32_low W b hW hb).1
  rw [← h1, ← h2, h]

theorem sext_32_pos (W v : Nat) (hW : W = 32 ∨ W = 64) (hv : v < 2 ^ 32) :
    signed_lt W 0 (sext W 32 v) = decide (0 < v ∧ v < 2 ^ 31) := by
  rw [sext_32_val W v hv, Bool.eq_iff_iff]
  rcases hW with rfl | rfl
  · unfold signed_lt
    norm_num at hv ⊢
    omega
  · unfold signed_lt
    norm_num at hv ⊢
    split_ifs <;> omega

theorem sext_32_zero (W v : Nat) (hW : W = 32 ∨ W = 64) (hv : v < 2 ^ 32) :
    sext W 32 v = 0 ↔ v = 0 := by
  rw [sext_32_val W v hv]
  rcases hW with rfl | rfl <;> split_ifs <;> omega


/-- The compare-and-branch node of a branch on one register, with what follows
it in the head of `rec_b`: the label is pending exactly when the node jumps. -/
theorem exec_branch_node_bz (W : Nat) (c : jit_code) (lbl r : Nat) (m : host_machine)
    (hskip : m.skip = none) (hhalt : m.halted = false) (hc : c ≠ .beqr) (hc' : c ≠ .bner) :
    (exec W [.jit (.new_node_pww c lbl r 0), .free_regs, .enter_branch] m).skip
      = (if branch_fires W c (m.regs r) 0 then some lbl else none) ∧
    (exec W [.jit (.new_node_pww c lbl r 0), .free_regs, .enter_branch] m).halted = false ∧
    (exec W [.jit (.new_node_pww c lbl r 0), .free_regs, .enter_branch] m).events = m.events := by
  by_cases hf : branch_fires W c (m.regs r) 0 = true
  · cases c <;> first
      | exact absurd rfl hc
      | exact absurd rfl hc'
      | simp [exec, exec_step, exec_node, hskip, hhalt, hf]
  · cases c <;> first
      | exact absurd rfl hc
      | exact absurd rfl hc'
      | simp [exec, exec_step, exec_node, hskip, hhalt, hf]

/-- The compare-and-branch node of a branch on two registers, with what follows
it in the head of `rec_b`. -/
theorem exec_branch_node_rr (W : Nat) (c : jit_code) (lbl r r' : Nat) (m : host_machine)
    (hskip : m.skip = none) (hhalt : m.halted = false) (hc : c = .beqr ∨ c = .bner) :
    (exec W [.jit (.new_node_pww c lbl r r'), .free_regs, .enter_branch] m).skip
      = (if branch_fires W c (m.regs r) (m.regs r') then some lbl else none) ∧
    (exec W [.jit (.new_node_pww c lbl r r'), .free_regs, .enter_branch] m).halted = false ∧
    (exec W [.jit (.new_node_pww c lbl r r'), .free_regs, .enter_branch] m).events
      = m.events := by
  by_cases hf : branch_fires W c (m.regs r) (m.regs r') = true
  · rcases hc with rfl | rfl <;> simp [exec, exec_step, exec_node, hskip, hhalt, hf]
  · rcases hc with rfl | rfl <;> simp [exec, exec_step, exec_node, hskip, hhalt, hf]


theorem exec_append (W : Nat) (a b : List emit) (m : host_machine) :
    exec W (a ++ b) m = exec W b (exec W a m) := by
  simp [exec, List.foldl_append]

theorem sext_of_mod (W x : Nat) : sext W 32 (x % 2 ^ 32) = sext W 32 x := by
  unfold sext
  rw [Nat.mod_mod]

theorem sext_64_lt (x : Nat) : sext 64 32 x < 2 ^ 64 := by
  unfold sext
  have := Nat.mod_lt x (show 0 < 2 ^ 32 by norm_num)
  norm_num at this ⊢
  split_ifs <;> omega

theorem sext_64_sext (x : Nat) : sext 64 32 (sext 64 32 x) = sext 64 32 x := by
  have h := Nat.mod_lt x (show 0 < 2 ^ 32 by norm_num)
  have e : sext 64 32 x % 2 ^ 32 = x % 2 ^ 32 := by
    unfold sext
    norm_num at h ⊢
    split_ifs <;> omega
  rw [← sext_of_mod 64 (sext 64 32 x), e, sext_of_mod]

/-- A register of a 32-bit host holds the guest value itself. -/
theorem reg_32_eq (x v : Nat) (hx : x < 2 ^ 32) (h : x % 2 ^ 32 = v) : x = sext 32 32 v := by
  rw [sext_32_32, ← h, Nat.mod_mod, Nat.mod_eq_of_lt hx]

/-- The head of `rec_b` for a branch on one register whose host register holds
the guest value `vs` in its low 32 bits: after it the label is pending exactly
when the compare-and-branch node jumps on the sign-extended value of `rs`. -/
theorem exec_rec_b_head_bz (rc : regcache) (W : Nat) (op : opcode) (c : jit_code) (lbl : Nat)
    (m : host_machine) (vs : Nat) (hW : W = 32 ∨ W = 64)
    (hword : ∀ r, m.regs r < 2 ^ W)
    (hskip : m.skip = none) (hhalt : m.halted = false)
    (hrs : m.regs (rc.host_of op.i_rs) % 2 ^ 32 = vs)
    (hc : c ≠ .beqr) (hc' : c ≠ .bner) :
    (exec W (rec_b_head rc W op c lbl true) m).skip
      = (if branch_fires W c (sext W 32 vs) 0 then some lbl else none) ∧
    (exec W (rec_b_head rc W op c lbl true) m).halted = false ∧
    (exec W (rec_b_head rc W op c lbl true) m).events = m.events := by
  rcases hW with rfl | rfl
  · have hhead : rec_b_head rc 32 op c lbl true
        = [.alloc_reg_in op.i_rs (rc.host_of op.i_rs)] ++
          [.jit (.new_node_pww c lbl (rc.host_of op.i_rs) 0), .free_regs, .enter_branch] := by
      simp [rec_b_head]
    have h1 : exec 32 [.alloc_reg_in op.i_rs (rc.host_of op.i_rs)] m = m := by
      simp [exec, exec_step, hskip, hhalt]
    rw [hhead, exec_append, h1, ← reg_32_eq _ _ (hword _) hrs]
    exact exec_branch_node_bz 32 c lbl _ m hskip hhalt hc hc'
  · have hhead : rec_b_head rc 64 op c lbl true
        = [.alloc_reg_in op.i_rs (rc.host_of op.i_rs),
            .jit (.extr_i (rc.host_of op.i_rs) (rc.host_of op.i_rs))] ++
          [.jit (.new_node_pww c lbl (rc.host_of op.i_rs) 0), .free_regs, .enter_branch] := by
      simp [rec_b_head]
    have h1 : exec 64 [.alloc_reg_in op.i_rs (rc.host_of op.i_rs),
          .jit (.extr_i (rc.host_of op.i_rs) (rc.host_of op.i_rs))] m
        = set_reg 64 m (rc.host_of op.i_rs) (sext 64 32 vs) := by
      rw [← hrs, sext_of_mod]
      simp [exec, exec_step, exec_node, hskip, hhalt]
    have h2 := exec_branch_node_bz 64 c lbl (rc.host_of op.i_rs)
      (set_reg 64 m (rc.host_of op.i_rs) (sext 64 32 vs)) hskip hhalt hc hc'
    have h3 : (set_reg 64 m (rc.host_of op.i_rs) (sext 64 32 vs)).regs
        (rc.host_of op.i_rs) = sext 64 32 vs := by
      have hlt := sext_64_lt vs
      simp only [set_reg, Function.update_same]
      exact Nat.mod_eq_of_lt hlt
    rw [hhead, exec_append, h1]
    rw [h3] at h2
    exact h2

/-- The sign extensions in the head of `rec_b` for a branch on two registers, on
a 64-bit host: `rs` is extended, `rt` is extended unless it lives in host
register 0. -/
theorem exec_extr_pair (g g' r r' : Nat) (m : host_machine)
    (hskip : m.skip = none) (hhalt : m.halted = false)
    (hT : r' = 0 → m.regs 0 = sext 64 32 (m.regs 0)) :
    (exec 64 ([.alloc_reg_in g r, .alloc_reg_in g' r'] ++
        ([.jit (.extr_i r r)] ++ (if r' ≠ 0 then [emit.jit (.extr_i r' r')] else []))) m).skip
      = none ∧
    (exec 64 ([.alloc_reg_in g r, .alloc_reg_in g' r'] ++
        ([.jit (.extr_i r r)] ++ (if r' ≠ 0 then [emit.jit (.extr_i r' r')] else []))) m).halted
      = false ∧
    (exec 64 ([.alloc_reg_in g r, .alloc_reg_in g' r'] ++
        ([.jit (.extr_i r r)] ++ (if r' ≠ 0 then [emit.jit (.extr_i r' r')] else []))) m).events
      = m.events ∧
    (exec 64 ([.alloc_reg_in g r, .alloc_reg_in g' r'] ++
        ([.jit (.extr_i r r)] ++ (if r' ≠ 0 then [emit.jit (.extr_i r' r')] else []))) m).regs r
      = sext 64 32 (m.regs r) ∧
    (exec 64 ([.alloc_reg_in g r, .alloc_reg_in g' r'] ++
        ([.jit (.extr_i r r)] ++ (if r' ≠ 0 then [emit.jit (.extr_i r' r')] else []))) m).regs r'
      = sext 64 32 (m.regs r') := by
  have hS : sext 64 32 (m.regs r) % 18446744073709551616 = sext 64 32 (m.regs r) :=
    Nat.mod_eq_of_lt (sext_64_lt (m.regs r))
  have hT' : sext 64 32 (m.regs r') % 18446744073709551616 = sext 64 32 (m.regs r') :=
    Nat.mod_eq_of_lt (sext_64_lt (m.regs r'))
  have hSS := sext_64_sext (m.regs r)
  by_cases h1 : r = r'
  · subst h1
    by_cases h0 : r = 0
    · subst h0
      simp [exec, exec_step, exec_node, set_reg, hskip, hhalt, hS]
    · simp [exec, exec_step, exec_node, set_reg, hskip, hhalt, hS, h0, hSS]
  · have h1' : ¬ r' = r := fun h => h1 h.symm
    by_cases h0 : r' = 0
    · subst h0
      have hT0 := hT rfl
      simp [exec, exec_step, exec_node, set_reg, hskip, hhalt, hS, h1, h1',
        Function.update_apply]
      exact hT0
    · simp [exec, exec_step, exec_node, set_reg, hskip, hhalt, hS, hT', h0, h1, h1',
        Function.update_apply]


/-- The head of `rec_b` for a branch on two registers whose host registers hold
the guest values in their low 32 bits: after it the label is pending exactly
when the compare-and-branch node jumps on the sign-extended values of `rs` and
`rt`, provided that on a 64-bit host `rt` does not live in host register 0 or
that register holds a sign-extended value. -/
theorem exec_rec_b_head_rr (rc : regcache) (W : Nat) (op : opcode) (c : jit_code) (lbl : Nat)
    (m : host_machine) (vs vt : Nat) (hW : W = 32 ∨ W = 64)
    (hword : ∀ r, m.regs r < 2 ^ W)
    (hskip : m.skip = none) (hhalt : m.halted = false)
    (hrs : m.regs (rc.host_of op.i_rs) % 2 ^ 32 = vs)
    (hrt : m.regs (rc.host_of op.i_rt) % 2 ^ 32 = vt)
    (hext : W = 64 → rc.host_of op.i_rt = 0 → m.regs 0 = sext 64 32 vt)
    (hc : c = .beqr ∨ c = .bner) :
    (exec W (rec_b_head rc W op c lbl false) m).skip
      = (if branch_fires W c (sext W 32 vs) (sext W 32 vt) then some lbl else none) ∧
    (exec W (rec_b_head rc W op c lbl false) m).halted = false ∧
    (exec W (rec_b_head rc W op c lbl false) m).events = m.events := by
  rcases hW with rfl | rfl
  · have hhead : rec_b_head rc 32 op c lbl false
        = [.alloc_reg_in op.i_rs (rc.host_of op.i_rs),
            .alloc_reg_in op.i_rt (rc.host_of op.i_rt)] ++
          [.jit (.new_node_pww c lbl (rc.host_of op.i_rs) (rc.host_of op.i_rt)), .free_regs,
            .enter_branch] := by
      simp [rec_b_head]
    have h1 : exec 32 [.alloc_reg_in op.i_rs (rc.host_of op.i_rs),
          .alloc_reg_in op.i_rt (rc.host_of op.i_rt)] m = m := by
      simp [exec, exec_step, hskip, hhalt]
    rw [hhead, exec_append, h1, ← reg_32_eq _ _ (hword _) hrs, ← reg_32_eq _ _ (hword _) hrt]
    exact exec_branch_node_rr 32 c lbl _ _ m hskip hhalt hc
  · have hT : rc.host_of op.i_rt = 0 → m.regs 0 = sext 64 32 (m.regs 0) := by
      intro h0
      have e := hext rfl h0
      rw [h0] at hrt
      rw [← sext_of_mod 64 (m.regs 0), hrt]
      exact e
    obtain ⟨hs1, hh1, he1, hr1, hr2⟩ := exec_extr_pair op.i_rs op.i_rt (rc.host_of op.i_rs)
      (rc.host_of op.i_rt) m hskip hhalt hT
    rw [← sext_of_mod 64 (m.regs (rc.host_of op.i_rs)), hrs] at hr1
    rw [← sext_of_mod 64 (m.regs (rc.host_of op.i_rt)), hrt] at hr2
    have hhead : rec_b_head rc 64 op c lbl false
        = ([.alloc_reg_in op.i_rs (rc.host_of op.i_rs),
            .alloc_reg_in op.i_rt (rc.host_of op.i_rt)] ++
          ([.jit (.extr_i (rc.host_of op.i_rs) (rc.host_of op.i_rs))] ++
            (if rc.host_of op.i_rt ≠ 0 then
              [emit.jit (.extr_i (rc.host_of op.i_rt) (rc.host_of op.i_rt))] else []))) ++
          [.jit (.new_node_pww c lbl (rc.host_of op.i_rs) (rc.host_of op.i_rt)), .free_regs,
            .enter_branch] := by
      simp [rec_b_head]
    rw [hhead, exec_append, ← hr1, ← hr2, ← he1]
    exact exec_branch_node_rr 64 c lbl _ _ _ hs1 hh1 hc


/-- While a forward jump to the label `l` is pending, code that does not bind
`l` is skipped. -/
theorem exec_skip (W l : Nat) :
    ∀ (code : List emit) (m : host_machine), m.skip = some l →
      emit.jit (.patch l) ∉ code → exec W code m = m := by
  intro code
  induction code with
  | nil => intro m _ _; rfl
  | cons e es ih =>
    intro m hs hn
    have he : e ≠ emit.jit (.patch l) := fun h => hn (by simp [h])
    have hes : emit.jit (.patch l) ∉ es := fun h => hn (by simp [h])
    have hstep : exec_step W m e = m := by
      unfold exec_step
      split
      · rfl
      · rw [hs]
        simp only
        split
        · rename_i l' 
          split
          · rename_i h
            exact absurd (by rw [h]) he
          · rfl
        · rfl
    show exec W es (exec_step W m e) = m
    rw [hstep]
    exact ih m hs hes

/-- The labels that an end-of-block epilogue binds are those of the pending
jumps and those bound by the code of the delay slot. -/
theorem eob_patch (rc : regcache) (st : emitter_state) (pc : Nat) (reg_new_pc : Int)
    (imm ra_reg link : Nat) (ds : Option delay_slot) (l : Nat)
    (he : emit.jit (.patch l)
      ∈ (lightrec_emit_end_of_block rc st pc reg_new_pc imm ra_reg link ds).1) :
    l ∈ st.branches ∨ emit.jit (.patch l) ∈ delay_code ds pc := by
  rw [eob_parts] at he
  simp only [List.mem_append] at he
  rcases he with (((he | he) | he) | he) | he
  · exfalso
    by_cases hl : link = 0
    · simp [hl] at he
    · simp [hl, link_write] at he
  · exfalso
    by_cases hp : reg_new_pc < 0
    · simp [hp] at he
    · simp [hp] at he
  · exact Or.inr he
  · exfalso
    simp at he
  · left
    unfold eob_exit at he
    split at he
    · simp only [List.mem_append, List.mem_map, List.mem_cons, List.mem_singleton,
        List.not_mem_nil, or_false] at he
      rcases he with ⟨l', hl', h⟩ | h | h
      · cases h
        exact hl'
      · cases h
      · cases h
    · simp at he

/-- The epilogue of a transfer to an immediate target loads the target into
`JIT_V0`. -/
theorem eob_target (rc : regcache) (st : emitter_state) (pc : Nat)
    (imm ra_reg link : Nat) (ds : Option delay_slot) :
    emit.jit (.movi JIT_V0 imm)
      ∈ (lightrec_emit_end_of_block rc st pc (-1) imm ra_reg link ds).1 := by
  rw [eob_parts]
  simp

theorem to_int_32_sign (v : Nat) (hv : v < 2 ^ 32) :
    (to_int 32 v ≤ 0 ↔ v = 0 ∨ 2 ^ 31 ≤ v) ∧ (0 < to_int 32 v ↔ 0 < v ∧ v < 2 ^ 31) ∧
    (to_int 32 v < 0 ↔ 2 ^ 31 ≤ v) ∧ (0 ≤ to_int 32 v ↔ v < 2 ^ 31) := by
  unfold to_int
  norm_num at hv ⊢
  split_ifs <;> omega


/-- An unconditional `rec_b` is the taken-side epilogue alone. -/
theorem rec_b_lowered_unconditional (rc : regcache) (W : Nat) ( LIGHTREC_NO_DS : Nat)
    (st : emitter_state) (op : opcode) (next : Option delay_slot) (pc : Nat) (m : host_machine)
    (c : jit_code) (link : Nat) (bz : Bool)
    (hskip : m.skip = none) (hhalt : m.halted = false) :
    branch_lowered rc W st pc (branch_target op pc) (delay_slot_of LIGHTREC_NO_DS op next) m
      (rec_b rc W LIGHTREC_NO_DS st op next pc c link true bz).1 true := by
  refine ⟨[], _, [], st, link, ?_, rfl, eob_target _ _ _ _ _ _ _, hhalt, rfl,
    fun _ => hskip, fun h => absurd h (by decide)⟩
  simp [rec_b]

/-- A conditional `rec_b` on one register lowers the branch whose condition is
the negation of the compare-and-branch node. -/
theorem rec_b_lowered_bz (rc : regcache) (W : Nat) ( LIGHTREC_NO_DS : Nat)
    (st : emitter_state) (op : opcode) (next : Option delay_slot) (pc : Nat) (m : host_machine)
    (vs : Nat) (c : jit_code) (link : Nat) (cond : Bool)
    (hW : W = 32 ∨ W = 64) (hword : ∀ r, m.regs r < 2 ^ W)
    (hskip : m.skip = none) (hhalt : m.halted = false)
    (hrs : m.regs (rc.host_of op.i_rs) % 2 ^ 32 = vs)
    (hc : c ≠ .beqr) (hc' : c ≠ .bner)
    (hfresh : st.next_label ∉ st.branches)
    (hds : emit.jit (.patch st.next_label) ∉ delay_code (delay_slot_of LIGHTREC_NO_DS op next) pc)
    (hcond : branch_fires W c (sext W 32 vs) 0 = !cond) :
    branch_lowered rc W st pc (branch_target op pc) (delay_slot_of LIGHTREC_NO_DS op next) m
      (rec_b rc W LIGHTREC_NO_DS st op next pc c link false true).1 cond := by
  obtain ⟨h1, h2, h3⟩ := exec_rec_b_head_bz rc W op c st.next_label m vs hW hword hskip hhalt
    hrs hc hc'
  rw [hcond] at h1
  refine ⟨rec_b_head rc W op c st.next_label true, _,
    rec_b_tail rc (delay_slot_of LIGHTREC_NO_DS op next) pc st.next_label link true,
    { st with next_label := st.next_label + 1 }, link, ?_, rfl, eob_target _ _ _ _ _ _ _, h2, h3,
    ?_, ?_⟩
  · simp [rec_b]
  · intro hct
    simpa [hct] using h1
  · intro hcf
    have hs : (exec W (rec_b_head rc W op c st.next_label true) m).skip = some st.next_label := by
      simpa [hcf] using h1
    refine ⟨hs, ?_, by simp [rec_b_tail]⟩
    rw [exec_append]
    apply exec_skip W st.next_label _ _ hs
    intro hin
    rcases eob_patch _ _ _ _ _ _ _ _ _ hin with h | h
    · exact hfresh h
    · exact hds h

/-- A conditional `rec_b` on two registers lowers the branch whose condition is
the negation of the compare-and-branch node. -/
theorem rec_b_lowered_rr (rc : regcache) (W : Nat) ( LIGHTREC_NO_DS : Nat)
    (st : emitter_state) (op : opcode) (next : Option delay_slot) (pc : Nat) (m : host_machine)
    (vs vt : Nat) (c : jit_code) (link : Nat) (cond : Bool)
    (hW : W = 32 ∨ W = 64) (hword : ∀ r, m.regs r < 2 ^ W)
    (hskip : m.skip = none) (hhalt : m.halted = false)
    (hrs : m.regs (rc.host_of op.i_rs) % 2 ^ 32 = vs)
    (hrt : m.regs (rc.host_of op.i_rt) % 2 ^ 32 = vt)
    (hext : W = 64 → rc.host_of op.i_rt = 0 → m.regs 0 = sext 64 32 vt)
    (hc : c = .beqr ∨ c = .bner)
    (hfresh : st.next_label ∉ st.branches)
    (hds : emit.jit (.patch st.next_label) ∉ delay_code (delay_slot_of LIGHTREC_NO_DS op next) pc)
    (hcond : branch_fires W c (sext W 32 vs) (sext W 32 vt) = !cond) :
    branch_lowered rc W st pc (branch_target op pc) (delay_slot_of LIGHTREC_NO_DS op next) m
      (rec_b rc W LIGHTREC_NO_DS st op next pc c link false false).1 cond := by
  obtain ⟨h1, h2, h3⟩ := exec_rec_b_head_rr rc W op c st.next_label m vs vt hW hword hskip
    hhalt hrs hrt hext hc
  rw [hcond] at h1
  refine ⟨rec_b_head rc W op c st.next_label false, _,
    rec_b_tail rc (delay_slot_of LIGHTREC_NO_DS op next) pc st.next_label link false,
    { st with next_label := st.next_label + 1 }, link, ?_, rfl, eob_target _ _ _ _ _ _ _, h2, h3,
    ?_, ?_⟩
  · simp [rec_b]
  · intro hct
    simpa [hct] using h1
  · intro hcf
    have hs : (exec W (rec_b_head rc W op c st.next_label false) m).skip
        = some st.next_label := by
      simpa [hcf] using h1
    refine ⟨hs, ?_, by simp [rec_b_tail]⟩
    rw [exec_append]
    apply exec_skip W st.next_label _ _ hs
    intro hin
    rcases eob_patch _ _ _ _ _ _ _ _ _ hin with h | h
    · exact hfresh h
    · exact hds h


/-- The condition of the emitted branches on host registers that hold the guest
values in their low 32 bits, whatever their upper bits: for each lowering of a
conditional branch (BEQ, BNE, BLEZ, BGTZ, BLTZ, BGEZ, BLTZAL, BGEZAL and the
meta BEQZ, BNEZ) and for all 32-bit values of `rs` and `rt` (guest register 0
holding 0), the emitted sequence is a head, the taken-side epilogue with next PC
`pc + 4 + (sign-extended imm16 << 2)`, and a tail: after the head the host
branch has fired, and the epilogue is skipped up to the label that starts the
tail, exactly when the guest condition on the signed 32-bit values is false;
when it is true the epilogue is entered.  On a 64-bit host this needs that `rt`
is not cached in host register 0, or that this register holds a sign-extended
value, because `rec_b` does not extend it there.  The label of the branch is a
fresh one: no pending jump and no code of the delay slot binds it. -/
theorem branch_lowering_condition (rc : regcache) (W : Nat) ( LIGHTREC_NO_DS : Nat)
    (st : emitter_state) (op : opcode) (next : Option delay_slot) (pc : Nat) (m : host_machine)
    (vs vt : Nat) (hW : W = 32 ∨ W = 64) (hword : ∀ r, m.regs r < 2 ^ W)
    (hskip : m.skip = none) (hhalt : m.halted = false)
    (hrs : m.regs (rc.host_of op.i_rs) % 2 ^ 32 = vs)
    (hrt : m.regs (rc.host_of op.i_rt) % 2 ^ 32 = vt)
    (hext : W = 64 → rc.host_of op.i_rt = 0 → m.regs 0 = sext 64 32 vt)
    (hzero : op.i_rs = 0 → vs = 0)
    (hfresh : st.next_label ∉ st.branches)
    (hds : emit.jit (.patch st.next_label)
      ∉ delay_code (delay_slot_of LIGHTREC_NO_DS op next) pc) :
    ∀ p ∈ branch_lowerings,
      branch_lowered rc W st pc (branch_target op pc) (delay_slot_of LIGHTREC_NO_DS op next) m
        (p.1 rc W LIGHTREC_NO_DS st op next pc).1 (p.2 vs vt) := by
  have hvs : vs < 2 ^ 32 := hrs ▸ Nat.mod_lt _ (by norm_num)
  have hvt : vt < 2 ^ 32 := hrt ▸ Nat.mod_lt _ (by norm_num)
  obtain ⟨s1, s2, s3, s4⟩ := to_int_32_sign vs hvs
  have hneg := sext_32_neg W vs hW hvs
  have hpos := sext_32_pos W vs hW hvs
  have hz := sext_32_zero W vs hW hvs
  have hinj : sext W 32 vs = sext W 32 vt ↔ vs = vt :=
    ⟨sext_32_inj W vs vt hW hvs hvt, fun h => by rw [h]⟩
  intro p hp
  simp only [branch_lowerings, List.mem_cons, List.mem_singleton, List.not_mem_nil,
    or_false] at hp
  rcases hp with rfl | rfl | rfl | rfl | rfl | rfl | rfl | rfl | rfl | rfl
  · by_cases h : op.i_rs = op.i_rt
    · have hv : vs = vt := by rw [← hrs, ← hrt, h]
      simp only [rec_BEQ, h, decide_True, hv]
      exact rec_b_lowered_unconditional rc W _ st op next pc m _ _ _ hskip hhalt
    · simp only [rec_BEQ, h, decide_False]
      apply rec_b_lowered_rr rc W _ st op next pc m vs vt _ _ _ hW hword hskip hhalt hrs hrt
        hext (Or.inr rfl) hfresh hds
      simp [branch_fires, hinj]
  · simp only [rec_BNE]
    apply rec_b_lowered_rr rc W _ st op next pc m vs vt _ _ _ hW hword hskip hhalt hrs hrt
      hext (Or.inl rfl) hfresh hds
    simp [branch_fires, hinj]
  · by_cases h : op.i_rs = 0
    · have hv : vs = 0 := hzero h
      simp only [rec_BLEZ, h, decide_True, hv]
      exact rec_b_lowered_unconditional rc W _ st op next pc m _ _ _ hskip hhalt
    · simp only [rec_BLEZ, h, decide_False]
      apply rec_b_lowered_bz rc W _ st op next pc m vs _ _ _ hW hword hskip hhalt hrs
        (by decide) (by decide) hfresh hds
      simp only [branch_fires, hpos]
      rw [Bool.eq_iff_iff]
      simp only [decide_eq_true_eq, Bool.not_eq_true', decide_eq_false_iff_not, s1]
      omega
  · simp only [rec_BGTZ]
    apply rec_b_lowered_bz rc W _ st op next pc m vs _ _ _ hW hword hskip hhalt hrs
      (by decide) (by decide) hfresh hds
    simp only [branch_fires, hpos]
    rw [Bool.eq_iff_iff]
    simp only [decide_eq_true_eq, Bool.not_eq_true', decide_eq_false_iff_not, s2]
  · simp only [rec_regimm_BLTZ]
    apply rec_b_lowered_bz rc W _ st op next pc m vs _ _ _ hW hword hskip hhalt hrs
      (by decide) (by decide) hfresh hds
    simp only [branch_fires, hneg]
    rw [Bool.eq_iff_iff]
    simp only [decide_eq_true_eq, Bool.not_eq_true', decide_eq_false_iff_not, s3]
  · by_cases h : op.i_rs = 0
    · have hv : vs = 0 := hzero h
      simp only [rec_regimm_BGEZ, h, decide_True, hv]
      exact rec_b_lowered_unconditional rc W _ st op next pc m _ _ _ hskip hhalt
    · simp only [rec_regimm_BGEZ, h, decide_False]
      apply rec_b_lowered_bz rc W _ st op next pc m vs _ _ _ hW hword hskip hhalt hrs
        (by decide) (by decide) hfresh hds
      simp only [branch_fires, hneg]
      rw [Bool.eq_iff_iff]
      simp only [decide_eq_true_eq, Bool.not_eq_true', decide_eq_false_iff_not, s4]
      omega
  · simp only [rec_regimm_BLTZAL]
    apply rec_b_lowered_bz rc W _ st op next pc m vs _ _ _ hW hword hskip hhalt hrs
      (by decide) (by decide) hfresh hds
    simp only [branch_fires, hneg]
    rw [Bool.eq_iff_iff]
    simp only [decide_eq_true_eq, Bool.not_eq_true', decide_eq_false_iff_not, s3]
  · by_cases h : op.i_rs = 0
    · have hv : vs = 0 := hzero h
      simp only [rec_regimm_BGEZAL, h, decide_True, hv]
      exact rec_b_lowered_unconditional rc W _ st op next pc m _ _ _ hskip hhalt
    · simp only [rec_regimm_BGEZAL, h, decide_False]
      apply rec_b_lowered_bz rc W _ st op next pc m vs _ _ _ hW hword hskip hhalt hrs
        (by decide) (by decide) hfresh hds
      simp only [branch_fires, hneg]
      rw [Bool.eq_iff_iff]
      simp only [decide_eq_true_eq, Bool.not_eq_true', decide_eq_false_iff_not, s4]
      omega
  · simp only [rec_meta_BEQZ]
    apply rec_b_lowered_bz rc W _ st op next pc m vs _ _ _ hW hword hskip hhalt hrs
      (by decide) (by decide) hfresh hds
    simp [branch_fires, hz]
  · simp only [rec_meta_BNEZ]
    apply rec_b_lowered_bz rc W _ st op next pc m vs _ _ _ hW hword hskip hhalt hrs
      (by decide) (by decide) hfresh hds
    simp [branch_fires, hz]


/-- The lowering of `BEQ $1, $2, -3` on a 64-bit host whose register of `$1`
holds `0xfffffffb` without its sign extension. -/
theorem branch_lowering_condition_witness :
    branch_lowered sample_regcache 64 sample_emitter_state 0x80001000
      (branch_target sample_beq 0x80001000) (delay_slot_of 4 sample_beq none)
      (sample_machine (fun r => if r = 41 then 0xfffffffb else if r = 42 then 3 else 0))
      (rec_BEQ sample_regcache 64 4 sample_emitter_state sample_beq none 0x80001000).1
      (decide (0xfffffffb = 3)) ∧
    branch_target sample_beq 0x80001000 = 0x80000ff8 :=
  ⟨branch_lowering_condition sample_regcache 64 4 sample_emitter_state sample_beq none
      0x80001000
      (sample_machine (fun r => if r = 41 then 0xfffffffb else if r = 42 then 3 else 0))
      0xfffffffb 3 (Or.inr rfl) (fun r => by simp only [sample_machine]; split_ifs <;> norm_num)
      rfl rfl (by decide) (by decide)
      (fun _ h => absurd h (by decide)) (by decide) (by decide) (by decide) _
      (List.mem_cons_self _ _), by decide⟩

/-- C29 (evaluation at the failing input): on a 64-bit host, with guest register
`$2` cached in host register 0, `rec_b` skips the sign extension of `rt`
(`if (rt)` tests the number of the host register).  After `ADDU $2, $3, $4` with
`$3 = 0x7fffffff` and `$4 = 1` the host register of `$2` holds
`0x0000000080000000`, and `$1` holds the same guest value `0x80000000`
sign-extended.  In `BEQ $1, $2, -3` the guest condition is true, yet the host
branch `jit_code_bner` fires on the unequal words: the taken-side epilogue is
skipped, the run makes no jump and falls through to the not-taken path.  With
`$2` in another host register the same values run the taken-side epilogue, which
leaves through `jit_jmpr` with the branch target in `JIT_V0`. -/
theorem rec_b_skips_extension_in_host_register_0 :
    (exec 64 (rec_special_ADDU sample_regcache_r0 64 sample_addu_rt)
        (sample_machine sample_regs_sum)).regs (sample_regcache_r0.host_of 2)
      = 0x80000000 ∧
    (exec 64 (rec_special_ADDU sample_regcache_r0 64 sample_addu_rt)
        (sample_machine sample_regs_sum)).regs (sample_regcache_r0.host_of 1) % 2 ^ 32
      = 0x80000000 ∧
    rec_b_head sample_regcache_r0 64 sample_beq .bner 8 false
      = [.alloc_reg_in 1 41, .alloc_reg_in 2 0, .jit (.extr_i 41 41),
          .jit (.new_node_pww .bner 8 41 0), .free_regs, .enter_branch] ∧
    (exec 64 (rec_special_ADDU sample_regcache_r0 64 sample_addu_rt ++
          rec_b_head sample_regcache_r0 64 sample_beq .bner 8 false)
        (sample_machine sample_regs_sum)).skip = some 8 ∧
    (exec 64 (rec_special_ADDU sample_regcache_r0 64 sample_addu_rt ++
          (rec_BEQ sample_regcache_r0 64 4 sample_emitter_state sample_beq none 0x80001000).1)
        (sample_machine sample_regs_sum)).halted = false ∧
    (exec 64 (rec_special_ADDU sample_regcache_r0 64 sample_addu_rt ++
          (rec_BEQ sample_regcache_r0 64 4 sample_emitter_state sample_beq none 0x80001000).1)
        (sample_machine sample_regs_sum)).events = [] ∧
    (exec 64 (rec_special_ADDU sample_regcache 64 sample_addu_rt ++
          (rec_BEQ sample_regcache 64 4 sample_emitter_state sample_beq none 0x80001000).1)
        (sample_machine sample_regs_sum)).halted = true ∧
    (exec 64 (rec_special_ADDU sample_regcache 64 sample_addu_rt ++
          (rec_BEQ sample_regcache 64 4 sample_emitter_state sample_beq none 0x80001000).1)
        (sample_machine sample_regs_sum)).regs JIT_V0 = branch_target sample_beq 0x80001000 := by
  refine ⟨by decide, by decide, by decide, by decide, by decide, by decide, by decide,
    by decide⟩

/-! ## Unaligned words: what SWL, SWR, LWL and LWR compute -/

theorem testBit_high_mask (n i : Nat) (hn : n ≤ 32) :
    (2 ^ 32 - 2 ^ n).testBit i = decide (n ≤ i ∧ i < 32) := by
  have h : 2 ^ 32 - 2 ^ n = 2 ^ n * (2 ^ (32 - n) - 1) := by
    rw [Nat.mul_sub, ← pow_add, Nat.add_sub_cancel' hn, mul_one]
  rw [h, Nat.testBit_mul_pow_two, Nat.testBit_two_pow_sub_one]
  by_cases h1 : n ≤ i
  · simp [h1]; omega
  · simp [h1]

theorem and_high_mask (x n : Nat) (hx : x < 2 ^ 32) (hn : n ≤ 32) :
    x &&& (2 ^ 32 - 2 ^ n) = 2 ^ n * (x / 2 ^ n) := by
  apply Nat.eq_of_testBit_eq
  intro i
  rw [Nat.testBit_and, testBit_high_mask n i hn, Nat.testBit_mul_pow_two,
    ← Nat.shiftRight_eq_div_pow, Nat.testBit_shiftRight]
  by_cases h1 : n ≤ i
  · have e : n + (i - n) = i := by omega
    by_cases h2 : i < 32
    · simp [h1, h2, e]
    · have : x.testBit i = false :=
        Nat.testBit_eq_false_of_lt
          (lt_of_lt_of_le hx (Nat.pow_le_pow_right (by norm_num) (by omega)))
      simp [h1, h2, e, this]
  · simp [h1]

theorem or_parts (a b n : Nat) (hb : b < 2 ^ n) : 2 ^ n * a ||| b = 2 ^ n * a + b :=
  (Nat.mul_add_lt_is_or hb a).symm

theorem or_parts_comm (a b n : Nat) (hb : b < 2 ^ n) : b ||| 2 ^ n * a = 2 ^ n * a + b := by
  rw [Nat.or_comm, or_parts a b n hb]

theorem genmask_31 (n : Nat) (hn : n ≤ 32) : u32 (GENMASK 31 n) = 2 ^ 32 - 2 ^ n := by
  rcases Nat.lt_or_ge n 33 with h | h
  · interval_cases n <;> decide
  · omega

/-- The word that SWR writes, in arithmetic: the data above the low `shift`
bytes of the old word. -/
theorem swr_word (d w s : Nat) :
    u32 ((d <<< (s * 8)) ||| (w &&& ((1 <<< (s * 8)) - 1)))
      = (2 ^ (s * 8) * d + w % 2 ^ (s * 8)) % 2 ^ 32 := by
  rw [Nat.one_shiftLeft, Nat.and_pow_two_sub_one_eq_mod, Nat.shiftLeft_eq, Nat.mul_comm d,
    or_parts _ _ _ (Nat.mod_lt _ (by positivity))]
  rfl

/-- The word that SWL writes, in arithmetic: the top bytes of the data below
the high bytes of the old word. -/
theorem swl_word (d w s : Nat) (hd : d < 2 ^ 32) (hw : w < 2 ^ 32) (hs : s ≤ 3) :
    u32 ((d >>> ((3 - s) * 8)) ||| (w &&& u32 (GENMASK 31 ((s + 1) * 8))))
      = (2 ^ ((s + 1) * 8) * (w / 2 ^ ((s + 1) * 8)) + d / 2 ^ ((3 - s) * 8)) % 2 ^ 32 := by
  have hlt : d / 2 ^ ((3 - s) * 8) < 2 ^ ((s + 1) * 8) := by
    interval_cases s <;> norm_num at hd ⊢ <;> omega
  rw [genmask_31 _ (by omega), and_high_mask w _ hw (by omega), Nat.shiftRight_eq_div_pow,
    or_parts_comm _ _ _ hlt]
  rfl

/-- The value that LWR returns, in arithmetic. -/
theorem lwr_word (r w s : Nat) (hr : r < 2 ^ 32) (hw : w < 2 ^ 32) (hs : s ≤ 3) :
    u32 ((r &&& u32 (GENMASK 31 (32 - s * 8))) ||| (w >>> (s * 8)))
      = (2 ^ (32 - s * 8) * (r / 2 ^ (32 - s * 8)) + w / 2 ^ (s * 8)) % 2 ^ 32 := by
  have hlt : w / 2 ^ (s * 8) < 2 ^ (32 - s * 8) := by
    interval_cases s <;> norm_num at hw ⊢ <;> omega
  rw [genmask_31 _ (by omega), and_high_mask r _ hr (by omega), Nat.shiftRight_eq_div_pow,
    or_parts _ _ _ hlt]
  rfl

/-- The value that LWL returns, in arithmetic. -/
theorem lwl_word (x w s : Nat) (hs : s ≤ 3) :
    u32 ((x &&& ((1 <<< (24 - s * 8)) - 1)) ||| u32 (w <<< (24 - s * 8)))
      = (2 ^ (24 - s * 8) * (w % 2 ^ (8 + s * 8)) + x % 2 ^ (24 - s * 8)) % 2 ^ 32 := by
  have hw : u32 (w <<< (24 - s * 8)) = 2 ^ (24 - s * 8) * (w % 2 ^ (8 + s * 8)) := by
    rw [Nat.shiftLeft_eq, Nat.mul_comm w]
    unfold u32
    have h32 : (2 : Nat) ^ 32 = 2 ^ (24 - s * 8) * 2 ^ (8 + s * 8) := by
      rw [← pow_add]
      congr 1
      omega
    rw [h32, Nat.mul_mod_mul_left]
  rw [hw, Nat.one_shiftLeft, Nat.and_pow_two_sub_one_eq_mod,
    or_parts_comm _ _ _ (Nat.mod_lt _ (by positivity))]
  rfl


theorem read8_lt (mem : host_mem) (a : Nat) : read8 mem a < 2 ^ 8 :=
  Nat.mod_lt _ (by norm_num)

theorem read32_lt (mem : host_mem) (a : Nat) : read32 mem a < 2 ^ 32 := by
  have h0 := read8_lt mem a
  have h1 := read8_lt mem (a + 1)
  have h2 := read8_lt mem (a + 2)
  have h3 := read8_lt mem (a + 3)
  unfold read32
  norm_num at *
  omega

/-- A byte read after a word write: one of the four bytes of the word, or the
old byte. -/
theorem read8_write32 (mem : host_mem) (B v x : Nat) :
    read8 (write32 mem B v) x
      = if x = B + 3 then v / 2 ^ 24 % 2 ^ 8
        else if x = B + 2 then v / 2 ^ 16 % 2 ^ 8
        else if x = B + 1 then v / 2 ^ 8 % 2 ^ 8
        else if x = B then v % 2 ^ 8
        else read8 mem x := by
  unfold write32 write8 read8
  simp only [Function.update_apply]
  split_ifs <;> simp

theorem read32_write32_same (mem : host_mem) (B v : Nat) (hv : v < 2 ^ 32) :
    read32 (write32 mem B v) B = v := by
  unfold read32
  simp only [read8_write32]
  norm_num at hv ⊢
  omega

theorem read32_write32_above (mem : host_mem) (B v : Nat) :
    read32 (write32 mem B v) (B + 4) = read32 mem (B + 4) := by
  unfold read32
  simp only [read8_write32]
  have e1 : ¬ (B + 4 = B + 3) := by omega
  have e2 : ¬ (B + 4 = B + 2) := by omega
  have e3 : ¬ (B + 4 = B + 1) := by omega
  have e4 : ¬ (B + 4 = B) := by omega
  have f1 : ¬ (B + 4 + 1 = B + 3) := by omega
  have f2 : ¬ (B + 4 + 1 = B + 2) := by omega
  have f3 : ¬ (B + 4 + 1 = B + 1) := by omega
  have f4 : ¬ (B + 4 + 1 = B) := by omega
  have g1 : ¬ (B + 4 + 2 = B + 3) := by omega
  have g2 : ¬ (B + 4 + 2 = B + 2) := by omega
  have g3 : ¬ (B + 4 + 2 = B + 1) := by omega
  have g4 : ¬ (B + 4 + 2 = B) := by omega
  have k1 : ¬ (B + 4 + 3 = B + 3) := by omega
  have k2 : ¬ (B + 4 + 3 = B + 2) := by omega
  have k3 : ¬ (B + 4 + 3 = B + 1) := by omega
  have k4 : ¬ (B + 4 + 3 = B) := by omega
  simp only [e1, e2, e3, e4, f1, f2, f3, f4, g1, g2, g3, g4, k1, k2, k3, k4, if_false]

theorem read32_write32_below (mem : host_mem) (B v : Nat) :
    read32 (write32 mem (B + 4) v) B = read32 mem B := by
  unfold read32
  simp only [read8_write32]
  have e1 : ¬ (B = B + 4 + 3) := by omega
  have e2 : ¬ (B = B + 4 + 2) := by omega
  have e3 : ¬ (B = B + 4 + 1) := by omega
  have e4 : ¬ (B = B + 4) := by omega
  have f1 : ¬ (B + 1 = B + 4 + 3) := by omega
  have f2 : ¬ (B + 1 = B + 4 + 2) := by omega
  have f3 : ¬ (B + 1 = B + 4 + 1) := by omega
  have f4 : ¬ (B + 1 = B + 4) := by omega
  have g1 : ¬ (B + 2 = B + 4 + 3) := by omega
  have g2 : ¬ (B + 2 = B + 4 + 2) := by omega
  have g3 : ¬ (B + 2 = B + 4 + 1) := by omega
  have g4 : ¬ (B + 2 = B + 4) := by omega
  have k1 : ¬ (B + 3 = B + 4 + 3) := by omega
  have k2 : ¬ (B + 3 = B + 4 + 2) := by omega
  have k3 : ¬ (B + 3 = B + 4 + 1) := by omega
  have k4 : ¬ (B + 3 = B + 4) := by omega
  simp only [e1, e2, e3, e4, f1, f2, f3, f4, g1, g2, g3, g4, k1, k2, k3, k4, if_false]


theorem read8_write32_byte (mem : host_mem) (B v j : Nat) (hj : j < 4) :
    read8 (write32 mem B v) (B + j) = v / 2 ^ (j * 8) % 2 ^ 8 := by
  interval_cases j
  · simp only [Nat.add_zero, Nat.zero_mul, pow_zero, Nat.div_one]
    rw [read8_write32, if_neg (by omega), if_neg (by omega), if_neg (by omega), if_pos rfl]
  · rw [read8_write32, if_neg (by omega), if_neg (by omega), if_pos rfl]
  · rw [read8_write32, if_neg (by omega), if_pos rfl]
  · rw [read8_write32, if_pos rfl]

theorem read8_write32_far (mem : host_mem) (B v x : Nat) (h : x < B ∨ B + 3 < x) :
    read8 (write32 mem B v) x = read8 mem x := by
  rw [read8_write32, if_neg (by omega), if_neg (by omega), if_neg (by omega), if_neg (by omega)]

theorem read32_byte (mem : host_mem) (B j : Nat) (hj : j < 4) :
    read8 mem (B + j) = read32 mem B / 2 ^ (j * 8) % 2 ^ 8 := by
  have a0 := read8_lt mem B
  have a1 := read8_lt mem (B + 1)
  have a2 := read8_lt mem (B + 2)
  have a3 := read8_lt mem (B + 3)
  unfold read32
  interval_cases j
  · simp only [Nat.add_zero]
    generalize read8 mem B = p0 at *
    generalize read8 mem (B + 1) = p1 at *
    generalize read8 mem (B + 2) = p2 at *
    generalize read8 mem (B + 3) = p3 at *
    norm_num at a0 a1 a2 a3 ⊢
    omega
  · generalize read8 mem B = p0 at *
    generalize read8 mem (B + 1) = p1 at *
    generalize read8 mem (B + 2) = p2 at *
    generalize read8 mem (B + 3) = p3 at *
    norm_num at a0 a1 a2 a3 ⊢
    omega
  · generalize read8 mem B = p0 at *
    generalize read8 mem (B + 1) = p1 at *
    generalize read8 mem (B + 2) = p2 at *
    generalize read8 mem (B + 3) = p3 at *
    norm_num at a0 a1 a2 a3 ⊢
    omega
  · generalize read8 mem B = p0 at *
    generalize read8 mem (B + 1) = p1 at *
    generalize read8 mem (B + 2) = p2 at *
    generalize read8 mem (B + 3) = p3 at *
    norm_num at a0 a1 a2 a3 ⊢
    omega

theorem low_bytes (v w s j : Nat) (hs : s ≤ 3) (hj : j < s)
    (h : v % 2 ^ (s * 8) = w % 2 ^ (s * 8)) :
    v / 2 ^ (j * 8) % 2 ^ 8 = w / 2 ^ (j * 8) % 2 ^ 8 := by
  interval_cases s <;> interval_cases j <;> norm_num at h ⊢ <;> omega

theorem high_bytes (v w s j : Nat) (hs : s ≤ j) (hj : j ≤ 3)
    (h : v / 2 ^ (s * 8) = w / 2 ^ (s * 8)) :
    v / 2 ^ (j * 8) % 2 ^ 8 = w / 2 ^ (j * 8) % 2 ^ 8 := by
  interval_cases j <;> interval_cases s <;> norm_num at h ⊢ <;> omega

/-- The words of an unaligned round trip with a shift of 1, 2 or 3 bytes, in
arithmetic: the second load returns the data, SWR keeps the low `s` bytes of
its word and SWL the high `4 - s` bytes of its word. -/
theorem round_trip_bits (s d r w0 w1 v1 v2 x3 x4 : Nat) (hs1 : 1 ≤ s) (hs : s ≤ 3)
    (hd : d < 2 ^ 32) (hw1 : w1 < 2 ^ 32)
    (hv1 : v1 = (2 ^ (s * 8) * d + w0 % 2 ^ (s * 8)) % 2 ^ 32)
    (hv2 : v2 = (2 ^ ((s - 1 + 1) * 8) * (w1 / 2 ^ ((s - 1 + 1) * 8))
      + d / 2 ^ ((3 - (s - 1)) * 8)) % 2 ^ 32)
    (hx3 : x3 = (2 ^ (32 - s * 8) * (r / 2 ^ (32 - s * 8)) + v1 / 2 ^ (s * 8)) % 2 ^ 32)
    (hx4 : x4 = (2 ^ (24 - (s - 1) * 8) * (v2 % 2 ^ (8 + (s - 1) * 8))
      + x3 % 2 ^ (24 - (s - 1) * 8)) % 2 ^ 32) :
    x4 = d ∧ v1 % 2 ^ (s * 8) = w0 % 2 ^ (s * 8) ∧ v2 / 2 ^ (s * 8) = w1 / 2 ^ (s * 8) := by
  interval_cases s <;> norm_num at hd hw1 hv1 hv2 hx3 hx4 ⊢ <;>
    exact ⟨by omega, by omega, by omega⟩


/-- The two stores and two loads of an unaligned word on the aligned words at
`B` and `B'`: SWR with shift `s`, SWL with shift `s'`, LWR, LWL.  The second
load returns the data, and the bytes below `B + s` and above `B + s + 3` keep
their values. -/
theorem round_trip_core (mem mem1 mem2 : host_mem) (B B' s s' d r v1 v2 x3 x4 : Nat)
    (hcase : (s = 0 ∧ s' = 3 ∧ B' = B) ∨ (1 ≤ s ∧ s ≤ 3 ∧ s' = s - 1 ∧ B' = B + 4))
    (hd : d < 2 ^ 32) (hr : r < 2 ^ 32)
    (hv1 : v1 = u32 ((d <<< (s * 8)) ||| (read32 mem B &&& ((1 <<< (s * 8)) - 1))))
    (hm1 : mem1 = write32 mem B v1)
    (hv2 : v2 = u32 ((d >>> ((3 - s') * 8)) |||
      (read32 mem1 B' &&& u32 (GENMASK 31 ((s' + 1) * 8)))))
    (hm2 : mem2 = write32 mem1 B' v2)
    (hx3 : x3 = u32 ((r &&& u32 (GENMASK 31 (32 - s * 8))) ||| (read32 mem2 B >>> (s * 8))))
    (hx4 : x4 = u32 ((x3 &&& ((1 <<< (24 - s' * 8)) - 1)) |||
      u32 (read32 mem2 B' <<< (24 - s' * 8)))) :
    x4 = d ∧ ∀ x, (x < B + s ∨ B + s + 3 < x) → read8 mem2 x = read8 mem x := by
  have hv1lt : v1 < 2 ^ 32 := by rw [hv1]; exact Nat.mod_lt _ (by norm_num)
  have hv2lt : v2 < 2 ^ 32 := by rw [hv2]; exact Nat.mod_lt _ (by norm_num)
  have hs : s ≤ 3 := by omega
  have hs' : s' ≤ 3 := by omega
  rw [swr_word] at hv1
  rw [swl_word d _ s' hd (read32_lt _ _) hs'] at hv2
  rw [lwr_word r _ s hr (read32_lt _ _) hs] at hx3
  rw [lwl_word _ _ s' hs'] at hx4
  rcases hcase with ⟨rfl, rfl, hB⟩ | ⟨hs1, -, rfl, hB⟩
  · have hB' : B = B' := hB.symm
    subst hB'
    have e1 : read32 mem1 B = v1 := by rw [hm1]; exact read32_write32_same _ _ _ hv1lt
    have e2 : read32 mem2 B = v2 := by rw [hm2]; exact read32_write32_same _ _ _ hv2lt
    rw [e1] at hv2
    rw [e2] at hx3 hx4
    refine ⟨?_, ?_⟩
    · clear hm1 hm2 e1 e2
      generalize read32 mem B = w0 at hv1
      norm_num at hv1 hv2 hx3 hx4 hd hv1lt hv2lt
      omega
    · intro x hx
      rw [hm2, read8_write32_far _ _ _ _ (by omega), hm1, read8_write32_far _ _ _ _ (by omega)]
  · have hB' : B + 4 = B' := hB.symm
    subst hB'
    have e1 : read32 mem1 (B + 4) = read32 mem (B + 4) := by
      rw [hm1]; exact read32_write32_above _ _ _
    have e2 : read32 mem2 B = v1 := by
      rw [hm2, read32_write32_below, hm1]; exact read32_write32_same _ _ _ hv1lt
    have e3 : read32 mem2 (B + 4) = v2 := by rw [hm2]; exact read32_write32_same _ _ _ hv2lt
    rw [e1] at hv2
    rw [e2] at hx3
    rw [e3] at hx4
    obtain ⟨h1, h2, h3⟩ := round_trip_bits s d r (read32 mem B) (read32 mem (B + 4)) v1 v2 x3 x4
      hs1 hs hd (read32_lt _ _) hv1 hv2 hx3 hx4
    refine ⟨h1, ?_⟩
    intro x hx
    by_cases hfar : x < B ∨ B + 7 < x
    · rw [hm2, read8_write32_far _ _ _ _ (by omega), hm1, read8_write32_far _ _ _ _ (by omega)]
    · by_cases hlow : x < B + 4
      · obtain ⟨j, rfl⟩ : ∃ j, x = B + j := ⟨x - B, by omega⟩
        have hj : j < s := by omega
        rw [hm2, read8_write32_far _ _ _ _ (by omega), hm1,
          read8_write32_byte _ _ _ _ (by omega), read32_byte _ _ _ (by omega)]
        exact low_bytes _ _ s j hs hj h2
      · obtain ⟨j, rfl⟩ : ∃ j, x = B + 4 + j := ⟨x - (B + 4), by omega⟩
        have hj : s ≤ j := by omega
        rw [hm2, read8_write32_byte _ _ _ _ (by omega), read32_byte _ _ _ (by omega)]
        exact high_bytes _ _ s j hj (by omega) h3


/-! ## Unaligned word round trip through `lightrec_rw` -/

theorem invalidate_map_maps (st : lightrec_state) (m a : Nat) :
    (lightrec_invalidate_map st m a).maps = st.maps := by
  unfold lightrec_invalidate_map
  split <;> rfl

theorem rw_direct_swr (st : lightrec_state) (op : opcode) (mem : host_mem)
    (map ka na d : Nat) (h : op.i_op = OP_SWR) :
    (lightrec_rw_direct st op mem map ka na d).state.maps = st.maps ∧
    (lightrec_rw_direct st op mem map ka na d).mem
      = write32 mem (align4 na)
          (u32 ((d <<< (ka % 4 * 8)) |||
            (read32 mem (align4 na) &&& ((1 <<< (ka % 4 * 8)) - 1)))) := by
  simp [lightrec_rw_direct, h, OP_SWR, OP_SB, OP_SH, OP_SWL, invalidate_map_maps]

theorem rw_direct_swl (st : lightrec_state) (op : opcode) (mem : host_mem)
    (map ka na d : Nat) (h : op.i_op = OP_SWL) :
    (lightrec_rw_direct st op mem map ka na d).state.maps = st.maps ∧
    (lightrec_rw_direct st op mem map ka na d).mem
      = write32 mem (align4 na)
          (u32 ((d >>> ((3 - ka % 4) * 8)) |||
            (read32 mem (align4 na) &&& u32 (GENMASK 31 ((ka % 4 + 1) * 8))))) := by
  simp [lightrec_rw_direct, h, OP_SB, OP_SH, OP_SWL, invalidate_map_maps]

theorem rw_direct_lwr (st : lightrec_state) (op : opcode) (mem : host_mem)
    (map ka na d : Nat) (h : op.i_op = OP_LWR) :
    (lightrec_rw_direct st op mem map ka na d).state = st ∧
    (lightrec_rw_direct st op mem map ka na d).mem = mem ∧
    (lightrec_rw_direct st op mem map ka na d).ret
      = u32 ((d &&& u32 (GENMASK 31 (32 - ka % 4 * 8))) |||
          (read32 mem (align4 na) >>> (ka % 4 * 8))) := by
  simp [lightrec_rw_direct, h, OP_LWR, OP_SWR, OP_SB, OP_SH, OP_SWL, OP_SW, OP_SWC2, OP_LB,
    OP_LBU, OP_LH, OP_LHU, OP_LWL]

theorem rw_direct_lwl (st : lightrec_state) (op : opcode) (mem : host_mem)
    (map ka na d : Nat) (h : op.i_op = OP_LWL) :
    (lightrec_rw_direct st op mem map ka na d).ret
      = u32 ((d &&& ((1 <<< (24 - ka % 4 * 8)) - 1)) |||
          u32 (read32 mem (align4 na) <<< (24 - ka % 4 * 8))) := by
  simp [lightrec_rw_direct, h, OP_LWL, OP_LWR, OP_SWR, OP_SB, OP_SH, OP_SWL, OP_SW, OP_SWC2,
    OP_LB, OP_LBU, OP_LH, OP_LHU]

/-- Unfolding of `lightrec_rw` on a hit of a map without callbacks in a state
that has the maps of `st`. -/
theorem rw_direct_unfold_maps (kunseg : Nat → Nat) (dio fuel : Nat) (st st' : lightrec_state)
    (op : opcode) (mem : host_mem) (addr data i t k : Nat)
    (hmaps : st'.maps = st.maps)
    (hk : u32 (kunseg (rw_addr op addr)) = k)
    (hmap : lightrec_get_map st k = some i)
    (hops : (map_at st i).ops = none)
    (hmir : follow_mirror st.maps fuel i = some t) :
    lightrec_rw kunseg dio fuel st' op mem addr data
      = some (lightrec_rw_direct st' { op with flags := op.flags ||| dio } mem t
          (k - (map_at st i).pc)
          (uptr ((map_at st t).address + (k - (map_at st i).pc))) data) := by
  have hg : lightrec_get_map st' (u32 (kunseg (rw_addr op addr))) = some i := by
    rw [hk, ← hmap]
    simp [lightrec_get_map, hmaps]
  have hm : ∀ j, map_at st' j = map_at st j := by
    intro j
    simp [map_at, hmaps]
  obtain ⟨hit1, -⟩ := get_map_hit st k i hmap
  have hlt : k < 2 ^ 32 := by rw [← hk]; exact Nat.mod_lt _ (by norm_num)
  rw [rw_direct_unfold kunseg dio fuel st' op mem addr data i t hg (by rw [hm]; exact hops)
    (by rw [hmaps]; exact hmir), hk, hm, hm, u32_sub_of_le _ _ hit1 hlt]


/-- C26: the unaligned word round trip through `lightrec_rw` on a map without
callbacks, on a little-endian host with 64-bit words whose map is at a
4-byte-aligned host address.  For every 32-bit data `d`, every register value
`r`, and every address whose unsegmented form `k` (with `k + 3` for the address
plus 3) lies in the map: SWR at the address and SWL at the address plus 3 with
data `d`, then LWR at the address with `r` and LWL at the address plus 3 with the
result of LWR, all return (the first three to the caller, the walk of the mirror
chain finishing), the last with `d`; and the two stores leave every byte of
host memory outside the four bytes of the word unchanged. -/
theorem unaligned_word_round_trip (kunseg : Nat → Nat) (dio fuel : Nat) (st : lightrec_state)
    (swr swl lwr lwl : opcode) (mem : host_mem) (b1 b2 b3 b4 d r i t k : Nat)
    (h1 : swr.i_op = OP_SWR) (h2 : swl.i_op = OP_SWL)
    (h3 : lwr.i_op = OP_LWR) (h4 : lwl.i_op = OP_LWL)
    (hk1 : u32 (kunseg (rw_addr swr b1)) = k) (hk2 : u32 (kunseg (rw_addr swl b2)) = k + 3)
    (hk3 : u32 (kunseg (rw_addr lwr b3)) = k) (hk4 : u32 (kunseg (rw_addr lwl b4)) = k + 3)
    (hmap : lightrec_get_map st k = some i) (hmap3 : lightrec_get_map st (k + 3) = some i)
    (hops : (map_at st i).ops = none) (hmir : follow_mirror st.maps fuel i = some t)
    (haddr : (map_at st t).address % 4 = 0)
    (hhost : (map_at st t).address + (k - (map_at st i).pc) + 7 < 2 ^ 64)
    (hd : d < 2 ^ 32) (hr : r < 2 ^ 32) :
    ∃ r1 r2 r3 r4,
      lightrec_rw kunseg dio fuel st swr mem b1 d = some r1 ∧
      lightrec_rw kunseg dio fuel r1.state swl r1.mem b2 d = some r2 ∧
      lightrec_rw kunseg dio fuel r2.state lwr r2.mem b3 r = some r3 ∧
      lightrec_rw kunseg dio fuel r3.state lwl r3.mem b4 r3.ret = some r4 ∧
      r4.ret = d ∧
      ∀ x, (x < (map_at st t).address + (k - (map_at st i).pc) ∨
          (map_at st t).address + (k - (map_at st i).pc) + 3 < x) →
        read8 r2.mem x = read8 mem x := by
  obtain ⟨hit1, -⟩ := get_map_hit st k i hmap
  generalize hpc : (map_at st i).pc = pc at *
  generalize hadr : (map_at st t).address = adr at *
  have hA : uptr (adr + (k - pc)) = adr + (k - pc) := by
    unfold uptr
    exact Nat.mod_eq_of_lt (by omega)
  have hA3 : uptr (adr + (k + 3 - pc)) = adr + (k - pc) + 3 := by
    unfold uptr
    rw [Nat.mod_eq_of_lt (by omega)]
    omega
  have e1 := rw_direct_unfold_maps kunseg dio fuel st st swr mem b1 d i t k rfl hk1 hmap hops hmir
  rw [hpc, hadr, hA] at e1
  have p1 := rw_direct_swr st { swr with flags := swr.flags ||| dio } mem t (k - pc)
    (adr + (k - pc)) d h1
  generalize lightrec_rw_direct st { swr with flags := swr.flags ||| dio } mem t (k - pc)
    (adr + (k - pc)) d = R1 at e1 p1
  obtain ⟨m1, w1⟩ := p1
  have e2 := rw_direct_unfold_maps kunseg dio fuel st R1.state swl R1.mem b2 d i t (k + 3) m1 hk2
    hmap3 hops hmir
  rw [hpc, hadr, hA3] at e2
  have p2 := rw_direct_swl R1.state { swl with flags := swl.flags ||| dio } R1.mem t (k + 3 - pc)
    (adr + (k - pc) + 3) d h2
  generalize lightrec_rw_direct R1.state { swl with flags := swl.flags ||| dio } R1.mem t
    (k + 3 - pc) (adr + (k - pc) + 3) d = R2 at e2 p2
  obtain ⟨m2, w2⟩ := p2
  have e3 := rw_direct_unfold_maps kunseg dio fuel st R2.state lwr R2.mem b3 r i t k
    (m2.trans m1) hk3 hmap hops hmir
  rw [hpc, hadr, hA] at e3
  have p3 := rw_direct_lwr R2.state { lwr with flags := lwr.flags ||| dio } R2.mem t (k - pc)
    (adr + (k - pc)) r h3
  generalize lightrec_rw_direct R2.state { lwr with flags := lwr.flags ||| dio } R2.mem t
    (k - pc) (adr + (k - pc)) r = R3 at e3 p3
  obtain ⟨s3, m3, w3⟩ := p3
  have e4 := rw_direct_unfold_maps kunseg dio fuel st R3.state lwl R3.mem b4 R3.ret i t (k + 3)
    (by rw [s3]; exact m2.trans m1) hk4 hmap3 hops hmir
  rw [hpc, hadr, hA3] at e4
  have w4 := rw_direct_lwl R3.state { lwl with flags := lwl.flags ||| dio } R3.mem t (k + 3 - pc)
    (adr + (k - pc) + 3) R3.ret h4
  generalize lightrec_rw_direct R3.state { lwl with flags := lwl.flags ||| dio } R3.mem t
    (k + 3 - pc) (adr + (k - pc) + 3) R3.ret = R4 at e4 w4
  rw [m3] at w4
  have hcore := round_trip_core mem R1.mem R2.mem (align4 (adr + (k - pc)))
    (align4 (adr + (k - pc) + 3)) ((k - pc) % 4) ((k + 3 - pc) % 4) d r _ _ R3.ret R4.ret
    (by unfold align4; omega) hd hr rfl w1 rfl w2 w3 w4
  have hB : align4 (adr + (k - pc)) + (k - pc) % 4 = adr + (k - pc) := by
    unfold align4; omega
  rw [hB] at hcore
  exact ⟨R1, R2, R3, R4, e1, e2, e3, e4, hcore.1, hcore.2⟩


theorem unaligned_word_round_trip_witness :
    ∃ r1 r2 r3 r4,
      lightrec_rw kunseg_mask 1 1 (sample_state 1) sample_swr zero_mem 0x80000101 0x11223344
        = some r1 ∧
      lightrec_rw kunseg_mask 1 1 r1.state sample_swl0 r1.mem 0x80000104 0x11223344 = some r2 ∧
      lightrec_rw kunseg_mask 1 1 r2.state sample_lwr r2.mem 0x80000101 0xdeadbeef = some r3 ∧
      lightrec_rw kunseg_mask 1 1 r3.state sample_lwl r3.mem 0x80000104 r3.ret = some r4 ∧
      r4.ret = 0x11223344 ∧
      ∀ x, (x < 0x10000101 ∨ 0x10000101 + 3 < x) → read8 r2.mem x = read8 zero_mem x :=
  unaligned_word_round_trip kunseg_mask 1 1 (sample_state 1) sample_swr sample_swl0 sample_lwr
    sample_lwl zero_mem 0x80000101 0x80000104 0x80000101 0x80000104 0x11223344 0xdeadbeef 0 0
    0x101 (by decide) (by decide) (by decide) (by decide) (by decide) (by decide) (by decide)
    (by decide) (by decide) (by decide) rfl (by decide) (by decide) (by decide) (by decide)
    (by decide)

end Lightrec
